import Mathlib

/-!
# sd5chip8: a shallow embedding of the CHIP-8 interpreter core

The C++ classes `Chip8Memory`, `Chip8Display` and `Chip8CPU` are embedded as
Lean structures with explicit state passing.

Conventions of the embedding
* `u8` and `u16` values are natural numbers; every place where the C++ code
  truncates (an assignment to a `u8`/`u16` object, a `u8`/`u16` parameter)
  carries an explicit `% 256` or `% 65536`.
* A C++ array or heap buffer is a map from index to value (`Nat → Nat`).
  The declared length is not part of the map: a store `a[i] = v` is
  `setAt a i v` for whatever index the source computes, so the stores the
  source makes one past the end of `V[16]` and `stack[16]` are visible as
  stores to index 16.
* A `bool` result with a mutated object is a pair `Bool × state`; a `bool`
  result with an out-parameter is an `Option`.
* The collaborators outside the interpreter (clock, keyboard, random
  generator) are read through a `Chip8Env` value passed to each call.
* `assert(e)` of `<cassert>` evaluates `e` only when `NDEBUG` is not
  defined. `Chip8CPU::Reset` calls `InitializeDefaultSprites` inside an
  `assert`, so it is embedded twice: `Reset` is the function as built with
  assertions enabled and `ResetNDEBUG` the function as built with `NDEBUG`.
  They differ in the memory and in `defaultSpritesAddr_` only
  (`Reset_ResetNDEBUG`).
* `Chip8Types.h` is not among the sources: `u8` and `u16` are taken as the
  unsigned 8-bit and 16-bit integer types. The tick period of
  `std::chrono::high_resolution_clock` is a library constant: the functions
  that convert microseconds take the number `tpu` of ticks in a microsecond
  as a parameter.
-/

namespace Chip8

/-! ## Chip8Constants.h -/

def CHIP8_DISPLAY_WIDTH : Nat := 64
def CHIP8_DISPLAY_HEIGHT : Nat := 32
def CHIP8_HIRES_DISPLAY_WIDTH : Nat := 64
def CHIP8_HIRES_DISPLAY_HEIGHT : Nat := 64
def CHIP8_MEMORY_SIZE : Nat := 4096
def CHIP8_MEMORY_ETI660_SIZE : Nat := 2048
def CHIP8_CPU_STEPS_PER_FRAME : Nat := 8
def CHIP8_CPU_TIMER_DECREMENT_DELAY_MICROSECONDS : Nat := 16667
def CHIP8_PROGRAM_START : Nat := 0x200
def CHIP8_PROGRAM_ETI660_START : Nat := 0x600
def CHIP8_PROGRAM_HIRES_START : Nat := 0x2C0
def CHIP8_PROGRAM_DEFAULT_SPRITES_START : Nat := 0x000

/-- Array store `a[i] = v` on an index-to-value map. -/
def setAt (a : Nat → Nat) (i v : Nat) : Nat → Nat :=
  fun j => if j = i then v else a j

/-! ## Chip8Memory -/

/-- Class `Chip8Memory`: `memSize_` is the `const u16` capacity, `mem_` the
byte buffer of that many cells. -/
structure Chip8Memory where
  memSize_ : Nat
  mem_ : Nat → Nat

namespace Chip8Memory

/-- `Chip8Memory::Reset`: `for (u16 i = 0; i < memSize_; ++i) mem_[i] = 0;`. -/
def Reset (m : Chip8Memory) : Chip8Memory :=
  { m with mem_ := fun i => if i < m.memSize_ then 0 else m.mem_ i }

/-- `Chip8Memory::ReadValue(u16 address, u8* outVal)`: `none` is the `false`
return, `some b` the `true` return with `*outVal = b`. -/
def ReadValue (m : Chip8Memory) (address : Nat) : Option Nat :=
  if address ≥ m.memSize_ then none else some (m.mem_ address)

/-- `Chip8Memory::WriteValue(u16 address, u8 val)`. -/
def WriteValue (m : Chip8Memory) (address val : Nat) : Bool × Chip8Memory :=
  if address ≥ m.memSize_ then (false, m)
  else (true, { m with mem_ := setAt m.mem_ address val })

/-- `Chip8Memory::GetAllocatedSize`. -/
def GetAllocatedSize (m : Chip8Memory) : Nat := m.memSize_

end Chip8Memory

/-! ## Chip8Display -/

/-- Class `Chip8Display` (the two colours are left out): `u8 w_, h_` and the
cell buffer `pix_` of `GetSize()` cells. -/
structure Chip8Display where
  w_ : Nat
  h_ : Nat
  pix_ : Nat → Nat

namespace Chip8Display

/-- `u16 GetSize() const { return (w_ * h_); }`. -/
def GetSize (d : Chip8Display) : Nat := (d.w_ * d.h_) % 65536

/-- `u16 GetPos(u8 x, u8 y) const { return (x + (y * w_)); }`. -/
def GetPos (d : Chip8Display) (x y : Nat) : Nat :=
  ((x % 256) + (y % 256) * d.w_) % 65536

/-- `Chip8Display::Clear`: `for (u16 i = 0; i < GetSize(); ++i) pix_[i] = 0;`. -/
def Clear (d : Chip8Display) : Chip8Display :=
  { d with pix_ := fun i => if i < d.GetSize then 0 else d.pix_ i }

/-- `Chip8Display::Reset(u8 w, u8 h)`: the freshly allocated buffer has
indeterminate contents (here: whatever the map held) until `Clear` runs. -/
def Reset (d : Chip8Display) (w h : Nat) : Chip8Display :=
  Clear { d with w_ := w % 256, h_ := h % 256 }

/-- `Chip8Display::Plot(u16 x, u16 y)`: `pix_[GetPos(x % w_, y % h_)] ^= 1;`. -/
def Plot (d : Chip8Display) (x y : Nat) : Chip8Display :=
  let pos := d.GetPos (x % d.w_) (y % d.h_)
  { d with pix_ := setAt d.pix_ pos ((d.pix_ pos ^^^ 1) % 256) }

/-- `Chip8Display::GetPixelState(u16 x, u16 y)`. -/
def GetPixelState (d : Chip8Display) (x y : Nat) : Nat :=
  d.pix_ (d.GetPos (x % d.w_) (y % d.h_))

def GetWidth (d : Chip8Display) : Nat := d.w_

def GetHeight (d : Chip8Display) : Nat := d.h_

end Chip8Display

/-! ## Collaborators read during a call -/

/-- What the interpreter reads from outside itself during one call:
`now` is `Chip8Helper::GetNowDuration()` in ticks of the clock,
`isKeyPressed i` is `sf::Keyboard::isKeyPressed(keys[i])` and `rnd` is the
value `rndDist_(rnd_)` draws. -/
structure Chip8Env where
  now : Int
  isKeyPressed : Nat → Bool
  rnd : Nat

namespace Chip8Keyboard

/-- `Chip8Keyboard::isKeyDown(u8 key)`. -/
def isKeyDown (env : Chip8Env) (key : Nat) : Bool :=
  if key ≥ 16 then false else env.isKeyPressed key

/-- `Chip8Keyboard::getCurrentPressedKey(u8* outKey)`: the first `i` in
`0..15` whose key is pressed. -/
def getCurrentPressedKey (env : Chip8Env) : Option Nat :=
  (List.range 16).find? (fun i => env.isKeyPressed i)

end Chip8Keyboard

/-! ## Chip8CPU -/

/-- POD struct `Chip8CPURegisters`; `V` and `stack` are declared with 16
entries each. -/
structure Chip8CPURegisters where
  PC : Nat
  SP : Nat
  V : Nat → Nat
  stack : Nat → Nat
  I : Nat
  DT : Nat
  ST : Nat

/-- Class `Chip8CPU`. `ram_` and `display_` are the referenced objects;
`beeper_` is `none` for a null pointer and `some b` for a beeper whose
`isBeeping_` is `b`. The generator `rnd_` has no state here (its draws come
from `Chip8Env.rnd`). Durations are tick counts of the clock. -/
structure Chip8CPU where
  reg_ : Chip8CPURegisters
  ram_ : Chip8Memory
  display_ : Chip8Display
  beeper_ : Option Bool
  defaultSpritesAddr_ : Nat
  isETI660_ : Bool
  isInHiresMode_ : Bool
  isWaitingForInput_ : Bool
  lastOp_ : Nat
  lastStepTime_ : Int
  nextTimerDecrementCounter_ : Int

namespace Chip8CPU

/-- `u8 GetXArg(u16 op) const { return ((op & 0x0F00) >> 8); }`. -/
def GetXArg (op : Nat) : Nat := ((op &&& 0x0F00) >>> 8) % 256

/-- `u8 GetYArg(u16 op) const { return ((op & 0x00F0) >> 4); }`. -/
def GetYArg (op : Nat) : Nat := ((op &&& 0x00F0) >>> 4) % 256

/-- Assignment to `reg_.V[i]`. -/
def setV (s : Chip8CPU) (i v : Nat) : Chip8CPU :=
  { s with reg_ := { s.reg_ with V := setAt s.reg_.V i v } }

/-- Assignment to `reg_.PC`. -/
def setPC (s : Chip8CPU) (pc : Nat) : Chip8CPU :=
  { s with reg_ := { s.reg_ with PC := pc } }

/-- `void SetPCNext() { reg_.PC += 2; }`. -/
def SetPCNext (s : Chip8CPU) : Chip8CPU := s.setPC ((s.reg_.PC + 2) % 65536)

/-- `void SetPCSkip() { reg_.PC += 4; }`. -/
def SetPCSkip (s : Chip8CPU) : Chip8CPU := s.setPC ((s.reg_.PC + 4) % 65536)

/-- `Chip8CPU::ResetTimerDecrement`: the accumulator becomes
`std::chrono::microseconds(16667)` converted to the clock duration type;
`tpu` is the number of clock ticks in one microsecond. -/
def ResetTimerDecrement (tpu : Nat) (s : Chip8CPU) : Chip8CPU :=
  { s with nextTimerDecrementCounter_ :=
      (CHIP8_CPU_TIMER_DECREMENT_DELAY_MICROSECONDS : Int) * (tpu : Int) }

/-- `Chip8CPU::InitializeRegisters`. The last two statements of the source
are `reg_.V[16] = {};` and `reg_.stack[16] = {};`: each stores a zero into
the element of index 16. -/
def InitializeRegisters (s : Chip8CPU) : Chip8CPU :=
  let r0 := s.reg_
  let r1 := { r0 with
    PC := (if s.isETI660_ then CHIP8_PROGRAM_ETI660_START else CHIP8_PROGRAM_START) }
  let r2 := { r1 with I := 0, SP := 0, DT := 0, ST := 0 }
  let r3 := { r2 with V := setAt r2.V 16 0 }
  let r4 := { r3 with stack := setAt r3.stack 16 0 }
  { s with reg_ := r4 }

/-- Table `fontSpriteData[80]` of `InitializeDefaultSprites`. -/
def fontSpriteData : List Nat :=
  [0xF0, 0x90, 0x90, 0x90, 0xF0,
   0x20, 0x60, 0x20, 0x20, 0x70,
   0xF0, 0x10, 0xF0, 0x80, 0xF0,
   0xF0, 0x10, 0xF0, 0x10, 0xF0,
   0x90, 0x90, 0xF0, 0x10, 0x10,
   0xF0, 0x80, 0xF0, 0x10, 0xF0,
   0xF0, 0x80, 0xF0, 0x90, 0xF0,
   0xF0, 0x10, 0x20, 0x40, 0x40,
   0xF0, 0x90, 0xF0, 0x90, 0xF0,
   0xF0, 0x90, 0xF0, 0x10, 0xF0,
   0xF0, 0x90, 0xF0, 0x90, 0x90,
   0xE0, 0x90, 0xE0, 0x90, 0xE0,
   0xF0, 0x80, 0x80, 0x80, 0xF0,
   0xE0, 0x90, 0x90, 0x90, 0xE0,
   0xF0, 0x80, 0xF0, 0x80, 0xF0,
   0xF0, 0x80, 0xF0, 0x80, 0x80]

/-- Loop of `InitializeDefaultSprites`: `n` iterations are left and the
counter is `i`; the write goes to address `i`. -/
def writeSprites : Nat → Nat → Chip8Memory → Bool × Chip8Memory
  | 0, _, m => (true, m)
  | n + 1, i, m =>
    let r := m.WriteValue (i % 65536) (fontSpriteData.getD i 0)
    if r.1 then writeSprites n (i + 1) r.2 else (false, r.2)

/-- `Chip8CPU::InitializeDefaultSprites(u16 writeAddr)`. -/
def InitializeDefaultSprites (s : Chip8CPU) (writeAddr : Nat) : Bool × Chip8CPU :=
  let r := writeSprites 80 0 s.ram_
  (r.1, { s with defaultSpritesAddr_ := writeAddr, ram_ := r.2 })

/-- `Chip8Beeper::SetBeeping` through the pointer `beeper_`, guarded by the
null test of the callers. -/
def SetBeeping (s : Chip8CPU) (val : Bool) : Chip8CPU :=
  match s.beeper_ with
  | none => s
  | some _ => { s with beeper_ := some val }

/-- `Chip8CPU::Reset`, built with assertions enabled (`NDEBUG` not defined):
`assert(InitializeDefaultSprites())` runs the call and aborts the program
(`none`) when it returns false. The build with `NDEBUG` is `ResetNDEBUG`. -/
def Reset (tpu : Nat) (s : Chip8CPU) (env : Chip8Env) : Option Chip8CPU :=
  let now := env.now
  let s1 := InitializeRegisters s
  let s2 := { s1 with lastStepTime_ := now }
  let s3 := ResetTimerDecrement tpu s2
  let r := InitializeDefaultSprites s3 CHIP8_PROGRAM_DEFAULT_SPRITES_START
  if r.1 then
    let s4 := r.2
    let s5 := { s4 with
      display_ := s4.display_.Reset CHIP8_DISPLAY_WIDTH CHIP8_DISPLAY_HEIGHT }
    let s6 := { s5 with isInHiresMode_ := false }
    let s7 := SetBeeping s6 false
    some { s7 with isWaitingForInput_ := false, lastOp_ := 0 }
  else none

/-- `Chip8CPU::Reset`, built with `NDEBUG` defined: the `assert(...)` line
expands to nothing, so `InitializeDefaultSprites` is not called, the memory
and `defaultSpritesAddr_` are left as they are, and the reset cannot
abort. -/
def ResetNDEBUG (tpu : Nat) (s : Chip8CPU) (env : Chip8Env) : Chip8CPU :=
  let now := env.now
  let s1 := InitializeRegisters s
  let s2 := { s1 with lastStepTime_ := now }
  let s3 := ResetTimerDecrement tpu s2
  let s5 := { s3 with
    display_ := s3.display_.Reset CHIP8_DISPLAY_WIDTH CHIP8_DISPLAY_HEIGHT }
  let s6 := { s5 with isInHiresMode_ := false }
  let s7 := SetBeeping s6 false
  { s7 with isWaitingForInput_ := false, lastOp_ := 0 }

/-! ### Opcode handlers -/

/-- `Chip8CPU::ExecuteOpSYS` (the log line is left out). -/
def ExecuteOpSYS (s : Chip8CPU) (_op : Nat) : Bool × Chip8CPU :=
  (true, SetPCNext s)

/-- `Chip8CPU::ExecuteOpCLS`. -/
def ExecuteOpCLS (s : Chip8CPU) : Bool × Chip8CPU :=
  (true, SetPCNext { s with display_ := s.display_.Clear })

/-- `Chip8CPU::ExecuteOpRET`: `reg_.PC = reg_.stack[reg_.SP--] + 2;` reads
the slot of the old `SP`; the `u8` decrement wraps. -/
def ExecuteOpRET (s : Chip8CPU) : Bool × Chip8CPU :=
  if s.reg_.SP > 16 then (false, s)
  else
    (true, { s with reg_ := { s.reg_ with
      PC := (s.reg_.stack s.reg_.SP + 2) % 65536,
      SP := (s.reg_.SP + 255) % 256 } })

/-- `Chip8CPU::ExecuteOpJPAddr`. -/
def ExecuteOpJPAddr (s : Chip8CPU) (op : Nat) : Bool × Chip8CPU :=
  if s.reg_.PC = CHIP8_PROGRAM_START ∧ (op &&& 0x0FFF) = 0x260 then
    let s1 := { s with isInHiresMode_ := true }
    let s2 := { s1 with
      display_ := s1.display_.Reset CHIP8_HIRES_DISPLAY_WIDTH CHIP8_HIRES_DISPLAY_HEIGHT }
    (true, s2.setPC CHIP8_PROGRAM_HIRES_START)
  else (true, s.setPC (op &&& 0x0FFF))

/-- `Chip8CPU::ExecuteOpCALL`: `reg_.stack[++reg_.SP] = reg_.PC;` stores
into the slot of the incremented `SP`. -/
def ExecuteOpCALL (s : Chip8CPU) (op : Nat) : Bool × Chip8CPU :=
  if s.reg_.SP > 15 then (false, s)
  else
    let sp := (s.reg_.SP + 1) % 256
    (true, { s with reg_ := { s.reg_ with
      SP := sp,
      stack := setAt s.reg_.stack sp s.reg_.PC,
      PC := op &&& 0x0FFF } })

/-- `Chip8CPU::ExecuteOpSEVxByte`. -/
def ExecuteOpSEVxByte (s : Chip8CPU) (op : Nat) : Bool × Chip8CPU :=
  (true, if s.reg_.V (GetXArg op) = (op &&& 0x00FF) then SetPCSkip s else SetPCNext s)

/-- `Chip8CPU::ExecuteOpSNEVxByte`. -/
def ExecuteOpSNEVxByte (s : Chip8CPU) (op : Nat) : Bool × Chip8CPU :=
  (true, if s.reg_.V (GetXArg op) ≠ (op &&& 0x00FF) then SetPCSkip s else SetPCNext s)

/-- `Chip8CPU::ExecuteOpSEVxVy`. -/
def ExecuteOpSEVxVy (s : Chip8CPU) (op : Nat) : Bool × Chip8CPU :=
  (true, if s.reg_.V (GetXArg op) = s.reg_.V (GetYArg op) then SetPCSkip s else SetPCNext s)

/-- `Chip8CPU::ExecuteOpLDVxByte`. -/
def ExecuteOpLDVxByte (s : Chip8CPU) (op : Nat) : Bool × Chip8CPU :=
  (true, SetPCNext (s.setV (GetXArg op) ((op &&& 0x00FF) % 256)))

/-- `Chip8CPU::ExecuteOpADDVxByte`. -/
def ExecuteOpADDVxByte (s : Chip8CPU) (op : Nat) : Bool × Chip8CPU :=
  (true, SetPCNext (s.setV (GetXArg op) ((s.reg_.V (GetXArg op) + (op &&& 0x00FF)) % 256)))

/-- `Chip8CPU::ExecuteOpLDVxVy`. -/
def ExecuteOpLDVxVy (s : Chip8CPU) (op : Nat) : Bool × Chip8CPU :=
  (true, SetPCNext (s.setV (GetXArg op) (s.reg_.V (GetYArg op))))

/-- `Chip8CPU::ExecuteOpOR`. -/
def ExecuteOpOR (s : Chip8CPU) (op : Nat) : Bool × Chip8CPU :=
  (true, SetPCNext (s.setV (GetXArg op)
    ((s.reg_.V (GetXArg op) ||| s.reg_.V (GetYArg op)) % 256)))

/-- `Chip8CPU::ExecuteOpAND`. -/
def ExecuteOpAND (s : Chip8CPU) (op : Nat) : Bool × Chip8CPU :=
  (true, SetPCNext (s.setV (GetXArg op)
    ((s.reg_.V (GetXArg op) &&& s.reg_.V (GetYArg op)) % 256)))

/-- `Chip8CPU::ExecuteOpXOR`. -/
def ExecuteOpXOR (s : Chip8CPU) (op : Nat) : Bool × Chip8CPU :=
  (true, SetPCNext (s.setV (GetXArg op)
    ((s.reg_.V (GetXArg op) ^^^ s.reg_.V (GetYArg op)) % 256)))

/-- `Chip8CPU::ExecuteOpADDVxVy`: the flag is stored first, then
`reg_.V[x] += reg_.V[y]` reads both registers again. The test
`(255 - Vx) < Vy` is on C++ `int`s; registers are bytes, so the difference
is never negative. -/
def ExecuteOpADDVxVy (s : Chip8CPU) (op : Nat) : Bool × Chip8CPU :=
  let s1 := if 255 - s.reg_.V (GetXArg op) < s.reg_.V (GetYArg op)
    then s.setV 0xF 1 else s.setV 0xF 0
  let s2 := s1.setV (GetXArg op)
    ((s1.reg_.V (GetXArg op) + s1.reg_.V (GetYArg op)) % 256)
  (true, SetPCNext s2)

/-- `Chip8CPU::ExecuteOpSUB`: the flag is stored first, then
`reg_.V[x] -= reg_.V[y]` reads both registers again; the `u8` difference
wraps. -/
def ExecuteOpSUB (s : Chip8CPU) (op : Nat) : Bool × Chip8CPU :=
  let s1 := if s.reg_.V (GetXArg op) > s.reg_.V (GetYArg op)
    then s.setV 0xF 1 else s.setV 0xF 0
  let s2 := s1.setV (GetXArg op)
    ((s1.reg_.V (GetXArg op) + 256 - s1.reg_.V (GetYArg op) % 256) % 256)
  (true, SetPCNext s2)

/-- `Chip8CPU::ExecuteOpSHR`. -/
def ExecuteOpSHR (s : Chip8CPU) (op : Nat) : Bool × Chip8CPU :=
  let s1 := s.setV 0xF ((s.reg_.V (GetXArg op) &&& 1) % 256)
  let s2 := s1.setV (GetXArg op) ((s1.reg_.V (GetXArg op) / 2) % 256)
  (true, SetPCNext s2)

/-- `Chip8CPU::ExecuteOpSUBN`. -/
def ExecuteOpSUBN (s : Chip8CPU) (op : Nat) : Bool × Chip8CPU :=
  let s1 := if s.reg_.V (GetXArg op) < s.reg_.V (GetYArg op)
    then s.setV 0xF 1 else s.setV 0xF 0
  let s2 := s1.setV (GetXArg op)
    ((s1.reg_.V (GetYArg op) + 256 - s1.reg_.V (GetXArg op) % 256) % 256)
  (true, SetPCNext s2)

/-- `Chip8CPU::ExecuteOpSHL`. -/
def ExecuteOpSHL (s : Chip8CPU) (op : Nat) : Bool × Chip8CPU :=
  let s1 := s.setV 0xF (((s.reg_.V (GetXArg op) &&& 128) >>> 7) % 256)
  let s2 := s1.setV (GetXArg op) ((s1.reg_.V (GetXArg op) * 2) % 256)
  (true, SetPCNext s2)

/-- `Chip8CPU::ExecuteOpSNEVxVy`. -/
def ExecuteOpSNEVxVy (s : Chip8CPU) (op : Nat) : Bool × Chip8CPU :=
  (true, if s.reg_.V (GetXArg op) ≠ s.reg_.V (GetYArg op) then SetPCSkip s else SetPCNext s)

/-- `Chip8CPU::ExecuteOpLDIAddr`. -/
def ExecuteOpLDIAddr (s : Chip8CPU) (op : Nat) : Bool × Chip8CPU :=
  (true, SetPCNext { s with reg_ := { s.reg_ with I := op &&& 0x0FFF } })

/-- `Chip8CPU::ExecuteOpJPV0Addr`. -/
def ExecuteOpJPV0Addr (s : Chip8CPU) (op : Nat) : Bool × Chip8CPU :=
  (true, s.setPC (((op &&& 0x0FFF) + s.reg_.V 0) % 65536))

/-- `Chip8CPU::ExecuteOpRND`:
`static_cast<u8>(rndDist_(rnd_)) & (op & 0x00FF)`. -/
def ExecuteOpRND (s : Chip8CPU) (env : Chip8Env) (op : Nat) : Bool × Chip8CPU :=
  (true, SetPCNext (s.setV (GetXArg op) (((env.rnd % 256) &&& (op &&& 0x00FF)) % 256)))

/-- Body of the column loop of `ExecuteOpDRW` for column `x` of sprite row
`y`, on the two objects the loop writes: `reg_.V[0xF]` (first component) and
`display_` (second component). -/
def drwPixel (Vx Vy pixLine y : Nat) (st : Nat × Chip8Display) (x : Nat) :
    Nat × Chip8Display :=
  if (pixLine &&& (128 >>> x)) = 0 then st
  else
    ((if st.2.GetPixelState ((Vx + x) % 65536) ((Vy + y) % 65536) ≠ 0 then 1 else st.1),
     st.2.Plot ((Vx + x) % 65536) ((Vy + y) % 65536))

/-- Column loop of `ExecuteOpDRW`: `for (u8 x = 0; x < 8; ++x)`. -/
def drwLine (Vx Vy pixLine y : Nat) (st : Nat × Chip8Display) : Nat × Chip8Display :=
  (List.range 8).foldl (drwPixel Vx Vy pixLine y) st

/-- Row loop of `ExecuteOpDRW`: `n` iterations are left and the counter is
`y`; a failed read leaves the loop with `false`. -/
def drwRows (ram : Chip8Memory) (I Vx Vy : Nat) :
    Nat → Nat → Nat × Chip8Display → Bool × (Nat × Chip8Display)
  | 0, _, st => (true, st)
  | n + 1, y, st =>
    match ram.ReadValue ((I + y) % 65536) with
    | none => (false, st)
    | some pixLine => drwRows ram I Vx Vy n (y + 1) (drwLine Vx Vy pixLine y st)

/-- `Chip8CPU::ExecuteOpDRW`: `Vx` and `Vy` are read once, before
`reg_.V[0xF] = 0`. -/
def ExecuteOpDRW (s : Chip8CPU) (op : Nat) : Bool × Chip8CPU :=
  let Vx := s.reg_.V (GetXArg op)
  let Vy := s.reg_.V (GetYArg op)
  let spriteLines := (op &&& 0x000F) % 256
  let r := drwRows s.ram_ s.reg_.I Vx Vy spriteLines 0 (0, s.display_)
  let s1 := { s.setV 0xF r.2.1 with display_ := r.2.2 }
  if r.1 then (true, SetPCNext s1) else (false, s1)

/-- `Chip8CPU::ExecuteOpSKP`. -/
def ExecuteOpSKP (s : Chip8CPU) (env : Chip8Env) (op : Nat) : Bool × Chip8CPU :=
  (true, if Chip8Keyboard.isKeyDown env (s.reg_.V (GetXArg op)) then SetPCSkip s
    else SetPCNext s)

/-- `Chip8CPU::ExecuteOpSKNP`. -/
def ExecuteOpSKNP (s : Chip8CPU) (env : Chip8Env) (op : Nat) : Bool × Chip8CPU :=
  (true, if !Chip8Keyboard.isKeyDown env (s.reg_.V (GetXArg op)) then SetPCSkip s
    else SetPCNext s)

/-- `Chip8CPU::ExecuteOpLDVxDT`. -/
def ExecuteOpLDVxDT (s : Chip8CPU) (op : Nat) : Bool × Chip8CPU :=
  (true, SetPCNext (s.setV (GetXArg op) s.reg_.DT))

/-- `Chip8CPU::ExecuteOpLDVxKey`. -/
def ExecuteOpLDVxKey (s : Chip8CPU) (env : Chip8Env) (op : Nat) : Bool × Chip8CPU :=
  match Chip8Keyboard.getCurrentPressedKey env with
  | none => (true, { s with isWaitingForInput_ := true })
  | some key =>
    (true, SetPCNext { s.setV (GetXArg op) (key % 256) with isWaitingForInput_ := false })

/-- `Chip8CPU::ExecuteOpLDDTVx`. -/
def ExecuteOpLDDTVx (s : Chip8CPU) (op : Nat) : Bool × Chip8CPU :=
  (true, SetPCNext { s with reg_ := { s.reg_ with DT := s.reg_.V (GetXArg op) } })

/-- `Chip8CPU::ExecuteOpLDSTVx`. -/
def ExecuteOpLDSTVx (s : Chip8CPU) (op : Nat) : Bool × Chip8CPU :=
  (true, SetPCNext { s with reg_ := { s.reg_ with ST := s.reg_.V (GetXArg op) } })

/-- `Chip8CPU::ExecuteOpADDIVx`. -/
def ExecuteOpADDIVx (s : Chip8CPU) (op : Nat) : Bool × Chip8CPU :=
  (true, SetPCNext { s with reg_ := { s.reg_ with
    I := (s.reg_.I + s.reg_.V (GetXArg op)) % 65536 } })

/-- `Chip8CPU::ExecuteOpLDFVx`. -/
def ExecuteOpLDFVx (s : Chip8CPU) (op : Nat) : Bool × Chip8CPU :=
  (true, SetPCNext { s with reg_ := { s.reg_ with
    I := (s.defaultSpritesAddr_ + s.reg_.V (GetXArg op) * 5) % 65536 } })

/-- `Chip8CPU::ExecuteOpLDBVx`: the three writes are joined by `&&`, so a
failed write skips the later ones. -/
def ExecuteOpLDBVx (s : Chip8CPU) (op : Nat) : Bool × Chip8CPU :=
  let Vx := s.reg_.V (GetXArg op)
  let w1 := s.ram_.WriteValue s.reg_.I ((Vx / 100) % 256)
  if w1.1 then
    let w2 := w1.2.WriteValue ((s.reg_.I + 1) % 65536) (((Vx % 100) / 10) % 256)
    if w2.1 then
      let w3 := w2.2.WriteValue ((s.reg_.I + 2) % 65536) (((Vx % 100) % 10) % 256)
      if w3.1 then (true, SetPCNext { s with ram_ := w3.2 })
      else (false, { s with ram_ := w3.2 })
    else (false, { s with ram_ := w2.2 })
  else (false, { s with ram_ := w1.2 })

/-- Loop of `ExecuteOpLDIaddrVx`: `n` iterations are left and the counter is
`i`. -/
def storeRegs (V : Nat → Nat) (I : Nat) : Nat → Nat → Chip8Memory → Bool × Chip8Memory
  | 0, _, m => (true, m)
  | n + 1, i, m =>
    let r := m.WriteValue ((I + i) % 65536) (V i)
    if r.1 then storeRegs V I n (i + 1) r.2 else (false, r.2)

/-- `Chip8CPU::ExecuteOpLDIaddrVx`: `for (u8 i = 0; i <= GetXArg(op); ++i)`
runs `GetXArg(op) + 1` times. -/
def ExecuteOpLDIaddrVx (s : Chip8CPU) (op : Nat) : Bool × Chip8CPU :=
  let r := storeRegs s.reg_.V s.reg_.I (GetXArg op + 1) 0 s.ram_
  if r.1 then (true, SetPCNext { s with ram_ := r.2 })
  else (false, { s with ram_ := r.2 })

/-- Loop of `ExecuteOpLDVxIaddr`: `n` iterations are left and the counter is
`i`; the byte read goes to `reg_.V[i]`. -/
def loadRegs (ram : Chip8Memory) (I : Nat) : Nat → Nat → (Nat → Nat) → Bool × (Nat → Nat)
  | 0, _, V => (true, V)
  | n + 1, i, V =>
    match ram.ReadValue ((I + i) % 65536) with
    | none => (false, V)
    | some b => loadRegs ram I n (i + 1) (setAt V i b)

/-- `Chip8CPU::ExecuteOpLDVxIaddr`. -/
def ExecuteOpLDVxIaddr (s : Chip8CPU) (op : Nat) : Bool × Chip8CPU :=
  let r := loadRegs s.ram_ s.reg_.I (GetXArg op + 1) 0 s.reg_.V
  let s1 := { s with reg_ := { s.reg_ with V := r.2 } }
  if r.1 then (true, SetPCNext s1) else (false, s1)

/-! ### Decode, step and timers -/

/-- `Chip8CPU::ExecuteOpcode`: the outer `switch (op & 0xF000)` with the
inner switches of the groups `0x0`, `0x8`, `0xE` and `0xF`. -/
def ExecuteOpcode (s : Chip8CPU) (env : Chip8Env) (op : Nat) : Bool × Chip8CPU :=
  match op &&& 0xF000 with
  | 0x0000 =>
    match op &&& 0x00FF with
    | 0x00E0 => ExecuteOpCLS s
    | 0x00EE => ExecuteOpRET s
    | _ => ExecuteOpSYS s op
  | 0x1000 => ExecuteOpJPAddr s op
  | 0x2000 => ExecuteOpCALL s op
  | 0x3000 => ExecuteOpSEVxByte s op
  | 0x4000 => ExecuteOpSNEVxByte s op
  | 0x5000 => ExecuteOpSEVxVy s op
  | 0x6000 => ExecuteOpLDVxByte s op
  | 0x7000 => ExecuteOpADDVxByte s op
  | 0x8000 =>
    match op &&& 0x000F with
    | 0x0000 => ExecuteOpLDVxVy s op
    | 0x0001 => ExecuteOpOR s op
    | 0x0002 => ExecuteOpAND s op
    | 0x0003 => ExecuteOpXOR s op
    | 0x0004 => ExecuteOpADDVxVy s op
    | 0x0005 => ExecuteOpSUB s op
    | 0x0006 => ExecuteOpSHR s op
    | 0x0007 => ExecuteOpSUBN s op
    | 0x000E => ExecuteOpSHL s op
    | _ => (false, s)
  | 0x9000 => ExecuteOpSNEVxVy s op
  | 0xA000 => ExecuteOpLDIAddr s op
  | 0xB000 => ExecuteOpJPV0Addr s op
  | 0xC000 => ExecuteOpRND s env op
  | 0xD000 => ExecuteOpDRW s op
  | 0xE000 =>
    match op &&& 0x00FF with
    | 0x009E => ExecuteOpSKP s env op
    | 0x00A1 => ExecuteOpSKNP s env op
    | _ => (false, s)
  | 0xF000 =>
    match op &&& 0x00FF with
    | 0x0007 => ExecuteOpLDVxDT s op
    | 0x000A => ExecuteOpLDVxKey s env op
    | 0x0015 => ExecuteOpLDDTVx s op
    | 0x0018 => ExecuteOpLDSTVx s op
    | 0x001E => ExecuteOpADDIVx s op
    | 0x0029 => ExecuteOpLDFVx s op
    | 0x0033 => ExecuteOpLDBVx s op
    | 0x0055 => ExecuteOpLDIaddrVx s op
    | 0x0065 => ExecuteOpLDVxIaddr s op
    | _ => (false, s)
  | _ => (false, s)

/-- `Chip8CPU::UpdateTimers`: the accumulator is tested before the elapsed
time `now - lastStepTime_` is taken off it. -/
def UpdateTimers (tpu : Nat) (s : Chip8CPU) (env : Chip8Env) : Chip8CPU :=
  let now := env.now
  let s4 :=
    if s.nextTimerDecrementCounter_ ≤ 0 then
      let s1 := if s.reg_.DT > 0
        then { s with reg_ := { s.reg_ with DT := (s.reg_.DT + 255) % 256 } } else s
      let s2 := if s1.reg_.ST > 0
        then { s1 with reg_ := { s1.reg_ with ST := (s1.reg_.ST + 255) % 256 } } else s1
      let s3 := SetBeeping s2 (decide (s2.reg_.ST > 0))
      ResetTimerDecrement tpu s3
    else s
  { s4 with
    nextTimerDecrementCounter_ := s4.nextTimerDecrementCounter_ - (now - s4.lastStepTime_),
    lastStepTime_ := now }

/-- `Chip8CPU::FetchOpcode(u16* outOp)`: `(opBytes[0] << 8) | opBytes[1]`
stored into a `u16`. -/
def FetchOpcode (s : Chip8CPU) : Option Nat :=
  match s.ram_.ReadValue s.reg_.PC with
  | none => none
  | some b0 =>
    match s.ram_.ReadValue ((s.reg_.PC + 1) % 65536) with
    | none => none
    | some b1 => some (((b0 <<< 8) ||| b1) % 65536)

/-- `Chip8CPU::Step`. -/
def Step (tpu : Nat) (s : Chip8CPU) (env : Chip8Env) : Bool × Chip8CPU :=
  match FetchOpcode s with
  | none => (false, s)
  | some op =>
    let s1 := { s with lastOp_ := op }
    let r := ExecuteOpcode s1 env op
    if !r.1 then (false, r.2)
    else if !r.2.isWaitingForInput_ then (true, UpdateTimers tpu r.2 env)
    else (true, r.2)

/-- Loop of `Chip8CPU::RunFrame`: `n` iterations are left and the counter is
`i`; `envs i` is what the `i`-th step reads from outside. -/
def runSteps (tpu : Nat) (envs : Nat → Chip8Env) : Nat → Nat → Chip8CPU → Bool × Chip8CPU
  | 0, _, s => (true, s)
  | n + 1, i, s =>
    let r := Step tpu s (envs i)
    if !r.1 then (false, r.2) else runSteps tpu envs n (i + 1) r.2

/-- `Chip8CPU::RunFrame`. -/
def RunFrame (tpu : Nat) (envs : Nat → Chip8Env) (s : Chip8CPU) : Bool × Chip8CPU :=
  runSteps tpu envs CHIP8_CPU_STEPS_PER_FRAME 0 s

end Chip8CPU

/-! ## Chip8 (program loading) -/

/-- File-reading loop of `Chip8::LoadProgram`,
`while (file.good()) { if (!ram_->WriteValue(i, file.get())) return false; ++i; ++size; }`,
over a stream that holds the unread bytes `file` and never reports a read
error; `i` is the `u16` write address. While a byte is left, `file.get()`
returns it and the stream stays good. Once no byte is left the stream is
still good (`eofbit` is only set by a read that finds nothing), so the body
runs once more: `file.get()` returns `EOF` (-1, which is 255 as a `u8`) and
sets `eofbit`, and the test `file.good()` then ends the loop. -/
def loadLoop : List Nat → Nat → Chip8Memory → Bool × Chip8Memory
  | [], i, m => m.WriteValue i 255
  | b :: bs, i, m =>
    let r := m.WriteValue i (b % 256)
    if r.1 then loadLoop bs ((i + 1) % 65536) r.2 else (false, r.2)

/-- `Chip8::LoadProgram` for a file that opens and reads without I/O error
and holds the bytes `file`. The result `none` is the `false` return (with
`cpu_` left null); `some cpu` is the `true` return with the interpreter
`cpu_` constructed over the loaded memory (the constructor of `Chip8CPU`
sets `defaultSpritesAddr_`, `isETI660_` and calls `Reset`). `fresh` stands
for the contents that the new objects have before they are initialised and
for the members `display_` and `beeper_` of `Chip8`. -/
def LoadProgram (tpu : Nat) (fresh : Chip8CPU) (env : Chip8Env) (file : List Nat)
    (isETI660Program : Bool) : Option Chip8CPU :=
  let ram := Chip8Memory.Reset
    { memSize_ := (if isETI660Program then CHIP8_MEMORY_ETI660_SIZE else CHIP8_MEMORY_SIZE)
        % 65536,
      mem_ := fresh.ram_.mem_ }
  let r := loadLoop file
    (if isETI660Program then CHIP8_PROGRAM_ETI660_START else CHIP8_PROGRAM_START) ram
  if r.1 then
    Chip8CPU.Reset tpu
      { fresh with ram_ := r.2, defaultSpritesAddr_ := 0, isETI660_ := isETI660Program } env
  else none

/-! ## Concrete machines for the worked examples -/

/-- Collaborator readings with clock at 0, no key pressed, draw 0. -/
def sampleEnv : Chip8Env := { now := 0, isKeyPressed := fun _ => false, rnd := 0 }

/-- Zeroed 4096-byte memory. -/
def sampleRam : Chip8Memory := { memSize_ := 4096, mem_ := fun _ => 0 }

/-- Standard (non ETI 660) machine over `sampleRam` with a cleared 64x32
display and every register zero. -/
def sampleCPU : Chip8CPU :=
  { reg_ := { PC := 0x200, SP := 0, V := fun _ => 0, stack := fun _ => 0,
              I := 0, DT := 0, ST := 0 },
    ram_ := sampleRam,
    display_ := { w_ := 64, h_ := 32, pix_ := fun _ => 0 },
    beeper_ := some false,
    defaultSpritesAddr_ := 0,
    isETI660_ := false,
    isInHiresMode_ := false,
    isWaitingForInput_ := false,
    lastOp_ := 0,
    lastStepTime_ := 0,
    nextTimerDecrementCounter_ := 0 }

/-- Stores the bytes `bs` at consecutive addresses from `a` on. -/
def pokeBytes (m : Chip8Memory) : Nat → List Nat → Chip8Memory
  | _, [] => m
  | a, b :: bs => pokeBytes (m.WriteValue a b).2 (a + 1) bs

/-- The machine `sampleCPU` with the call/return program
`22 04 00 00 00 EE` at `0x200`. -/
def callRetCPU : Chip8CPU :=
  { sampleCPU with ram_ := pokeBytes sampleRam 0x200 [0x22, 0x04, 0x00, 0x00, 0x00, 0xEE] }

/-- State after the first `k` call instructions `2nnn` with the targets
`addrs 0`, `addrs 1`, .. executed one after the other from `s0`. -/
def callSeq (env : Chip8Env) (addrs : Nat → Nat) (s0 : Chip8CPU) : Nat → Chip8CPU
  | 0 => s0
  | k + 1 =>
    (Chip8CPU.ExecuteOpcode (callSeq env addrs s0 k) env (0x2000 + addrs k)).2

/-- The machine `sampleCPU` after running `632A` (load `0x2A` into `V3`)
and `2300` (call `0x300`). -/
def usedCPU : Chip8CPU :=
  (Chip8CPU.ExecuteOpcode (Chip8CPU.ExecuteOpcode sampleCPU sampleEnv 0x632A).2
    sampleEnv 0x2300).2

/-- The machine `sampleCPU` with `DT = 5`, the accumulator at one full
period of a nanosecond clock (1000 ticks in a microsecond) and the last step
taken at clock reading 0. -/
def timerCPU : Chip8CPU :=
  { sampleCPU with
    reg_ := { sampleCPU.reg_ with DT := 5 },
    nextTimerDecrementCounter_ := 16667000,
    lastStepTime_ := 0 }

/-- Collaborator readings with the clock at `t`. -/
def envAt (t : Int) : Chip8Env := { sampleEnv with now := t }

/-! ## The draw instruction as a sequence of cell toggles -/

/-- Cell update of `Plot`: `pix[p] ^= 1`. -/
def toggle (pix : Nat → Nat) (p : Nat) : Nat → Nat :=
  setAt pix p ((pix p ^^^ 1) % 256)

/-- Collision test and cell update done by the draw loop for one set sprite
bit whose target cell has the index `p`; the first component is the flag. -/
def drawStep (st : Nat × (Nat → Nat)) (p : Nat) : Nat × (Nat → Nat) :=
  ((if st.2 p ≠ 0 then 1 else st.1), toggle st.2 p)

/-- Index of the cell that `Plot(Vx + x, Vy + y)` and
`GetPixelState(Vx + x, Vy + y)` address on a `w` by `h` display. -/
def plotPos (w h Vx Vy y x : Nat) : Nat :=
  ((((Vx + x) % 65536) % w) % 256 + ((((Vy + y) % 65536) % h) % 256) * w) % 65536

/-- Whether column `x` of the sprite row `pixLine` is set: the negation of
the test `(pixLine & (128 >> x)) == 0` of the draw loop. -/
def spriteBit (pixLine x : Nat) : Bool := decide ((pixLine &&& (128 >>> x)) ≠ 0)

/-- Cells toggled for sprite row `y` with the byte `pixLine`, in order. -/
def linePlots (w h Vx Vy pixLine y : Nat) : List Nat :=
  ((List.range 8).filter (spriteBit pixLine)).map (plotPos w h Vx Vy y)

/-- Cells toggled for the sprite rows `y`, .., `y + n - 1`, in order. -/
def rowsPlots (ram : Chip8Memory) (I w h Vx Vy : Nat) (n y : Nat) : List Nat :=
  (List.range' y n).flatMap (fun r => linePlots w h Vx Vy (ram.mem_ (I + r)) r)

/-- Cells toggled by the draw instruction `Dxyn` in the state `s`, in
order. -/
def drawPlots (s : Chip8CPU) (x y n : Nat) : List Nat :=
  rowsPlots s.ram_ s.reg_.I s.display_.w_ s.display_.h_ (s.reg_.V x) (s.reg_.V y) n 0

/-- The machine `sampleCPU` (cleared 64x32 display) with the five glyph
rows `F0 90 90 90 F0` at `0x300`, `I = 0x300`, `V0 = 62` and `V1 = 30`, so
that the sprite wraps around both edges. -/
def glyphCPU : Chip8CPU :=
  { sampleCPU with
    reg_ := { sampleCPU.reg_ with I := 0x300, V := setAt (setAt (fun _ => 0) 0 62) 1 30 },
    ram_ := pokeBytes sampleRam 0x300 [0xF0, 0x90, 0x90, 0x90, 0xF0] }

/-- The machine `sampleCPU` with the one-row sprite `80` at `0x300`,
`I = 0x300`, `V0 = V1 = 0`, and a 64x32 display whose cell `(0, 0)` is on
and whose other cells are off. -/
def litCPU : Chip8CPU :=
  { sampleCPU with
    reg_ := { sampleCPU.reg_ with I := 0x300 },
    ram_ := pokeBytes sampleRam 0x300 [0x80],
    display_ := { w_ := 64, h_ := 32, pix_ := fun i => if i = 0 then 1 else 0 } }

/-- An ETI 660 machine over a zeroed 2048-byte memory, with `PC` at the
ETI 660 program start `0x600` and a cleared 64x32 display. -/
def etiCPU : Chip8CPU :=
  { sampleCPU with
    reg_ := { sampleCPU.reg_ with PC := CHIP8_PROGRAM_ETI660_START },
    ram_ := { memSize_ := CHIP8_MEMORY_ETI660_SIZE, mem_ := fun _ => 0 },
    isETI660_ := true }

/-! ## Step sequences and further machines -/

/-- State left by `k` calls of `Step` made one after the other from `s`,
the `j`-th call (counting from 0) reading `envs j`. -/
def stepsFrom (tpu : Nat) (envs : Nat → Chip8Env) (s : Chip8CPU) : Nat → Chip8CPU
  | 0 => s
  | k + 1 => (Chip8CPU.Step tpu (stepsFrom tpu envs s k) (envs k)).2

/-- A chain of sixteen calls, each one calling the instruction after it
(`2202` at `0x200`, `2204` at `0x202`, .., `2220` at `0x21E`), followed by
the return `00EE` at `0x220`. -/
def nestProgram : List Nat :=
  [0x22, 0x02, 0x22, 0x04, 0x22, 0x06, 0x22, 0x08, 0x22, 0x0A, 0x22, 0x0C,
   0x22, 0x0E, 0x22, 0x10, 0x22, 0x12, 0x22, 0x14, 0x22, 0x16, 0x22, 0x18,
   0x22, 0x1A, 0x22, 0x1C, 0x22, 0x1E, 0x22, 0x20, 0x00, 0xEE]

/-- The machine `sampleCPU` with `nestProgram` at `0x200`. -/
def nestCPU : Chip8CPU :=
  { sampleCPU with ram_ := pokeBytes sampleRam 0x200 nestProgram }

/-- Collaborator readings with exactly the key `k` held down. -/
def keyEnv (k : Nat) : Chip8Env :=
  { sampleEnv with isKeyPressed := fun i => decide (i = k) }

/-- The machine `sampleCPU` with the wait-for-key instruction `F30A` at
`0x200`. -/
def waitCPU : Chip8CPU :=
  { sampleCPU with ram_ := pokeBytes sampleRam 0x200 [0xF3, 0x0A] }

/-- The machine `sampleCPU` with the program `00 00 80 08` at `0x200`: an
ignored system call followed by the undefined opcode `8008`. -/
def faultCPU : Chip8CPU :=
  { sampleCPU with ram_ := pokeBytes sampleRam 0x200 [0x00, 0x00, 0x80, 0x08] }

/-- The machine `sampleCPU` with `V0 = 0x11`, `V1 = 0x22`, `V2 = 0x33` and
`I = 4094`, two bytes below the end of the memory. -/
def edgeCPU : Chip8CPU :=
  { sampleCPU with
    reg_ := { sampleCPU.reg_ with
      I := 4094, V := setAt (setAt (setAt (fun _ => 0) 0 0x11) 1 0x22) 2 0x33 } }

/-! ## Theorems -/

/-! ### Bit masks as quotients and remainders -/

theorem and_shiftRight_distrib (a b k : Nat) :
    (a &&& b) >>> k = (a >>> k) &&& (b >>> k) := by
  apply Nat.eq_of_testBit_eq
  intro i
  simp [Nat.testBit_shiftRight, Nat.testBit_and]

theorem and_shiftLeft_eq (a b k : Nat) :
    a &&& (b <<< k) = ((a >>> k) &&& b) <<< k := by
  apply Nat.eq_of_testBit_eq
  intro j
  by_cases h : k ≤ j
  · simp [Nat.testBit_shiftRight, Nat.testBit_and, Nat.testBit_shiftLeft, h,
      Nat.add_sub_cancel' h]
  · simp [Nat.testBit_shiftRight, Nat.testBit_and, Nat.testBit_shiftLeft, h]

theorem land_0FFF (op : Nat) : op &&& 0x0FFF = op % 4096 :=
  Nat.and_pow_two_sub_one_eq_mod op 12

theorem land_00FF (op : Nat) : op &&& 0x00FF = op % 256 :=
  Nat.and_pow_two_sub_one_eq_mod op 8

theorem land_000F (op : Nat) : op &&& 0x000F = op % 16 :=
  Nat.and_pow_two_sub_one_eq_mod op 4

theorem land_F000 (op : Nat) : op &&& 0xF000 = (op / 4096 % 16) * 4096 := by
  have h := and_shiftLeft_eq op 15 12
  have e : (15 <<< 12 : Nat) = 0xF000 := by decide
  rw [e] at h
  rw [h, Nat.shiftLeft_eq, Nat.shiftRight_eq_div_pow]
  have := Nat.and_pow_two_sub_one_eq_mod (op / 2 ^ 12) 4
  norm_num at this ⊢
  exact this

theorem GetXArg_eq (op : Nat) : Chip8CPU.GetXArg op = op / 256 % 16 := by
  unfold Chip8CPU.GetXArg
  rw [and_shiftRight_distrib, Nat.shiftRight_eq_div_pow]
  have e : (0x0F00 >>> 8 : Nat) = 2 ^ 4 - 1 := by decide
  rw [e, Nat.and_pow_two_sub_one_eq_mod]
  norm_num
  omega

theorem GetYArg_eq (op : Nat) : Chip8CPU.GetYArg op = op / 16 % 16 := by
  unfold Chip8CPU.GetYArg
  rw [and_shiftRight_distrib, Nat.shiftRight_eq_div_pow]
  have e : (0x00F0 >>> 4 : Nat) = 2 ^ 4 - 1 := by decide
  rw [e, Nat.and_pow_two_sub_one_eq_mod]
  norm_num
  omega

/-! ### Chip8Memory -/

/-- C1: in a memory bank of any capacity, a write to an address below the
capacity succeeds, and the read of that address that follows succeeds and
returns the byte written. -/
theorem write_then_read (m : Chip8Memory) (a v : Nat) (ha : a < m.memSize_) :
    (m.WriteValue a v).1 = true ∧ (m.WriteValue a v).2.ReadValue a = some v := by
  simp [Chip8Memory.WriteValue, Chip8Memory.ReadValue, setAt, Nat.not_le.mpr ha]

theorem write_then_read_witness :
    (0x200 < sampleRam.memSize_) ∧
    ((sampleRam.WriteValue 0x200 0xAB).1 = true ∧
     (sampleRam.WriteValue 0x200 0xAB).2.ReadValue 0x200 = some 0xAB) :=
  ⟨by decide, write_then_read sampleRam 0x200 0xAB (by decide)⟩

/-- C2: at an address at or above the capacity the read fails, the write
fails, and the failed write returns the memory bank as it was (no cell at
any address is changed, so nothing wraps or clamps). -/
theorem access_out_of_range_fails (m : Chip8Memory) (a v : Nat) (ha : m.memSize_ ≤ a) :
    m.ReadValue a = none ∧ (m.WriteValue a v).1 = false ∧ (m.WriteValue a v).2 = m := by
  simp [Chip8Memory.WriteValue, Chip8Memory.ReadValue, ha]

theorem access_out_of_range_fails_witness :
    (sampleRam.memSize_ ≤ 4096) ∧
    (sampleRam.ReadValue 4096 = none ∧ (sampleRam.WriteValue 4096 7).1 = false ∧
     (sampleRam.WriteValue 4096 7).2 = sampleRam) :=
  ⟨by decide, access_out_of_range_fails sampleRam 4096 7 (by decide)⟩

/-! ### Arithmetic group `8xyN` -/

open Chip8CPU

theorem decode_8 (x y n : Nat) (hx : x < 16) (hy : y < 16) (hn : n < 16) :
    (0x8000 + 0x100 * x + 0x10 * y + n) &&& 0xF000 = 0x8000 ∧
    (0x8000 + 0x100 * x + 0x10 * y + n) &&& 0x000F = n ∧
    GetXArg (0x8000 + 0x100 * x + 0x10 * y + n) = x ∧
    GetYArg (0x8000 + 0x100 * x + 0x10 * y + n) = y := by
  rw [land_F000, land_000F, GetXArg_eq, GetYArg_eq]
  omega

/-- Add `8xy4` with neither index the flags register: flag, wrapped sum and
program counter are as the instruction table says. -/
theorem ADDVxVy_other_source (s : Chip8CPU) (env : Chip8Env) (x y : Nat)
    (hx : x < 15) (hy : y < 15) (ha : s.reg_.V x < 256) :
    (ExecuteOpcode s env (0x8000 + 0x100 * x + 0x10 * y + 4)).1 = true ∧
    (ExecuteOpcode s env (0x8000 + 0x100 * x + 0x10 * y + 4)).2.reg_.V 0xF
      = (if s.reg_.V x + s.reg_.V y > 255 then 1 else 0) ∧
    (ExecuteOpcode s env (0x8000 + 0x100 * x + 0x10 * y + 4)).2.reg_.V x
      = (s.reg_.V x + s.reg_.V y) % 256 ∧
    (ExecuteOpcode s env (0x8000 + 0x100 * x + 0x10 * y + 4)).2.reg_.PC
      = (s.reg_.PC + 2) % 65536 := by
  obtain ⟨h1, h2, h3, h4⟩ := decode_8 x y 4 (by omega) (by omega) (by omega)
  have hxF : ¬ (15 = x) := by omega
  have hyF : ¬ (y = 15) := by omega
  have hxF2 : ¬ (x = 15) := by omega
  simp only [ExecuteOpcode, h1, h2, ExecuteOpADDVxVy, h3, h4]
  clear h1 h2 h3 h4
  split <;> simp [setV, setAt, SetPCNext, setPC, hxF, hyF, hxF2] <;> split_ifs <;> omega

/-- The example of the specification, `V0 = 250` and `V1 = 10`, gives
`VF = 1` and `V0 = 4`. -/
theorem ADDVxVy_other_source_witness :
    (ExecuteOpcode ((sampleCPU.setV 0 250).setV 1 10) sampleEnv 0x8014).2.reg_.V 0xF = 1 ∧
    (ExecuteOpcode ((sampleCPU.setV 0 250).setV 1 10) sampleEnv 0x8014).2.reg_.V 0 = 4 := by
  have h := ADDVxVy_other_source ((sampleCPU.setV 0 250).setV 1 10) sampleEnv 0 1
    (by decide) (by decide) (by decide)
  exact ⟨h.2.1, h.2.2.1⟩

/-- C3: add `80F4` (destination `V0`, source the flags register) on
`V0 = 1`, `VF = 5`: the instruction succeeds and leaves `VF = 0`, but `V0`
is `1`, the old `V0` plus the new flag, and not `(1 + 5) mod 256 = 6`. -/
theorem ADDVxVy_flag_source :
    (ExecuteOpcode ((sampleCPU.setV 0 1).setV 0xF 5) sampleEnv 0x80F4).1 = true ∧
    (ExecuteOpcode ((sampleCPU.setV 0 1).setV 0xF 5) sampleEnv 0x80F4).2.reg_.V 0xF = 0 ∧
    (ExecuteOpcode ((sampleCPU.setV 0 1).setV 0xF 5) sampleEnv 0x80F4).2.reg_.V 0 = 1 ∧
    (ExecuteOpcode ((sampleCPU.setV 0 1).setV 0xF 5) sampleEnv 0x80F4).2.reg_.V 0
      ≠ (1 + 5) % 256 := by
  decide

/-- Subtract `8xy5` with neither index the flags register. -/
theorem SUB_other_source (s : Chip8CPU) (env : Chip8Env) (x y : Nat)
    (hx : x < 15) (hy : y < 15) (ha : s.reg_.V x < 256) (hb : s.reg_.V y < 256) :
    (ExecuteOpcode s env (0x8000 + 0x100 * x + 0x10 * y + 5)).1 = true ∧
    (ExecuteOpcode s env (0x8000 + 0x100 * x + 0x10 * y + 5)).2.reg_.V 0xF
      = (if s.reg_.V x > s.reg_.V y then 1 else 0) ∧
    ((ExecuteOpcode s env (0x8000 + 0x100 * x + 0x10 * y + 5)).2.reg_.V x : Int)
      = ((s.reg_.V x : Int) - (s.reg_.V y : Int)) % 256 ∧
    (ExecuteOpcode s env (0x8000 + 0x100 * x + 0x10 * y + 5)).2.reg_.PC
      = (s.reg_.PC + 2) % 65536 := by
  obtain ⟨h1, h2, h3, h4⟩ := decode_8 x y 5 (by omega) (by omega) (by omega)
  have hxF : ¬ (15 = x) := by omega
  have hyF : ¬ (y = 15) := by omega
  have hxF2 : ¬ (x = 15) := by omega
  simp only [ExecuteOpcode, h1, h2, ExecuteOpSUB, h3, h4]
  clear h1 h2 h3 h4
  split <;> simp [setV, setAt, SetPCNext, setPC, hxF, hyF, hxF2] <;> omega

/-- The example of the specification, `V0 = 5` and `V1 = 10`, gives
`VF = 0` and `V0 = 251`. -/
theorem SUB_other_source_witness :
    (ExecuteOpcode ((sampleCPU.setV 0 5).setV 1 10) sampleEnv 0x8015).2.reg_.V 0xF = 0 ∧
    (ExecuteOpcode ((sampleCPU.setV 0 5).setV 1 10) sampleEnv 0x8015).2.reg_.V 0 = 251 := by
  have h := SUB_other_source ((sampleCPU.setV 0 5).setV 1 10) sampleEnv 0 1
    (by decide) (by decide) (by decide) (by decide)
  have h3 : ((ExecuteOpcode ((sampleCPU.setV 0 5).setV 1 10) sampleEnv 0x8015).2.reg_.V 0 : Int)
      = (5 - 10) % 256 := h.2.2.1
  refine ⟨h.2.1, ?_⟩
  omega

/-- C4: subtract `80F5` (destination `V0`, source the flags register) on
`V0 = 5`, `VF = 10`: the instruction succeeds and leaves `VF = 0`, but `V0`
is `5`, the old `V0` minus the new flag, and not `(5 - 10) mod 256 = 251`. -/
theorem SUB_flag_source :
    (ExecuteOpcode ((sampleCPU.setV 0 5).setV 0xF 10) sampleEnv 0x80F5).1 = true ∧
    (ExecuteOpcode ((sampleCPU.setV 0 5).setV 0xF 10) sampleEnv 0x80F5).2.reg_.V 0xF = 0 ∧
    (ExecuteOpcode ((sampleCPU.setV 0 5).setV 0xF 10) sampleEnv 0x80F5).2.reg_.V 0 = 5 ∧
    (ExecuteOpcode ((sampleCPU.setV 0 5).setV 0xF 10) sampleEnv 0x80F5).2.reg_.V 0 ≠ 251 := by
  decide

/-- C5: shift right `8xy6` with an operand register other than the flags
register: `VF` is the least-significant bit of the old `Vx`, `Vx` is halved
(rounded down), and the program counter advances by 2 (in 16 bits). -/
theorem SHR_spec (s : Chip8CPU) (env : Chip8Env) (x y : Nat)
    (hx : x < 15) (hy : y < 16) (ha : s.reg_.V x < 256) :
    (ExecuteOpcode s env (0x8000 + 0x100 * x + 0x10 * y + 6)).1 = true ∧
    (ExecuteOpcode s env (0x8000 + 0x100 * x + 0x10 * y + 6)).2.reg_.V 0xF
      = s.reg_.V x % 2 ∧
    (ExecuteOpcode s env (0x8000 + 0x100 * x + 0x10 * y + 6)).2.reg_.V x
      = s.reg_.V x / 2 ∧
    (ExecuteOpcode s env (0x8000 + 0x100 * x + 0x10 * y + 6)).2.reg_.PC
      = (s.reg_.PC + 2) % 65536 := by
  obtain ⟨h1, h2, h3, h4⟩ := decode_8 x y 6 (by omega) (by omega) (by omega)
  have hxF : ¬ (15 = x) := by omega
  have hxF2 : ¬ (x = 15) := by omega
  simp only [ExecuteOpcode, h1, h2, ExecuteOpSHR, h3, h4]
  clear h1 h2 h3 h4
  simp [setV, setAt, SetPCNext, setPC, hxF, hxF2]
  omega

/-- The example of the specification, `V0 = 7`, gives `VF = 1` and
`V0 = 3`. -/
theorem SHR_spec_witness :
    (sampleCPU.setV 0 7).reg_.V 0 < 256 ∧
    (ExecuteOpcode (sampleCPU.setV 0 7) sampleEnv 0x8006).2.reg_.V 0xF = 1 ∧
    (ExecuteOpcode (sampleCPU.setV 0 7) sampleEnv 0x8006).2.reg_.V 0 = 3 := by
  have h := SHR_spec (sampleCPU.setV 0 7) sampleEnv 0 0 (by decide) (by decide) (by decide)
  exact ⟨by decide, h.2.1, h.2.2.1⟩

/-! ### Reset -/

theorem writeSprites_frame (n : Nat) : ∀ (i : Nat) (m : Chip8Memory), i + n ≤ 65536 →
    (writeSprites n i m).2.memSize_ = m.memSize_ ∧
    ∀ a, (a < i ∨ i + n ≤ a) → (writeSprites n i m).2.mem_ a = m.mem_ a := by
  induction n with
  | zero => intro i m _; simp [writeSprites]
  | succ n ih =>
    intro i m hi
    have hmod : i % 65536 = i := Nat.mod_eq_of_lt (by omega)
    simp only [writeSprites, hmod]
    by_cases hw : i ≥ m.memSize_
    · simp [Chip8Memory.WriteValue, hw]
    · have := ih (i + 1) (m.WriteValue i (fontSpriteData.getD i 0)).2 (by omega)
      simp only [Chip8Memory.WriteValue, hw, if_false, if_true] at this ⊢
      refine ⟨this.1, fun a ha => ?_⟩
      rw [this.2 a (by omega)]
      have : a ≠ i := by omega
      simp [setAt, this]

theorem Reset_eq_some (tpu : Nat) (s : Chip8CPU) (env : Chip8Env) (s0 : Chip8CPU)
    (h : Reset tpu s env = some s0) :
    s0.reg_ = (InitializeRegisters s).reg_ ∧
    s0.ram_ = (writeSprites 80 0 s.ram_).2 ∧
    s0.isETI660_ = s.isETI660_ ∧
    s0.isWaitingForInput_ = false ∧
    s0.lastStepTime_ = env.now ∧
    s0.nextTimerDecrementCounter_ = 16667 * (tpu : Int) := by
  unfold Reset at h
  simp only at h
  split at h
  · injection h with h
    subst h
    simp only [SetBeeping]
    split <;> simp [InitializeDefaultSprites, ResetTimerDecrement, InitializeRegisters,
      CHIP8_CPU_TIMER_DECREMENT_DELAY_MICROSECONDS]
  · exact absurd h (by simp)

theorem writeSprites_ok (n : Nat) : ∀ (i : Nat) (m : Chip8Memory), i + n ≤ m.memSize_ →
    i + n ≤ 65536 → (writeSprites n i m).1 = true := by
  induction n with
  | zero => intro i m _ _; simp [writeSprites]
  | succ n ih =>
    intro i m hi h16
    have hmod : i % 65536 = i := Nat.mod_eq_of_lt (by omega)
    have hw : ¬ (i ≥ m.memSize_) := by omega
    simp only [writeSprites, hmod, Chip8Memory.WriteValue, hw, if_false, if_true]
    exact ih (i + 1) _ (by simpa using by omega) (by omega)

theorem Reset_total (tpu : Nat) (s : Chip8CPU) (env : Chip8Env)
    (hmem : 80 ≤ s.ram_.memSize_) : ∃ s0, Reset tpu s env = some s0 := by
  have h := writeSprites_ok 80 0 s.ram_ (by omega) (by omega)
  simp [Reset, InitializeDefaultSprites, ResetTimerDecrement, InitializeRegisters, h]

theorem InitializeRegisters_keeps (s : Chip8CPU) (i : Nat) (hi : i < 16) :
    (InitializeRegisters s).reg_.V i = s.reg_.V i ∧
    (InitializeRegisters s).reg_.stack i = s.reg_.stack i := by
  have : i ≠ 16 := by omega
  simp [InitializeRegisters, setAt, this]

/-- What `Reset` does to the sixteen registers and the sixteen stack
entries: nothing. -/
theorem Reset_keeps_V_and_stack (tpu : Nat) (s : Chip8CPU) (env : Chip8Env) (s0 : Chip8CPU)
    (h : Reset tpu s env = some s0) (i : Nat) (hi : i < 16) :
    s0.reg_.V i = s.reg_.V i ∧ s0.reg_.stack i = s.reg_.stack i := by
  rw [(Reset_eq_some tpu s env s0 h).1]
  exact InitializeRegisters_keeps s i hi

theorem Reset_keeps_V_and_stack_witness :
    (Reset 1000 usedCPU sampleEnv).map (fun t => (t.reg_.V 3, t.reg_.stack 1))
      = some (usedCPU.reg_.V 3, usedCPU.reg_.stack 1) := by
  cases h : Reset 1000 usedCPU sampleEnv with
  | none =>
    have h2 : (Reset 1000 usedCPU sampleEnv).isSome = true := by decide
    rw [h] at h2
    exact absurd h2 (by decide)
  | some s0 =>
    have h3 := Reset_keeps_V_and_stack 1000 usedCPU sampleEnv s0 h 3 (by decide)
    have h1 := Reset_keeps_V_and_stack 1000 usedCPU sampleEnv s0 h 1 (by decide)
    simp [h3.1, h1.2]

/-- C9: a soft reset of the machine that ran `632A` and `2300` (so that
`V3 = 0x2A`, `SP = 1` and `stack[1] = 0x202`) succeeds and resets `SP` to 0,
but `V3` is still `0x2A` and `stack[1]` is still `0x202`: neither is zero. -/
theorem Reset_leaves_registers_dirty :
    (Reset 1000 usedCPU sampleEnv).map
        (fun t => (t.reg_.SP, t.reg_.V 3, t.reg_.stack 1))
      = some (0, 0x2A, 0x202) := by
  decide

/-! ### Call and return -/

theorem CALL_ok (s : Chip8CPU) (env : Chip8Env) (nnn : Nat) (hn : nnn < 4096)
    (hsp : s.reg_.SP < 16) :
    ExecuteOpcode s env (0x2000 + nnn) =
      (true, { s with reg_ := { s.reg_ with
        SP := s.reg_.SP + 1,
        stack := setAt s.reg_.stack (s.reg_.SP + 1) s.reg_.PC,
        PC := nnn } }) := by
  have h1 : (0x2000 + nnn) &&& 0xF000 = 0x2000 := by rw [land_F000]; omega
  have h2 : (0x2000 + nnn) &&& 0x0FFF = nnn := by rw [land_0FFF]; omega
  have h3 : ¬ (s.reg_.SP > 15) := by omega
  have h4 : (s.reg_.SP + 1) % 256 = s.reg_.SP + 1 := Nat.mod_eq_of_lt (by omega)
  simp only [ExecuteOpcode, h1, ExecuteOpCALL, h2, h3, h4, if_false]

theorem CALL_fail (s : Chip8CPU) (env : Chip8Env) (nnn : Nat) (hn : nnn < 4096)
    (hsp : 15 < s.reg_.SP) :
    ExecuteOpcode s env (0x2000 + nnn) = (false, s) := by
  have h1 : (0x2000 + nnn) &&& 0xF000 = 0x2000 := by rw [land_F000]; omega
  have h3 : s.reg_.SP > 15 := hsp
  simp only [ExecuteOpcode, h1, ExecuteOpCALL, h3, if_true]

theorem callSeq_SP (env : Chip8Env) (addrs : Nat → Nat) (s0 : Chip8CPU)
    (hsp : s0.reg_.SP = 0) (haddr : ∀ k, k ≤ 16 → addrs k < 4096) :
    ∀ k, k ≤ 16 → (callSeq env addrs s0 k).reg_.SP = k := by
  intro k
  induction k with
  | zero => intro _; simpa [callSeq] using hsp
  | succ k ih =>
    intro hk
    have h := ih (by omega)
    simp only [callSeq]
    rw [CALL_ok _ env (addrs k) (haddr k (by omega)) (by omega)]
    simp [h]

/-- C7: on a machine that has just been reset the stack pointer is 0; each
of the next 16 call instructions `2nnn` succeeds, adds 1 to `SP` and sets
`PC` to its target; the 17th call fails and returns the machine unchanged
(so `PC` and `SP` are unchanged). -/
theorem call_stack_limit (tpu : Nat) (s : Chip8CPU) (env0 env : Chip8Env)
    (addrs : Nat → Nat) (hmem : 80 ≤ s.ram_.memSize_)
    (haddr : ∀ k, k ≤ 16 → addrs k < 4096) :
    ∃ s0, Reset tpu s env0 = some s0 ∧ s0.reg_.SP = 0 ∧
      (∀ k, k < 16 →
        (ExecuteOpcode (callSeq env addrs s0 k) env (0x2000 + addrs k)).1 = true ∧
        (callSeq env addrs s0 (k + 1)).reg_.SP = (callSeq env addrs s0 k).reg_.SP + 1 ∧
        (callSeq env addrs s0 (k + 1)).reg_.PC = addrs k) ∧
      (callSeq env addrs s0 16).reg_.SP = 16 ∧
      ExecuteOpcode (callSeq env addrs s0 16) env (0x2000 + addrs 16)
        = (false, callSeq env addrs s0 16) := by
  obtain ⟨s0, h0⟩ := Reset_total tpu s env0 hmem
  have hsp : s0.reg_.SP = 0 := by
    rw [(Reset_eq_some tpu s env0 s0 h0).1]
    simp [InitializeRegisters]
  have hk := callSeq_SP env addrs s0 hsp haddr
  refine ⟨s0, h0, hsp, ?_, hk 16 (by omega), ?_⟩
  · intro k hk16
    have h := hk k (by omega)
    have hc := CALL_ok (callSeq env addrs s0 k) env (addrs k) (haddr k (by omega)) (by omega)
    refine ⟨by rw [hc], ?_, ?_⟩
    · simp only [callSeq]; rw [hc]
    · simp only [callSeq]; rw [hc]
  · exact CALL_fail _ env (addrs 16) (haddr 16 (by omega)) (by rw [hk 16 (by omega)]; omega)

theorem call_stack_limit_witness :
    (80 ≤ sampleCPU.ram_.memSize_ ∧ ∀ k, k ≤ 16 → (fun j => 0x300 + 2 * j) k < 4096) ∧
    ∃ s0, Reset 1000 sampleCPU sampleEnv = some s0 ∧ s0.reg_.SP = 0 ∧
      (∀ k, k < 16 →
        (ExecuteOpcode (callSeq sampleEnv (fun j => 0x300 + 2 * j) s0 k) sampleEnv
          (0x2000 + (fun j => 0x300 + 2 * j) k)).1 = true ∧
        (callSeq sampleEnv (fun j => 0x300 + 2 * j) s0 (k + 1)).reg_.SP
          = (callSeq sampleEnv (fun j => 0x300 + 2 * j) s0 k).reg_.SP + 1 ∧
        (callSeq sampleEnv (fun j => 0x300 + 2 * j) s0 (k + 1)).reg_.PC
          = (fun j => 0x300 + 2 * j) k) ∧
      (callSeq sampleEnv (fun j => 0x300 + 2 * j) s0 16).reg_.SP = 16 ∧
      ExecuteOpcode (callSeq sampleEnv (fun j => 0x300 + 2 * j) s0 16) sampleEnv
          (0x2000 + (fun j => 0x300 + 2 * j) 16)
        = (false, callSeq sampleEnv (fun j => 0x300 + 2 * j) s0 16) :=
  ⟨⟨by decide, fun k hk => by simp only; omega⟩,
   call_stack_limit 1000 sampleCPU sampleEnv sampleEnv (fun j => 0x300 + 2 * j)
     (by decide) (fun k hk => by simp only; omega)⟩

/-! ### Step, fetch and timers -/

theorem UpdateTimers_frame (tpu : Nat) (s : Chip8CPU) (env : Chip8Env) :
    (UpdateTimers tpu s env).reg_.PC = s.reg_.PC ∧
    (UpdateTimers tpu s env).reg_.SP = s.reg_.SP ∧
    (UpdateTimers tpu s env).reg_.stack = s.reg_.stack ∧
    (UpdateTimers tpu s env).reg_.V = s.reg_.V ∧
    (UpdateTimers tpu s env).reg_.I = s.reg_.I ∧
    (UpdateTimers tpu s env).ram_ = s.ram_ ∧
    (UpdateTimers tpu s env).display_ = s.display_ ∧
    (UpdateTimers tpu s env).isWaitingForInput_ = s.isWaitingForInput_ := by
  unfold UpdateTimers SetBeeping ResetTimerDecrement
  simp only
  split_ifs <;> simp <;> split <;> simp

theorem FetchOpcode_eq (s : Chip8CPU) (b0 b1 : Nat)
    (h : s.reg_.PC + 1 < s.ram_.memSize_) (h16 : s.reg_.PC + 1 < 65536)
    (h0 : s.ram_.mem_ s.reg_.PC = b0) (h1 : s.ram_.mem_ (s.reg_.PC + 1) = b1) :
    FetchOpcode s = some (((b0 <<< 8) ||| b1) % 65536) := by
  have e0 : ¬ (s.reg_.PC ≥ s.ram_.memSize_) := by omega
  have e1 : ¬ (s.reg_.PC + 1 ≥ s.ram_.memSize_) := by omega
  have e2 : (s.reg_.PC + 1) % 65536 = s.reg_.PC + 1 := Nat.mod_eq_of_lt h16
  simp [FetchOpcode, Chip8Memory.ReadValue, e0, e1, e2, h0, h1]

theorem Step_of_fetch (tpu : Nat) (s : Chip8CPU) (env : Chip8Env) (op : Nat)
    (hf : FetchOpcode s = some op) :
    Step tpu s env =
      if !(ExecuteOpcode { s with lastOp_ := op } env op).1
      then (false, (ExecuteOpcode { s with lastOp_ := op } env op).2)
      else if !(ExecuteOpcode { s with lastOp_ := op } env op).2.isWaitingForInput_
      then (true, UpdateTimers tpu (ExecuteOpcode { s with lastOp_ := op } env op).2 env)
      else (true, (ExecuteOpcode { s with lastOp_ := op } env op).2) := by
  simp only [Step, hf]

theorem RET_ok (s : Chip8CPU) (env : Chip8Env) (hsp : s.reg_.SP ≤ 16) :
    ExecuteOpcode s env 0x00EE =
      (true, { s with reg_ := { s.reg_ with
        PC := (s.reg_.stack s.reg_.SP + 2) % 65536,
        SP := (s.reg_.SP + 255) % 256 } }) := by
  have h1 : (0x00EE &&& 0xF000 : Nat) = 0 := by decide
  have h2 : (0x00EE &&& 0x00FF : Nat) = 0xEE := by decide
  have h3 : ¬ (s.reg_.SP > 16) := by omega
  simp only [ExecuteOpcode, h1, h2, ExecuteOpRET, h3, if_false]

theorem Step_call (tpu : Nat) (s : Chip8CPU) (env : Chip8Env) (nnn : Nat)
    (hf : FetchOpcode s = some (0x2000 + nnn)) (hn : nnn < 4096) (hsp : s.reg_.SP < 16)
    (hw : s.isWaitingForInput_ = false) :
    (Step tpu s env).1 = true ∧
    (Step tpu s env).2.reg_.PC = nnn ∧
    (Step tpu s env).2.reg_.SP = s.reg_.SP + 1 ∧
    (Step tpu s env).2.reg_.stack = setAt s.reg_.stack (s.reg_.SP + 1) s.reg_.PC ∧
    (Step tpu s env).2.ram_ = s.ram_ ∧
    (Step tpu s env).2.isWaitingForInput_ = false := by
  rw [Step_of_fetch tpu s env _ hf, CALL_ok _ env nnn hn (by simpa using hsp)]
  simp [UpdateTimers_frame, hw]

theorem Step_ret (tpu : Nat) (s : Chip8CPU) (env : Chip8Env)
    (hf : FetchOpcode s = some 0x00EE) (hsp : s.reg_.SP ≤ 16)
    (hw : s.isWaitingForInput_ = false) :
    (Step tpu s env).1 = true ∧
    (Step tpu s env).2.reg_.PC = (s.reg_.stack s.reg_.SP + 2) % 65536 ∧
    (Step tpu s env).2.reg_.SP = (s.reg_.SP + 255) % 256 ∧
    (Step tpu s env).2.ram_ = s.ram_ ∧
    (Step tpu s env).2.isWaitingForInput_ = false := by
  rw [Step_of_fetch tpu s env _ hf, RET_ok _ env (by simpa using hsp)]
  simp [UpdateTimers_frame, hw]

/-- C8 (amended): with the program `22 04 00 00 00 EE` at the standard start
address `0x200` of a standard machine, `Reset` succeeds and sets `PC` to
`0x200`; the call step and the return step that follow both succeed, and end
with `PC = 0x202` (start + 2, the instruction after the call) and `SP` equal
to its value before the call. -/
theorem call_return_program (tpu : Nat) (s : Chip8CPU) (env0 env1 env2 : Chip8Env)
    (hstd : s.isETI660_ = false) (hsize : 0x206 ≤ s.ram_.memSize_)
    (hprog : ∀ i, i < 6 →
      s.ram_.mem_ (CHIP8_PROGRAM_START + i) = [0x22, 0x04, 0x00, 0x00, 0x00, 0xEE].getD i 0) :
    ∃ s0, Reset tpu s env0 = some s0 ∧
      s0.reg_.PC = CHIP8_PROGRAM_START ∧
      (Step tpu s0 env1).1 = true ∧
      (Step tpu (Step tpu s0 env1).2 env2).1 = true ∧
      (Step tpu (Step tpu s0 env1).2 env2).2.reg_.PC = CHIP8_PROGRAM_START + 2 ∧
      (Step tpu (Step tpu s0 env1).2 env2).2.reg_.SP = s0.reg_.SP := by
  obtain ⟨s0, h0⟩ := Reset_total tpu s env0 (by omega)
  obtain ⟨hreg, hram, -, hwait, -, -⟩ := Reset_eq_some tpu s env0 s0 h0
  have hfr := writeSprites_frame 80 0 s.ram_ (by omega)
  rw [← hram] at hfr
  have hPC : s0.reg_.PC = 0x200 := by
    rw [hreg]; simp [InitializeRegisters, hstd, CHIP8_PROGRAM_START]
  have hSP : s0.reg_.SP = 0 := by rw [hreg]; simp [InitializeRegisters]
  have hm : ∀ i, i < 6 → s0.ram_.mem_ (0x200 + i)
      = [0x22, 0x04, 0x00, 0x00, 0x00, 0xEE].getD i 0 := by
    intro i hi
    rw [hfr.2 _ (Or.inr (by omega))]
    exact hprog i hi
  have hm0 := hm 0 (by omega)
  have hm1 := hm 1 (by omega)
  have hm4 := hm 4 (by omega)
  have hm5 := hm 5 (by omega)
  simp only [List.getD_cons_zero, List.getD_cons_succ, Nat.add_zero] at hm0 hm1 hm4 hm5
  -- first step: fetch and execute the call
  have hf1 : FetchOpcode s0 = some (0x2000 + 0x204) :=
    FetchOpcode_eq s0 0x22 0x04 (by rw [hPC, hfr.1]; omega) (by rw [hPC]; omega)
      (by rw [hPC]; exact hm0) (by rw [hPC]; exact hm1)
  obtain ⟨a1, aPC, aSP, astack, aram, await⟩ :=
    Step_call tpu s0 env1 0x204 hf1 (by decide) (by omega) hwait
  -- second step: fetch and execute the return
  have hf2 : FetchOpcode (Step tpu s0 env1).2 = some 0x00EE :=
    FetchOpcode_eq _ 0x00 0xEE (by rw [aPC, aram, hfr.1]; omega) (by rw [aPC]; omega)
      (by rw [aPC, aram]; exact hm4) (by rw [aPC, aram]; exact hm5)
  obtain ⟨b1, bPC, bSP, -, -⟩ :=
    Step_ret tpu (Step tpu s0 env1).2 env2 hf2 (by omega) await
  refine ⟨s0, h0, hPC, a1, b1, ?_, ?_⟩
  · rw [bPC, aSP, astack, hSP, hPC]
    simp [setAt, CHIP8_PROGRAM_START]
  · rw [bSP, aSP, hSP]

theorem call_return_program_witness :
    (callRetCPU.isETI660_ = false ∧ 0x206 ≤ callRetCPU.ram_.memSize_ ∧
      ∀ i, i < 6 → callRetCPU.ram_.mem_ (CHIP8_PROGRAM_START + i)
        = [0x22, 0x04, 0x00, 0x00, 0x00, 0xEE].getD i 0) ∧
    ∃ s0, Reset 1000 callRetCPU sampleEnv = some s0 ∧
      s0.reg_.PC = CHIP8_PROGRAM_START ∧
      (Step 1000 s0 sampleEnv).1 = true ∧
      (Step 1000 (Step 1000 s0 sampleEnv).2 sampleEnv).1 = true ∧
      (Step 1000 (Step 1000 s0 sampleEnv).2 sampleEnv).2.reg_.PC = CHIP8_PROGRAM_START + 2 ∧
      (Step 1000 (Step 1000 s0 sampleEnv).2 sampleEnv).2.reg_.SP = s0.reg_.SP :=
  ⟨⟨by decide, by decide, by decide⟩,
   call_return_program 1000 callRetCPU sampleEnv sampleEnv sampleEnv
     (by decide) (by decide) (by decide)⟩

/-- C8 (counterexample): on the standard machine `callRetCPU` the reset, the
call step and the return step succeed and leave `PC = 0x202`, which is not
start + 4 = `0x204`. -/
theorem call_return_not_start_plus_4 :
    (Reset 1000 callRetCPU sampleEnv).map (fun s0 =>
        ((Step 1000 s0 sampleEnv).1,
         (Step 1000 (Step 1000 s0 sampleEnv).2 sampleEnv).1,
         (Step 1000 (Step 1000 s0 sampleEnv).2 sampleEnv).2.reg_.PC,
         decide ((Step 1000 (Step 1000 s0 sampleEnv).2 sampleEnv).2.reg_.PC
           = CHIP8_PROGRAM_START + 4)))
      = some (true, true, 0x202, false) := by
  decide

/-- C10 (amended): from a state whose accumulator holds one full period
(as `ResetTimerDecrement` leaves it) and whose `DT` is a nonzero byte, the
timer update invoked after exactly one period (16667 microseconds) has
elapsed leaves `DT` unchanged and brings the accumulator to 0; the timer
update invoked after that one, whatever the clock reads, leaves `DT` one
less than it was. -/
theorem timer_decrement_on_second_update (tpu : Nat) (s : Chip8CPU) (env1 env2 : Chip8Env)
    (htpu : 0 < tpu)
    (hacc : s.nextTimerDecrementCounter_
      = (ResetTimerDecrement tpu s).nextTimerDecrementCounter_)
    (hDT : 0 < s.reg_.DT) (hDT8 : s.reg_.DT < 256)
    (helapsed : env1.now - s.lastStepTime_
      = (CHIP8_CPU_TIMER_DECREMENT_DELAY_MICROSECONDS : Int) * (tpu : Int)) :
    (UpdateTimers tpu s env1).reg_.DT = s.reg_.DT ∧
    (UpdateTimers tpu s env1).nextTimerDecrementCounter_ = 0 ∧
    (UpdateTimers tpu (UpdateTimers tpu s env1) env2).reg_.DT = s.reg_.DT - 1 := by
  simp only [ResetTimerDecrement, CHIP8_CPU_TIMER_DECREMENT_DELAY_MICROSECONDS] at hacc helapsed
  have hpos : ¬ (s.nextTimerDecrementCounter_ ≤ 0) := by
    rw [hacc]; have : (0 : Int) < (tpu : Int) := by exact_mod_cast htpu
    omega
  have h1 : UpdateTimers tpu s env1 = { s with
      nextTimerDecrementCounter_ := s.nextTimerDecrementCounter_ - (env1.now - s.lastStepTime_),
      lastStepTime_ := env1.now } := by
    simp [UpdateTimers, hpos]
  have h2 : (UpdateTimers tpu s env1).nextTimerDecrementCounter_ = 0 := by
    rw [h1]; simp only; omega
  refine ⟨by rw [h1], h2, ?_⟩
  have h3 : (UpdateTimers tpu s env1).reg_.DT = s.reg_.DT := by rw [h1]
  have hle : (UpdateTimers tpu s env1).nextTimerDecrementCounter_ ≤ 0 := by omega
  have hgt : (UpdateTimers tpu s env1).reg_.DT > 0 := by omega
  generalize UpdateTimers tpu s env1 = t at h3 hle hgt
  unfold UpdateTimers SetBeeping ResetTimerDecrement
  simp only [hle, hgt, if_true]
  split_ifs <;> split <;> simp <;> omega

theorem timer_decrement_on_second_update_witness :
    ((0 : Nat) < 1000 ∧
     timerCPU.nextTimerDecrementCounter_
       = (ResetTimerDecrement 1000 timerCPU).nextTimerDecrementCounter_ ∧
     0 < timerCPU.reg_.DT ∧ timerCPU.reg_.DT < 256 ∧
     (envAt 16667000).now - timerCPU.lastStepTime_
       = (CHIP8_CPU_TIMER_DECREMENT_DELAY_MICROSECONDS : Int) * ((1000 : Nat) : Int)) ∧
    ((UpdateTimers 1000 timerCPU (envAt 16667000)).reg_.DT = timerCPU.reg_.DT ∧
     (UpdateTimers 1000 timerCPU (envAt 16667000)).nextTimerDecrementCounter_ = 0 ∧
     (UpdateTimers 1000 (UpdateTimers 1000 timerCPU (envAt 16667000)) (envAt 16667001)).reg_.DT
       = timerCPU.reg_.DT - 1) :=
  ⟨⟨by decide, by decide, by decide, by decide, by decide⟩,
   timer_decrement_on_second_update 1000 timerCPU (envAt 16667000) (envAt 16667001)
     (by decide) (by decide) (by decide) (by decide) (by decide)⟩

/-- C10 (counterexample): with `DT = 5`, a full-period accumulator and
16667 microseconds elapsed, one timer update leaves `DT = 5`, not 4. -/
theorem timer_not_decremented_by_first_update :
    timerCPU.nextTimerDecrementCounter_
      = (ResetTimerDecrement 1000 timerCPU).nextTimerDecrementCounter_ ∧
    (envAt 16667000).now - timerCPU.lastStepTime_ = 16667 * 1000 ∧
    timerCPU.reg_.DT = 5 ∧
    (UpdateTimers 1000 timerCPU (envAt 16667000)).reg_.DT = 5 ∧
    (UpdateTimers 1000 timerCPU (envAt 16667000)).reg_.DT ≠ timerCPU.reg_.DT - 1 := by
  decide

/-! ### Draw sprite -/

theorem drwPixel_fold (Vx Vy pixLine y w h : Nat) (cols : List Nat) :
    ∀ (vf : Nat) (pix : Nat → Nat),
    cols.foldl (drwPixel Vx Vy pixLine y) (vf, { w_ := w, h_ := h, pix_ := pix }) =
      ((((cols.filter (spriteBit pixLine)).map (plotPos w h Vx Vy y)).foldl drawStep
          (vf, pix)).1,
       { w_ := w, h_ := h,
         pix_ := (((cols.filter (spriteBit pixLine)).map (plotPos w h Vx Vy y)).foldl
           drawStep (vf, pix)).2 }) := by
  induction cols with
  | nil => intro vf pix; simp
  | cons c cs ih =>
    intro vf pix
    by_cases hb : (pixLine &&& (128 >>> c)) = 0
    · have hs : spriteBit pixLine c = false := by simp [spriteBit, hb]
      simp only [List.foldl_cons, drwPixel, hb, if_true, List.filter_cons, hs]
      exact ih vf pix
    · have hs : spriteBit pixLine c = true := by simp [spriteBit, hb]
      simp only [List.foldl_cons, drwPixel, hb, if_false, List.filter_cons, hs, if_true,
        List.map_cons]
      exact ih _ _

theorem drwLine_eq (Vx Vy pixLine y w h vf : Nat) (pix : Nat → Nat) :
    drwLine Vx Vy pixLine y (vf, { w_ := w, h_ := h, pix_ := pix }) =
      (((linePlots w h Vx Vy pixLine y).foldl drawStep (vf, pix)).1,
       { w_ := w, h_ := h,
         pix_ := ((linePlots w h Vx Vy pixLine y).foldl drawStep (vf, pix)).2 }) :=
  drwPixel_fold Vx Vy pixLine y w h (List.range 8) vf pix

theorem drwRows_eq (ram : Chip8Memory) (I Vx Vy w h : Nat) (n : Nat) :
    ∀ (y vf : Nat) (pix : Nat → Nat), I + y + n ≤ ram.memSize_ → ram.memSize_ < 65536 →
    drwRows ram I Vx Vy n y (vf, { w_ := w, h_ := h, pix_ := pix }) =
      (true,
       (((rowsPlots ram I w h Vx Vy n y).foldl drawStep (vf, pix)).1,
        { w_ := w, h_ := h,
          pix_ := ((rowsPlots ram I w h Vx Vy n y).foldl drawStep (vf, pix)).2 })) := by
  induction n with
  | zero => intro y vf pix _ _; simp [drwRows, rowsPlots]
  | succ n ih =>
    intro y vf pix hI hcap
    have hmod : (I + y) % 65536 = I + y := Nat.mod_eq_of_lt (by omega)
    have hrd : ram.ReadValue (I + y) = some (ram.mem_ (I + y)) := by
      have : ¬ (I + y ≥ ram.memSize_) := by omega
      simp [Chip8Memory.ReadValue, this]
    simp only [drwRows, hmod, hrd, drwLine_eq]
    rw [ih (y + 1) _ _ (by omega) hcap]
    simp [rowsPlots, List.range'_succ, List.foldl_append]

theorem drwRows_eq_display (ram : Chip8Memory) (I Vx Vy n y vf : Nat) (d : Chip8Display)
    (hI : I + y + n ≤ ram.memSize_) (hcap : ram.memSize_ < 65536) :
    drwRows ram I Vx Vy n y (vf, d) =
      (true,
       (((rowsPlots ram I d.w_ d.h_ Vx Vy n y).foldl drawStep (vf, d.pix_)).1,
        { d with
          pix_ := ((rowsPlots ram I d.w_ d.h_ Vx Vy n y).foldl drawStep (vf, d.pix_)).2 })) := by
  cases d with
  | mk w h pix => exact drwRows_eq ram I Vx Vy w h n y vf pix hI hcap

theorem decode_D (x y n : Nat) (hx : x < 16) (hy : y < 16) (hn : n < 16) :
    (0xD000 + 0x100 * x + 0x10 * y + n) &&& 0xF000 = 0xD000 ∧
    ((0xD000 + 0x100 * x + 0x10 * y + n) &&& 0x000F) % 256 = n ∧
    GetXArg (0xD000 + 0x100 * x + 0x10 * y + n) = x ∧
    GetYArg (0xD000 + 0x100 * x + 0x10 * y + n) = y := by
  rw [land_F000, land_000F, GetXArg_eq, GetYArg_eq]
  omega

theorem DRW_eq (s : Chip8CPU) (env : Chip8Env) (x y n : Nat)
    (hx : x < 16) (hy : y < 16) (hn : n < 16)
    (hcap : s.ram_.memSize_ < 65536) (hI : s.reg_.I + n ≤ s.ram_.memSize_) :
    ExecuteOpcode s env (0xD000 + 0x100 * x + 0x10 * y + n) =
      (true, SetPCNext { s.setV 0xF (((drawPlots s x y n).foldl drawStep
          (0, s.display_.pix_)).1) with
        display_ := { s.display_ with
          pix_ := ((drawPlots s x y n).foldl drawStep (0, s.display_.pix_)).2 } }) := by
  obtain ⟨h1, h2, h3, h4⟩ := decode_D x y n hx hy hn
  simp only [ExecuteOpcode, h1, ExecuteOpDRW, h2, h3, h4]
  rw [drwRows_eq_display s.ram_ s.reg_.I _ _ n 0 0 s.display_ (by omega) hcap]
  simp only [if_true, drawPlots]

theorem xor_one_byte (v : Nat) (hv : v < 256) :
    (v ^^^ 1) % 256 = v ^^^ 1 ∧ v ^^^ 1 < 256 := by
  have h : v ^^^ 1 < 2 ^ 8 := Nat.xor_lt_two_pow (by simpa using hv) (by norm_num)
  have h2 : v ^^^ 1 < 256 := by simpa using h
  exact ⟨Nat.mod_eq_of_lt h2, h2⟩

theorem toggle_apply (pix : Nat → Nat) (p j : Nat) (hp : pix p < 256) :
    toggle pix p j = if j = p then pix p ^^^ 1 else pix j := by
  simp [toggle, setAt, (xor_one_byte _ hp).1]

theorem toggle_byte (pix : Nat → Nat) (hpix : ∀ i, pix i < 256) (p : Nat) :
    ∀ i, toggle pix p i < 256 := by
  intro i
  rw [toggle_apply pix p i (hpix p)]
  split
  · exact (xor_one_byte _ (hpix p)).2
  · exact hpix i

theorem drawStep_fold_pix (L : List Nat) : ∀ (vf : Nat) (pix : Nat → Nat),
    (L.foldl drawStep (vf, pix)).2 = L.foldl toggle pix := by
  induction L with
  | nil => intro vf pix; rfl
  | cons p L ih => intro vf pix; simp only [List.foldl_cons, drawStep]; exact ih _ _

theorem toggle_fold_apply (L : List Nat) : ∀ (pix : Nat → Nat), (∀ i, pix i < 256) →
    ∀ j, (L.foldl toggle pix) j = if L.count j % 2 = 1 then pix j ^^^ 1 else pix j := by
  induction L with
  | nil => intro pix _ j; simp
  | cons p L ih =>
    intro pix hpix j
    simp only [List.foldl_cons]
    rw [ih (toggle pix p) (toggle_byte pix hpix p) j, toggle_apply pix p j (hpix p),
      List.count_cons]
    by_cases hj : j = p
    · subst hj
      simp only [if_true, beq_self_eq_true, Nat.xor_cancel_right]
      split_ifs <;> first | rfl | omega
    · have hj2 : (p == j) = false := by simpa using fun h => hj h.symm
      simp [hj, hj2]

theorem toggle_fold_twice (L : List Nat) (pix : Nat → Nat) (hpix : ∀ i, pix i < 256) :
    L.foldl toggle (L.foldl toggle pix) = pix := by
  funext j
  have hb : ∀ i, (L.foldl toggle pix) i < 256 := by
    intro i
    rw [toggle_fold_apply L pix hpix i]
    split
    · exact (xor_one_byte _ (hpix i)).2
    · exact hpix i
  rw [toggle_fold_apply L _ hb j, toggle_fold_apply L pix hpix j]
  split_ifs
  · exact Nat.xor_cancel_right 1 (pix j)
  · rfl

theorem drawStep_flag_one (L : List Nat) : ∀ (pix : Nat → Nat),
    (L.foldl drawStep (1, pix)).1 = 1 := by
  induction L with
  | nil => intro pix; rfl
  | cons p L ih =>
    intro pix
    simp only [List.foldl_cons, drawStep, ite_self]
    exact ih _

theorem drawStep_flag_of_on (L : List Nat) : ∀ (vf : Nat) (pix : Nat → Nat),
    (∃ p, p ∈ L ∧ pix p ≠ 0) → (L.foldl drawStep (vf, pix)).1 = 1 := by
  induction L with
  | nil => intro vf pix ⟨p, hp, _⟩; simp at hp
  | cons q L ih =>
    intro vf pix ⟨p, hp, hne⟩
    simp only [List.foldl_cons, drawStep]
    by_cases hq : pix q ≠ 0
    · rw [if_pos hq]
      exact drawStep_flag_one L _
    · have hq0 : pix q = 0 := by simpa using hq
      have hpq : p ≠ q := fun h => hne (h ▸ hq0)
      apply ih
      refine ⟨p, ?_, ?_⟩
      · simpa [hpq] using hp
      · simpa [toggle, setAt, hpq] using hne

theorem plotPos_inj (h Vx Vy r r2 c c2 : Nat) (hh : h = 32 ∨ h = 64)
    (hr : r < 16) (hr2 : r2 < 16) (hc : c < 8) (hc2 : c2 < 8)
    (he : plotPos 64 h Vx Vy r c = plotPos 64 h Vx Vy r2 c2) : r = r2 ∧ c = c2 := by
  unfold plotPos at he
  rcases hh with rfl | rfl <;> omega

theorem mem_linePlots (w h Vx Vy pixLine y p : Nat) :
    p ∈ linePlots w h Vx Vy pixLine y ↔
      ∃ c, c < 8 ∧ spriteBit pixLine c = true ∧ plotPos w h Vx Vy y c = p := by
  simp [linePlots, and_assoc]

theorem mem_rowsPlots (ram : Chip8Memory) (I w h Vx Vy n p : Nat) :
    p ∈ rowsPlots ram I w h Vx Vy n 0 ↔
      ∃ r c, r < n ∧ c < 8 ∧ spriteBit (ram.mem_ (I + r)) c = true ∧
        plotPos w h Vx Vy r c = p := by
  simp [rowsPlots, mem_linePlots, List.mem_range'_1]

theorem rowsPlots_nodup (ram : Chip8Memory) (I h Vx Vy n : Nat) (hh : h = 32 ∨ h = 64)
    (hn : n ≤ 16) : (rowsPlots ram I 64 h Vx Vy n 0).Nodup := by
  unfold rowsPlots
  rw [List.nodup_flatMap]
  constructor
  · intro r hr
    have hr16 : r < 16 := by
      have := List.mem_range'_1.mp hr
      omega
    unfold linePlots
    apply List.Nodup.map_on
    · intro a ha b hb hab
      have ha8 : a < 8 := by simpa using (List.mem_filter.mp ha).1
      have hb8 : b < 8 := by simpa using (List.mem_filter.mp hb).1
      exact (plotPos_inj h Vx Vy r r a b hh hr16 hr16 ha8 hb8 hab).2
    · exact (List.nodup_range 8).filter _
  · have hnd : List.Pairwise (fun a b => a ≠ b) (List.range' 0 n) := List.nodup_range' 0 n
    refine List.Pairwise.imp_of_mem ?_ hnd
    intro a b ha hb hab
    have ha16 : a < 16 := by
      have := List.mem_range'_1.mp ha
      omega
    have hb16 : b < 16 := by
      have := List.mem_range'_1.mp hb
      omega
    intro p hpa hpb
    obtain ⟨c, hc, -, rfl⟩ := (mem_linePlots _ _ _ _ _ _ _).mp hpa
    obtain ⟨c2, hc2, -, he⟩ := (mem_linePlots _ _ _ _ _ _ _).mp hpb
    exact hab (plotPos_inj h Vx Vy a b c c2 hh ha16 hb16 hc hc2 he.symm).1

theorem GetPixelState_eq (d : Chip8Display) (Vx Vy r c : Nat)
    (hw : d.w_ = 64) (hh : d.h_ = 32 ∨ d.h_ = 64) :
    d.GetPixelState (Vx + c) (Vy + r) = d.pix_ (plotPos d.w_ d.h_ Vx Vy r c) := by
  unfold Chip8Display.GetPixelState Chip8Display.GetPos plotPos
  congr 1
  rw [hw]
  rcases hh with h | h <;> rw [h] <;> omega

/-- C6 (amended): on a 64x32 or 64x64 frame buffer of byte cells in any
state, for `n` in 1..15 and `I + n - 1` below the capacity, if the draw
instruction `Dxyn` is executed twice in a row and `Vx`, `Vy` hold the same
values at the second draw as at the first, then both draws succeed and the
frame buffer after the second draw equals the frame buffer before the first;
and if some set sprite bit targets a cell that was off before the first draw
(so in particular on a cleared screen), the second draw leaves `VF = 1`. -/
theorem draw_twice (s : Chip8CPU) (env : Chip8Env) (x y n : Nat)
    (hx : x < 16) (hy : y < 16) (hn1 : 1 ≤ n) (hn : n ≤ 15)
    (hw : s.display_.w_ = 64) (hh : s.display_.h_ = 32 ∨ s.display_.h_ = 64)
    (hpix : ∀ i, s.display_.pix_ i < 256)
    (hcap : s.ram_.memSize_ < 65536)
    (hI : s.reg_.I + n - 1 < s.ram_.memSize_)
    (hsame :
      (ExecuteOpcode s env (0xD000 + 0x100 * x + 0x10 * y + n)).2.reg_.V x = s.reg_.V x ∧
      (ExecuteOpcode s env (0xD000 + 0x100 * x + 0x10 * y + n)).2.reg_.V y = s.reg_.V y) :
    (ExecuteOpcode s env (0xD000 + 0x100 * x + 0x10 * y + n)).1 = true ∧
    (ExecuteOpcode (ExecuteOpcode s env (0xD000 + 0x100 * x + 0x10 * y + n)).2 env
      (0xD000 + 0x100 * x + 0x10 * y + n)).1 = true ∧
    (ExecuteOpcode (ExecuteOpcode s env (0xD000 + 0x100 * x + 0x10 * y + n)).2 env
      (0xD000 + 0x100 * x + 0x10 * y + n)).2.display_ = s.display_ ∧
    ((∃ r c, r < n ∧ c < 8 ∧ (s.ram_.mem_ (s.reg_.I + r) &&& (128 >>> c)) ≠ 0 ∧
        s.display_.GetPixelState (s.reg_.V x + c) (s.reg_.V y + r) = 0) →
      (ExecuteOpcode (ExecuteOpcode s env (0xD000 + 0x100 * x + 0x10 * y + n)).2 env
        (0xD000 + 0x100 * x + 0x10 * y + n)).2.reg_.V 0xF = 1) := by
  have e1 := DRW_eq s env x y n hx hy (by omega) hcap (by omega)
  generalize ExecuteOpcode s env (0xD000 + 0x100 * x + 0x10 * y + n) = r1 at e1 hsame ⊢
  obtain ⟨ok1, s1⟩ := r1
  simp only [Prod.mk.injEq] at e1
  obtain ⟨hok1, hs1⟩ := e1
  simp only at hsame ⊢
  have hram : s1.ram_ = s.ram_ := by rw [hs1]; rfl
  have hIeq : s1.reg_.I = s.reg_.I := by rw [hs1]; rfl
  have hdisp : s1.display_ = { s.display_ with
      pix_ := (drawPlots s x y n).foldl toggle s.display_.pix_ } := by
    rw [hs1, ← drawStep_fold_pix _ 0]; rfl
  have hL : drawPlots s1 x y n = drawPlots s x y n := by
    unfold drawPlots
    rw [hram, hIeq, hsame.1, hsame.2, hdisp]
  have e2 := DRW_eq s1 env x y n hx hy (by omega) (by rw [hram]; exact hcap)
    (by rw [hram, hIeq]; omega)
  rw [hL] at e2
  rw [e2]
  refine ⟨hok1, rfl, ?_, ?_⟩
  · simp only [SetPCNext, setPC, setV, drawStep_fold_pix]
    rw [hdisp]
    simp only
    rw [toggle_fold_twice _ _ hpix]
  · rintro ⟨r, c, hr, hc, hbit, hoff⟩
    simp only [SetPCNext, setPC, setV, setAt, if_true]
    apply drawStep_flag_of_on
    rw [GetPixelState_eq s.display_ _ _ r c hw hh] at hoff
    have hmem : plotPos s.display_.w_ s.display_.h_ (s.reg_.V x) (s.reg_.V y) r c
        ∈ drawPlots s x y n := by
      unfold drawPlots
      rw [mem_rowsPlots]
      exact ⟨r, c, hr, hc, by simpa [spriteBit] using hbit, rfl⟩
    have hnd : (drawPlots s x y n).Nodup := by
      unfold drawPlots
      rw [hw]
      exact rowsPlots_nodup _ _ _ _ _ _ hh (by omega)
    refine ⟨_, hmem, ?_⟩
    rw [hdisp]
    simp only
    rw [toggle_fold_apply _ _ hpix, List.count_eq_one_of_mem hnd hmem, hoff]
    decide






theorem draw_twice_witness :
    (glyphCPU.display_.w_ = 64 ∧ glyphCPU.reg_.I + 5 - 1 < glyphCPU.ram_.memSize_) ∧
    (ExecuteOpcode glyphCPU sampleEnv 0xD015).1 = true ∧
    (ExecuteOpcode (ExecuteOpcode glyphCPU sampleEnv 0xD015).2 sampleEnv 0xD015).1 = true ∧
    (ExecuteOpcode (ExecuteOpcode glyphCPU sampleEnv 0xD015).2 sampleEnv 0xD015).2.display_
      = glyphCPU.display_ ∧
    (ExecuteOpcode (ExecuteOpcode glyphCPU sampleEnv 0xD015).2 sampleEnv 0xD015).2.reg_.V 0xF
      = 1 := by
  have h := draw_twice glyphCPU sampleEnv 0 1 5 (by decide) (by decide) (by decide)
    (by decide) (by decide) (by decide) (fun _ => (by decide : (0 : Nat) < 256)) (by decide)
    (by decide)
    (by decide)
  exact ⟨⟨by decide, by decide⟩, h.1, h.2.1, h.2.2.1,
    h.2.2.2 ⟨0, 0, by decide, by decide, by decide, by decide⟩⟩

/-- C6 (counterexample): on `litCPU` the one-row sprite `80` has a set bit
and its target cell `(0, 0)` is on; both draws `D011` succeed, the first
turns the cell off with `VF = 1`, and the second turns it on again and
leaves `VF = 0`, not 1. -/
theorem draw_twice_flag_clear :
    litCPU.ram_.mem_ litCPU.reg_.I = 0x80 ∧
    (ExecuteOpcode litCPU sampleEnv 0xD011).1 = true ∧
    (ExecuteOpcode litCPU sampleEnv 0xD011).2.reg_.V 0 = litCPU.reg_.V 0 ∧
    (ExecuteOpcode litCPU sampleEnv 0xD011).2.reg_.V 1 = litCPU.reg_.V 1 ∧
    (ExecuteOpcode litCPU sampleEnv 0xD011).2.reg_.V 0xF = 1 ∧
    (ExecuteOpcode (ExecuteOpcode litCPU sampleEnv 0xD011).2 sampleEnv 0xD011).1 = true ∧
    (ExecuteOpcode (ExecuteOpcode litCPU sampleEnv 0xD011).2 sampleEnv 0xD011).2.reg_.V 0xF
      = 0 ∧
    (ExecuteOpcode (ExecuteOpcode litCPU sampleEnv 0xD011).2 sampleEnv 0xD011).2.reg_.V 0xF
      ≠ 1 := by
  decide

/-! ### BCD store `Fx33` -/

theorem decode_F (x kk : Nat) (hx : x < 16) (hkk : kk < 256) :
    (0xF000 + 0x100 * x + kk) &&& 0xF000 = 0xF000 ∧
    (0xF000 + 0x100 * x + kk) &&& 0x00FF = kk ∧
    GetXArg (0xF000 + 0x100 * x + kk) = x := by
  rw [land_F000, land_00FF, GetXArg_eq]
  omega

/-- C11: BCD store `Fx33` with a byte `v` in `Vx` and `I + 2` below the
capacity: the instruction succeeds, `memory[I]`, `memory[I+1]`,
`memory[I+2]` become `v / 100`, `v / 10 mod 10` and `v mod 10`, these are
decimal digits with `100 * memory[I] + 10 * memory[I+1] + memory[I+2] = v`,
and the program counter advances by 2 (in 16 bits). -/
theorem LDBVx_spec (s : Chip8CPU) (env : Chip8Env) (x : Nat) (hx : x < 16)
    (hv : s.reg_.V x < 256) (hcap : s.ram_.memSize_ < 65536)
    (hI : s.reg_.I + 2 < s.ram_.memSize_) :
    (ExecuteOpcode s env (0xF000 + 0x100 * x + 0x33)).1 = true ∧
    (ExecuteOpcode s env (0xF000 + 0x100 * x + 0x33)).2.ram_.mem_ s.reg_.I
      = s.reg_.V x / 100 ∧
    (ExecuteOpcode s env (0xF000 + 0x100 * x + 0x33)).2.ram_.mem_ (s.reg_.I + 1)
      = s.reg_.V x / 10 % 10 ∧
    (ExecuteOpcode s env (0xF000 + 0x100 * x + 0x33)).2.ram_.mem_ (s.reg_.I + 2)
      = s.reg_.V x % 10 ∧
    100 * (ExecuteOpcode s env (0xF000 + 0x100 * x + 0x33)).2.ram_.mem_ s.reg_.I
      + 10 * (ExecuteOpcode s env (0xF000 + 0x100 * x + 0x33)).2.ram_.mem_ (s.reg_.I + 1)
      + (ExecuteOpcode s env (0xF000 + 0x100 * x + 0x33)).2.ram_.mem_ (s.reg_.I + 2)
      = s.reg_.V x ∧
    (ExecuteOpcode s env (0xF000 + 0x100 * x + 0x33)).2.ram_.mem_ s.reg_.I ≤ 9 ∧
    (ExecuteOpcode s env (0xF000 + 0x100 * x + 0x33)).2.ram_.mem_ (s.reg_.I + 1) ≤ 9 ∧
    (ExecuteOpcode s env (0xF000 + 0x100 * x + 0x33)).2.ram_.mem_ (s.reg_.I + 2) ≤ 9 ∧
    (ExecuteOpcode s env (0xF000 + 0x100 * x + 0x33)).2.reg_.PC
      = (s.reg_.PC + 2) % 65536 := by
  obtain ⟨h1, h2, h3⟩ := decode_F x 0x33 hx (by omega)
  have e0 : ¬ (s.reg_.I ≥ s.ram_.memSize_) := by omega
  have e1 : ¬ (s.reg_.I + 1 ≥ s.ram_.memSize_) := by omega
  have e2 : ¬ (s.reg_.I + 2 ≥ s.ram_.memSize_) := by omega
  have m1 : (s.reg_.I + 1) % 65536 = s.reg_.I + 1 := Nat.mod_eq_of_lt (by omega)
  have m2 : (s.reg_.I + 2) % 65536 = s.reg_.I + 2 := Nat.mod_eq_of_lt (by omega)
  simp only [ExecuteOpcode, h1, h2, ExecuteOpLDBVx, h3, Chip8Memory.WriteValue, e0, e1, e2,
    m1, m2, if_false, if_true]
  simp [SetPCNext, setPC, setAt]
  omega

theorem LDBVx_spec_witness :
    ((({ sampleCPU with reg_ := { sampleCPU.reg_ with I := 0x300 } }).setV 2 156).reg_.V 2
      < 256) ∧
    (ExecuteOpcode (({ sampleCPU with reg_ := { sampleCPU.reg_ with I := 0x300 } }).setV 2 156)
      sampleEnv 0xF233).2.ram_.mem_ 0x300 = 1 ∧
    (ExecuteOpcode (({ sampleCPU with reg_ := { sampleCPU.reg_ with I := 0x300 } }).setV 2 156)
      sampleEnv 0xF233).2.ram_.mem_ 0x301 = 5 ∧
    (ExecuteOpcode (({ sampleCPU with reg_ := { sampleCPU.reg_ with I := 0x300 } }).setV 2 156)
      sampleEnv 0xF233).2.ram_.mem_ 0x302 = 6 := by
  have h := LDBVx_spec (({ sampleCPU with reg_ := { sampleCPU.reg_ with I := 0x300 } }).setV 2 156)
    sampleEnv 2 (by decide) (by decide) (by decide) (by decide)
  exact ⟨by decide, h.2.1, h.2.2.1, h.2.2.2.1⟩

/-! ### Return with an empty stack -/

theorem RET_fail (s : Chip8CPU) (env : Chip8Env) (hsp : 16 < s.reg_.SP) :
    ExecuteOpcode s env 0x00EE = (false, s) := by
  have h1 : (0x00EE &&& 0xF000 : Nat) = 0 := by decide
  have h2 : (0x00EE &&& 0x00FF : Nat) = 0xEE := by decide
  have h3 : s.reg_.SP > 16 := hsp
  simp only [ExecuteOpcode, h1, h2, ExecuteOpRET, h3, if_true]

/-- C14: with `SP = 0` the return instruction `00EE` does not fault: it sets
`PC` to `stack[0] + 2` (in 16 bits) and wraps `SP` to 255; the return
instruction executed next faults and returns the machine unchanged (so `PC`
and `SP` are unchanged). In every state a return faults exactly when
`SP > 16` before the pop. -/
theorem RET_empty_stack (s : Chip8CPU) (env : Chip8Env) (hsp : s.reg_.SP = 0) :
    (ExecuteOpcode s env 0x00EE).1 = true ∧
    (ExecuteOpcode s env 0x00EE).2.reg_.PC = (s.reg_.stack 0 + 2) % 65536 ∧
    (ExecuteOpcode s env 0x00EE).2.reg_.SP = 255 ∧
    ExecuteOpcode (ExecuteOpcode s env 0x00EE).2 env 0x00EE
      = (false, (ExecuteOpcode s env 0x00EE).2) ∧
    (∀ t : Chip8CPU, (ExecuteOpcode t env 0x00EE).1 = false ↔ t.reg_.SP > 16) := by
  have h := RET_ok s env (by omega)
  have hsp2 : (ExecuteOpcode s env 0x00EE).2.reg_.SP = 255 := by rw [h]; simp [hsp]
  refine ⟨by rw [h], by rw [h]; simp [hsp], hsp2, RET_fail _ env (by omega), ?_⟩
  intro t
  by_cases ht : t.reg_.SP > 16
  · simp [RET_fail t env ht, ht]
  · simp [RET_ok t env (by omega), ht]

theorem RET_empty_stack_witness :
    sampleCPU.reg_.SP = 0 ∧
    (ExecuteOpcode sampleCPU sampleEnv 0x00EE).1 = true ∧
    (ExecuteOpcode sampleCPU sampleEnv 0x00EE).2.reg_.PC = 2 ∧
    (ExecuteOpcode sampleCPU sampleEnv 0x00EE).2.reg_.SP = 255 ∧
    ExecuteOpcode (ExecuteOpcode sampleCPU sampleEnv 0x00EE).2 sampleEnv 0x00EE
      = (false, (ExecuteOpcode sampleCPU sampleEnv 0x00EE).2) := by
  have h := RET_empty_stack sampleCPU sampleEnv (by decide)
  exact ⟨by decide, h.1, h.2.1, h.2.2.1, h.2.2.2.1⟩

/-! ### Clear screen `00E0` -/

theorem GetPos_lt_GetSize (d : Chip8Display) (x y : Nat)
    (hw : d.w_ = 64) (hh : d.h_ = 32 ∨ d.h_ = 64) :
    d.GetPos (x % d.w_) (y % d.h_) < d.GetSize := by
  unfold Chip8Display.GetPos Chip8Display.GetSize
  rw [hw]
  rcases hh with h | h <;> rw [h] <;> omega

/-- C18: clear screen `00E0` on a 64x32 or 64x64 frame buffer in any state:
the instruction succeeds, every cell is off afterwards (each index below
width * height, and `GetPixelState(x, y)` for all `x`, `y`), width and height
are unchanged, and the program counter advances by 2 (in 16 bits). -/
theorem CLS_spec (s : Chip8CPU) (env : Chip8Env)
    (hw : s.display_.w_ = 64) (hh : s.display_.h_ = 32 ∨ s.display_.h_ = 64) :
    (ExecuteOpcode s env 0x00E0).1 = true ∧
    (∀ i, i < s.display_.w_ * s.display_.h_ →
      (ExecuteOpcode s env 0x00E0).2.display_.pix_ i = 0) ∧
    (∀ x y, (ExecuteOpcode s env 0x00E0).2.display_.GetPixelState x y = 0) ∧
    (ExecuteOpcode s env 0x00E0).2.display_.w_ = s.display_.w_ ∧
    (ExecuteOpcode s env 0x00E0).2.display_.h_ = s.display_.h_ ∧
    (ExecuteOpcode s env 0x00E0).2.reg_.PC = (s.reg_.PC + 2) % 65536 := by
  have h1 : (0x00E0 &&& 0xF000 : Nat) = 0 := by decide
  have h2 : (0x00E0 &&& 0x00FF : Nat) = 0xE0 := by decide
  have e : ExecuteOpcode s env 0x00E0
      = (true, SetPCNext { s with display_ := s.display_.Clear }) := by
    simp only [ExecuteOpcode, h1, h2, ExecuteOpCLS]
  rw [e]
  refine ⟨rfl, ?_, ?_, rfl, rfl, rfl⟩
  · intro i hi
    have : i < s.display_.GetSize := by
      unfold Chip8Display.GetSize
      rw [hw] at hi ⊢
      rcases hh with h | h <;> rw [h] at hi ⊢ <;> omega
    simp [SetPCNext, setPC, Chip8Display.Clear, this]
  · intro x y
    have := GetPos_lt_GetSize s.display_ x y hw hh
    simp only [SetPCNext, setPC, Chip8Display.Clear, Chip8Display.GetPixelState]
    exact if_pos this

theorem CLS_spec_witness :
    (litCPU.display_.w_ = 64 ∧ litCPU.display_.pix_ 0 = 1) ∧
    (ExecuteOpcode litCPU sampleEnv 0x00E0).1 = true ∧
    (ExecuteOpcode litCPU sampleEnv 0x00E0).2.display_.pix_ 0 = 0 ∧
    (ExecuteOpcode litCPU sampleEnv 0x00E0).2.display_.GetPixelState 64 32 = 0 := by
  have h := CLS_spec litCPU sampleEnv (by decide) (by decide)
  exact ⟨⟨by decide, by decide⟩, h.1, h.2.1 0 (by decide), h.2.2.1 64 32⟩

/-! ### State after `Reset` -/

theorem Clear_pix (d : Chip8Display) (i : Nat) (h : i < d.GetSize) : d.Clear.pix_ i = 0 := by
  simp [Chip8Display.Clear, h]

theorem Reset_eq_some_display (tpu : Nat) (s : Chip8CPU) (env : Chip8Env) (s0 : Chip8CPU)
    (h : Reset tpu s env = some s0) :
    s0.display_ = s.display_.Reset CHIP8_DISPLAY_WIDTH CHIP8_DISPLAY_HEIGHT ∧
    s0.isInHiresMode_ = false ∧
    s0.defaultSpritesAddr_ = CHIP8_PROGRAM_DEFAULT_SPRITES_START ∧
    s0.lastOp_ = 0 := by
  unfold Reset at h
  simp only at h
  split at h
  · injection h with h
    subst h
    simp only [SetBeeping]
    split <;> simp [InitializeDefaultSprites, ResetTimerDecrement, InitializeRegisters]
  · exact absurd h (by simp)

/-- C17: `Reset` from any prior state (over a memory of at least the 80
bytes the sprite table needs) succeeds and leaves `PC` at the configured
program start (`0x600` for ETI 660, `0x200` otherwise), `SP = I = DT = ST = 0`,
the waiting-for-input and high-resolution flags false, the timer accumulator
at one period (16667 microseconds, in clock ticks), and a 64x32 frame buffer
whose cells are all off. -/
theorem Reset_state (tpu : Nat) (s : Chip8CPU) (env : Chip8Env)
    (hmem : 80 ≤ s.ram_.memSize_) :
    ∃ s0, Reset tpu s env = some s0 ∧
      s0.reg_.PC
        = (if s.isETI660_ then CHIP8_PROGRAM_ETI660_START else CHIP8_PROGRAM_START) ∧
      s0.isETI660_ = s.isETI660_ ∧
      s0.reg_.SP = 0 ∧ s0.reg_.I = 0 ∧ s0.reg_.DT = 0 ∧ s0.reg_.ST = 0 ∧
      s0.isWaitingForInput_ = false ∧ s0.isInHiresMode_ = false ∧
      s0.nextTimerDecrementCounter_
        = (CHIP8_CPU_TIMER_DECREMENT_DELAY_MICROSECONDS : Int) * (tpu : Int) ∧
      s0.display_.w_ = 64 ∧ s0.display_.h_ = 32 ∧
      (∀ i, i < 64 * 32 → s0.display_.pix_ i = 0) ∧
      (∀ x y, s0.display_.GetPixelState x y = 0) := by
  obtain ⟨s0, h0⟩ := Reset_total tpu s env hmem
  obtain ⟨hreg, -, heti, hwait, -, hacc⟩ := Reset_eq_some tpu s env s0 h0
  obtain ⟨hdisp, hhires, -, -⟩ := Reset_eq_some_display tpu s env s0 h0
  have hw : s0.display_.w_ = 64 := by rw [hdisp]; rfl
  have hh : s0.display_.h_ = 32 := by rw [hdisp]; rfl
  have hpix : ∀ i, i < 64 * 32 → s0.display_.pix_ i = 0 := by
    intro i hi
    rw [hdisp]
    unfold Chip8Display.Reset
    apply Clear_pix
    simp only [Chip8Display.GetSize, CHIP8_DISPLAY_WIDTH, CHIP8_DISPLAY_HEIGHT]
    omega
  refine ⟨s0, h0, ?_, heti, ?_, ?_, ?_, ?_, hwait, hhires, ?_, hw, hh, hpix, ?_⟩
  · rw [hreg]; simp [InitializeRegisters]
  · rw [hreg]; simp [InitializeRegisters]
  · rw [hreg]; simp [InitializeRegisters]
  · rw [hreg]; simp [InitializeRegisters]
  · rw [hreg]; simp [InitializeRegisters]
  · rw [hacc]; simp [CHIP8_CPU_TIMER_DECREMENT_DELAY_MICROSECONDS]
  · intro x y
    have hlt := GetPos_lt_GetSize s0.display_ x y hw (Or.inl hh)
    have hs : s0.display_.GetSize = 2048 := by
      unfold Chip8Display.GetSize
      rw [hw, hh]
    rw [hs] at hlt
    unfold Chip8Display.GetPixelState
    exact hpix _ (by omega)

theorem Reset_state_witness :
    (80 ≤ usedCPU.ram_.memSize_) ∧
    ∃ s0, Reset 1000 usedCPU sampleEnv = some s0 ∧
      s0.reg_.PC
        = (if usedCPU.isETI660_ then CHIP8_PROGRAM_ETI660_START else CHIP8_PROGRAM_START) ∧
      s0.isETI660_ = usedCPU.isETI660_ ∧
      s0.reg_.SP = 0 ∧ s0.reg_.I = 0 ∧ s0.reg_.DT = 0 ∧ s0.reg_.ST = 0 ∧
      s0.isWaitingForInput_ = false ∧ s0.isInHiresMode_ = false ∧
      s0.nextTimerDecrementCounter_
        = (CHIP8_CPU_TIMER_DECREMENT_DELAY_MICROSECONDS : Int) * ((1000 : Nat) : Int) ∧
      s0.display_.w_ = 64 ∧ s0.display_.h_ = 32 ∧
      (∀ i, i < 64 * 32 → s0.display_.pix_ i = 0) ∧
      (∀ x y, s0.display_.GetPixelState x y = 0) :=
  ⟨by decide, Reset_state 1000 usedCPU sampleEnv (by decide)⟩

/-! ### Font sprites `Fx29` -/

theorem writeSprites_written (n : Nat) : ∀ (i : Nat) (m : Chip8Memory),
    i + n ≤ m.memSize_ → i + n ≤ 65536 →
    ∀ a, i ≤ a → a < i + n → (writeSprites n i m).2.mem_ a = fontSpriteData.getD a 0 := by
  induction n with
  | zero => intro i m _ _ a h1 h2; omega
  | succ n ih =>
    intro i m hi h16 a h1 h2
    have hmod : i % 65536 = i := Nat.mod_eq_of_lt (by omega)
    have hw : ¬ (i ≥ m.memSize_) := by omega
    simp only [writeSprites, hmod, Chip8Memory.WriteValue, hw, if_false, if_true]
    by_cases ha : a = i
    · subst ha
      rw [(writeSprites_frame n (a + 1) _ (by omega)).2 a (Or.inl (by omega))]
      simp [setAt]
    · exact ih (i + 1) _ (by simpa using by omega) (by omega) a (by omega) (by omega)

/-- Font sprite address `Fx29` after `Reset`, the reset as built with
assertions enabled: on a machine that has just been reset (over a memory of
at least 80 bytes) and whose `Vx` holds a digit `d` in 0..15, the
instruction `Fx29` succeeds and sets `I = 0x000 + 5 * d`; the five bytes
`memory[I..I+4]` are rows `5 * d .. 5 * d + 4` of the built-in table
`fontSpriteData` (the glyph of `d`), and `I + 4` is at most `0x04F`. -/
theorem LDFVx_spec (tpu : Nat) (s : Chip8CPU) (env0 env : Chip8Env) (x d : Nat)
    (hmem : 80 ≤ s.ram_.memSize_) (hx : x < 16) (hd : d < 16) (hV : s.reg_.V x = d) :
    ∃ s0, Reset tpu s env0 = some s0 ∧ s0.reg_.V x = d ∧
      (ExecuteOpcode s0 env (0xF000 + 0x100 * x + 0x29)).1 = true ∧
      (ExecuteOpcode s0 env (0xF000 + 0x100 * x + 0x29)).2.reg_.I
        = CHIP8_PROGRAM_DEFAULT_SPRITES_START + 5 * d ∧
      (∀ k, k < 5 →
        (ExecuteOpcode s0 env (0xF000 + 0x100 * x + 0x29)).2.ram_.mem_
            ((ExecuteOpcode s0 env (0xF000 + 0x100 * x + 0x29)).2.reg_.I + k)
          = fontSpriteData.getD (5 * d + k) 0) ∧
      (ExecuteOpcode s0 env (0xF000 + 0x100 * x + 0x29)).2.reg_.I + 4 ≤ 0x04F := by
  obtain ⟨s0, h0⟩ := Reset_total tpu s env0 hmem
  obtain ⟨-, hram, -, -, -, -⟩ := Reset_eq_some tpu s env0 s0 h0
  obtain ⟨-, -, hbase, -⟩ := Reset_eq_some_display tpu s env0 s0 h0
  have hV0 : s0.reg_.V x = d := by
    rw [(Reset_keeps_V_and_stack tpu s env0 s0 h0 x hx).1, hV]
  obtain ⟨h1, h2, h3⟩ := decode_F x 0x29 hx (by omega)
  have e : ExecuteOpcode s0 env (0xF000 + 0x100 * x + 0x29)
      = (true, SetPCNext { s0 with reg_ := { s0.reg_ with I := 5 * d } }) := by
    simp only [ExecuteOpcode, h1, h2, ExecuteOpLDFVx, h3, hV0, hbase,
      CHIP8_PROGRAM_DEFAULT_SPRITES_START]
    have : (0 + d * 5) % 65536 = 5 * d := by omega
    rw [this]
  refine ⟨s0, h0, hV0, ?_⟩
  rw [e]
  refine ⟨rfl, by simp [SetPCNext, setPC, CHIP8_PROGRAM_DEFAULT_SPRITES_START], ?_, ?_⟩
  · intro k hk
    simp only [SetPCNext, setPC]
    rw [hram]
    exact writeSprites_written 80 0 s.ram_ (by omega) (by omega) (5 * d + k) (by omega)
      (by omega)
  · simp only [SetPCNext, setPC]
    omega

theorem LDFVx_spec_witness :
    (80 ≤ (sampleCPU.setV 3 0xA).ram_.memSize_ ∧ (sampleCPU.setV 3 0xA).reg_.V 3 = 0xA) ∧
    ∃ s0, Reset 1000 (sampleCPU.setV 3 0xA) sampleEnv = some s0 ∧ s0.reg_.V 3 = 0xA ∧
      (ExecuteOpcode s0 sampleEnv 0xF329).1 = true ∧
      (ExecuteOpcode s0 sampleEnv 0xF329).2.reg_.I
        = CHIP8_PROGRAM_DEFAULT_SPRITES_START + 5 * 0xA ∧
      (∀ k, k < 5 →
        (ExecuteOpcode s0 sampleEnv 0xF329).2.ram_.mem_
            ((ExecuteOpcode s0 sampleEnv 0xF329).2.reg_.I + k)
          = fontSpriteData.getD (5 * 0xA + k) 0) ∧
      (ExecuteOpcode s0 sampleEnv 0xF329).2.reg_.I + 4 ≤ 0x04F :=
  ⟨⟨by decide, by decide⟩,
   LDFVx_spec 1000 (sampleCPU.setV 3 0xA) sampleEnv sampleEnv 3 0xA
     (by decide) (by decide) (by decide) (by decide)⟩

/-! ### Opcode fetch -/

theorem shl8_or (b0 b1 : Nat) (h0 : b0 < 256) (h1 : b1 < 256) :
    ((b0 <<< 8) ||| b1) % 65536 = 256 * b0 + b1 := by
  have h := Nat.mul_add_lt_is_or (show b1 < 2 ^ 8 by omega) b0
  rw [Nat.shiftLeft_eq, Nat.mul_comm b0 (2 ^ 8), ← h]
  omega

/-- C19: over a memory of capacity `c` (a 16-bit value) holding bytes, the
fetch succeeds exactly when `PC < c` and `PC + 1 < c`; a successful fetch
returns `256 * memory[PC] + memory[PC + 1]`; and when the fetch fails, `Step`
fails and returns the machine unchanged (registers, memory and frame
buffer). -/
theorem FetchOpcode_spec (s : Chip8CPU) (hcap : s.ram_.memSize_ < 65536)
    (hbytes : ∀ a, s.ram_.mem_ a < 256) :
    ((FetchOpcode s).isSome = true ↔
      (s.reg_.PC < s.ram_.memSize_ ∧ s.reg_.PC + 1 < s.ram_.memSize_)) ∧
    (∀ op, FetchOpcode s = some op →
      op = 256 * s.ram_.mem_ s.reg_.PC + s.ram_.mem_ (s.reg_.PC + 1)) ∧
    (FetchOpcode s = none → ∀ tpu env, Step tpu s env = (false, s)) := by
  by_cases h : s.reg_.PC + 1 < s.ram_.memSize_
  · have e := FetchOpcode_eq s _ _ h (by omega) rfl rfl
    rw [shl8_or _ _ (hbytes _) (hbytes _)] at e
    refine ⟨?_, ?_, ?_⟩
    · rw [e]; simp; omega
    · intro op hop
      rw [e] at hop
      exact (Option.some.inj hop).symm
    · intro hn; rw [e] at hn; exact absurd hn (by simp)
  · have e : FetchOpcode s = none := by
      unfold FetchOpcode Chip8Memory.ReadValue
      by_cases h0 : s.reg_.PC ≥ s.ram_.memSize_
      · simp [h0]
      · have h1 : (s.reg_.PC + 1) % 65536 ≥ s.ram_.memSize_ := by omega
        simp [h0, h1]
    refine ⟨?_, ?_, ?_⟩
    · rw [e]; simp; omega
    · intro op hop; rw [e] at hop; exact absurd hop (by simp)
    · intro _ tpu env
      simp [Step, e]

theorem FetchOpcode_spec_witness :
    (callRetCPU.ram_.memSize_ < 65536) ∧
    FetchOpcode callRetCPU = some 0x2204 ∧
    Step 1000 { callRetCPU with reg_ := { callRetCPU.reg_ with PC := 4095 } } sampleEnv
      = (false, { callRetCPU with reg_ := { callRetCPU.reg_ with PC := 4095 } }) := by
  have hb : ∀ a, callRetCPU.ram_.mem_ a < 256 := by
    intro a
    simp only [callRetCPU, pokeBytes, Chip8Memory.WriteValue, sampleRam, setAt]
    simp only [ge_iff_le, Nat.reduceLeDiff, if_false, Nat.reduceAdd, setAt]
    split_ifs <;> omega
  have h := FetchOpcode_spec callRetCPU (by decide) hb
  have h2 := FetchOpcode_spec
    { callRetCPU with reg_ := { callRetCPU.reg_ with PC := 4095 } } (by decide) hb
  refine ⟨by decide, ?_, h2.2.2 (by decide) 1000 sampleEnv⟩
  have hs : (FetchOpcode callRetCPU).isSome = true := h.1.mpr ⟨by decide, by decide⟩
  cases hf : FetchOpcode callRetCPU with
  | none => rw [hf] at hs; exact absurd hs (by decide)
  | some op => rw [h.2.1 op hf]; decide

/-! ### Load immediate and add immediate -/

theorem Step_exec (tpu : Nat) (s : Chip8CPU) (env : Chip8Env) (op : Nat) (t : Chip8CPU)
    (hf : FetchOpcode s = some op)
    (he : ExecuteOpcode { s with lastOp_ := op } env op = (true, t))
    (hw : t.isWaitingForInput_ = false) :
    Step tpu s env = (true, UpdateTimers tpu t env) := by
  rw [Step_of_fetch tpu s env op hf, he]
  simp [hw]

theorem decode_x_kk (g x kk : Nat) (hg : g < 16) (hx : x < 16) (hkk : kk < 256) :
    (0x1000 * g + 0x100 * x + kk) &&& 0xF000 = 0x1000 * g ∧
    (0x1000 * g + 0x100 * x + kk) &&& 0x00FF = kk ∧
    GetXArg (0x1000 * g + 0x100 * x + kk) = x := by
  rw [land_F000, land_00FF, GetXArg_eq]
  omega

theorem LDVxByte_eq (s : Chip8CPU) (env : Chip8Env) (x kk : Nat) (hx : x < 16)
    (hkk : kk < 256) :
    ExecuteOpcode s env (0x6000 + 0x100 * x + kk) = (true, SetPCNext (s.setV x kk)) := by
  obtain ⟨h1, h2, h3⟩ := decode_x_kk 6 x kk (by omega) hx hkk
  simp only [Nat.reduceMul] at h1 h2 h3
  simp only [ExecuteOpcode, h1, ExecuteOpLDVxByte, h2, h3, Nat.mod_eq_of_lt hkk]

theorem ADDVxByte_eq (s : Chip8CPU) (env : Chip8Env) (x nn : Nat) (hx : x < 16)
    (hnn : nn < 256) :
    ExecuteOpcode s env (0x7000 + 0x100 * x + nn)
      = (true, SetPCNext (s.setV x ((s.reg_.V x + nn) % 256))) := by
  obtain ⟨h1, h2, h3⟩ := decode_x_kk 7 x nn (by omega) hx hnn
  simp only [Nat.reduceMul] at h1 h2 h3
  simp only [ExecuteOpcode, h1, ExecuteOpADDVxByte, h2, h3]

theorem Step_LDVxByte (tpu : Nat) (s : Chip8CPU) (env : Chip8Env) (x kk : Nat)
    (hx : x < 16) (hkk : kk < 256)
    (hf : FetchOpcode s = some (0x6000 + 0x100 * x + kk))
    (hw : s.isWaitingForInput_ = false) :
    (Step tpu s env).1 = true ∧
    (Step tpu s env).2.reg_.PC = (s.reg_.PC + 2) % 65536 ∧
    (Step tpu s env).2.reg_.V = setAt s.reg_.V x kk ∧
    (Step tpu s env).2.ram_ = s.ram_ ∧
    (Step tpu s env).2.isWaitingForInput_ = false := by
  rw [Step_exec tpu s env _ _ hf (LDVxByte_eq _ env x kk hx hkk)
    (by simpa [SetPCNext, setPC, setV] using hw)]
  simp [UpdateTimers_frame, SetPCNext, setPC, setV, hw]

theorem Step_ADDVxByte (tpu : Nat) (s : Chip8CPU) (env : Chip8Env) (x nn : Nat)
    (hx : x < 16) (hnn : nn < 256)
    (hf : FetchOpcode s = some (0x7000 + 0x100 * x + nn))
    (hw : s.isWaitingForInput_ = false) :
    (Step tpu s env).1 = true ∧
    (Step tpu s env).2.reg_.PC = (s.reg_.PC + 2) % 65536 ∧
    (Step tpu s env).2.reg_.V = setAt s.reg_.V x ((s.reg_.V x + nn) % 256) ∧
    (Step tpu s env).2.ram_ = s.ram_ ∧
    (Step tpu s env).2.isWaitingForInput_ = false := by
  rw [Step_exec tpu s env _ _ hf (ADDVxByte_eq _ env x nn hx hnn)
    (by simpa [SetPCNext, setPC, setV] using hw)]
  simp [UpdateTimers_frame, SetPCNext, setPC, setV, hw]

/-- C13: with the program `[0x60 + x, kk, 0x70 + x, nn]` (load `kk` into
`Vx`, add `nn` to `Vx`) at the standard start address `0x200` of a standard
machine, for every register index `x` and bytes `kk`, `nn`: `Reset` succeeds,
the two steps that follow succeed, and afterwards `Vx = (kk + nn) mod 256`
and `PC = 0x204`. -/
theorem load_add_program (tpu : Nat) (s : Chip8CPU) (env0 env1 env2 : Chip8Env)
    (x kk nn : Nat) (hx : x < 16) (hkk : kk < 256) (hnn : nn < 256)
    (hstd : s.isETI660_ = false) (hsize : 0x204 ≤ s.ram_.memSize_)
    (hprog : ∀ i, i < 4 →
      s.ram_.mem_ (CHIP8_PROGRAM_START + i) = [0x60 + x, kk, 0x70 + x, nn].getD i 0) :
    ∃ s0, Reset tpu s env0 = some s0 ∧
      (Step tpu s0 env1).1 = true ∧
      (Step tpu (Step tpu s0 env1).2 env2).1 = true ∧
      (Step tpu (Step tpu s0 env1).2 env2).2.reg_.V x = (kk + nn) % 256 ∧
      (Step tpu (Step tpu s0 env1).2 env2).2.reg_.PC = CHIP8_PROGRAM_START + 4 := by
  obtain ⟨s0, h0⟩ := Reset_total tpu s env0 (by omega)
  obtain ⟨hreg, hram, -, hwait, -, -⟩ := Reset_eq_some tpu s env0 s0 h0
  have hfr := writeSprites_frame 80 0 s.ram_ (by omega)
  rw [← hram] at hfr
  have hPC : s0.reg_.PC = 0x200 := by
    rw [hreg]; simp [InitializeRegisters, hstd, CHIP8_PROGRAM_START]
  have hm : ∀ i, i < 4 → s0.ram_.mem_ (0x200 + i)
      = [0x60 + x, kk, 0x70 + x, nn].getD i 0 := by
    intro i hi
    rw [hfr.2 _ (Or.inr (by omega))]
    exact hprog i hi
  have hm0 := hm 0 (by omega)
  have hm1 := hm 1 (by omega)
  have hm2 := hm 2 (by omega)
  have hm3 := hm 3 (by omega)
  simp only [List.getD_cons_zero, List.getD_cons_succ, Nat.add_zero] at hm0 hm1 hm2 hm3
  -- first step: load immediate
  have hf1 : FetchOpcode s0 = some (0x6000 + 0x100 * x + kk) := by
    have e := FetchOpcode_eq s0 (0x60 + x) kk (by rw [hPC, hfr.1]; omega) (by rw [hPC]; omega)
      (by rw [hPC]; exact hm0) (by rw [hPC]; exact hm1)
    rw [shl8_or _ _ (by omega) hkk] at e
    rw [e]; congr 1; omega
  obtain ⟨a1, aPC, aV, aram, await⟩ := Step_LDVxByte tpu s0 env1 x kk hx hkk hf1 hwait
  -- second step: add immediate
  have hf2 : FetchOpcode (Step tpu s0 env1).2 = some (0x7000 + 0x100 * x + nn) := by
    have e := FetchOpcode_eq (Step tpu s0 env1).2 (0x70 + x) nn
      (by rw [aPC, aram, hPC, hfr.1]; omega) (by rw [aPC, hPC]; omega)
      (by rw [aPC, aram, hPC]; exact hm2) (by rw [aPC, aram, hPC]; exact hm3)
    rw [shl8_or _ _ (by omega) hnn] at e
    rw [e]; congr 1; omega
  obtain ⟨b1, bPC, bV, -, -⟩ :=
    Step_ADDVxByte tpu (Step tpu s0 env1).2 env2 x nn hx hnn hf2 await
  refine ⟨s0, h0, a1, b1, ?_, ?_⟩
  · rw [bV, aV]
    simp [setAt]
  · rw [bPC, aPC, hPC]
    simp [CHIP8_PROGRAM_START]

theorem load_add_program_witness :
    (sampleCPU.isETI660_ = false ∧
      ∀ i, i < 4 →
        ({ sampleCPU with ram_ := pokeBytes sampleRam 0x200 [0x60, 0x0A, 0x70, 0x05] } :
          Chip8CPU).ram_.mem_ (CHIP8_PROGRAM_START + i)
          = [0x60 + 0, 0x0A, 0x70 + 0, 0x05].getD i 0) ∧
    ∃ s0, Reset 1000
        { sampleCPU with ram_ := pokeBytes sampleRam 0x200 [0x60, 0x0A, 0x70, 0x05] }
        sampleEnv = some s0 ∧
      (Step 1000 s0 sampleEnv).1 = true ∧
      (Step 1000 (Step 1000 s0 sampleEnv).2 sampleEnv).1 = true ∧
      (Step 1000 (Step 1000 s0 sampleEnv).2 sampleEnv).2.reg_.V 0 = (0x0A + 0x05) % 256 ∧
      (Step 1000 (Step 1000 s0 sampleEnv).2 sampleEnv).2.reg_.PC = CHIP8_PROGRAM_START + 4 :=
  ⟨⟨by decide, by decide⟩,
   load_add_program 1000
     { sampleCPU with ram_ := pokeBytes sampleRam 0x200 [0x60, 0x0A, 0x70, 0x05] }
     sampleEnv sampleEnv sampleEnv 0 0x0A 0x05 (by decide) (by decide) (by decide)
     (by decide) (by decide) (by decide)⟩

/-! ### Jump `1nnn` -/

/-- C15 (amended): jump `1nnn` on either machine variant. If `PC` is `0x200`
(the standard program start, also on an ETI 660 machine) and `nnn = 0x260`,
the instruction succeeds, the frame buffer becomes 64x64 with every cell
off, the high-resolution flag is set and `PC` becomes `0x2C0`. In every other
case the instruction succeeds and changes `PC` to `nnn` and nothing else (so
frame buffer and high-resolution flag are unchanged). -/
theorem JPAddr_spec (s : Chip8CPU) (env : Chip8Env) (nnn : Nat) (hn : nnn < 4096) :
    ((s.reg_.PC = CHIP8_PROGRAM_START ∧ nnn = 0x260) →
      (ExecuteOpcode s env (0x1000 + nnn)).1 = true ∧
      (ExecuteOpcode s env (0x1000 + nnn)).2.reg_.PC = CHIP8_PROGRAM_HIRES_START ∧
      (ExecuteOpcode s env (0x1000 + nnn)).2.isInHiresMode_ = true ∧
      (ExecuteOpcode s env (0x1000 + nnn)).2.display_.w_ = 64 ∧
      (ExecuteOpcode s env (0x1000 + nnn)).2.display_.h_ = 64 ∧
      (∀ i, i < 64 * 64 → (ExecuteOpcode s env (0x1000 + nnn)).2.display_.pix_ i = 0) ∧
      (∀ x y, (ExecuteOpcode s env (0x1000 + nnn)).2.display_.GetPixelState x y = 0)) ∧
    (¬ (s.reg_.PC = CHIP8_PROGRAM_START ∧ nnn = 0x260) →
      ExecuteOpcode s env (0x1000 + nnn) = (true, s.setPC nnn)) := by
  have h1 : (0x1000 + nnn) &&& 0xF000 = 0x1000 := by rw [land_F000]; omega
  have h2 : (0x1000 + nnn) &&& 0x0FFF = nnn := by rw [land_0FFF]; omega
  constructor
  · intro hq
    have e : ExecuteOpcode s env (0x1000 + nnn)
        = (true, ({ s with isInHiresMode_ := true, display_ :=
            s.display_.Reset CHIP8_HIRES_DISPLAY_WIDTH CHIP8_HIRES_DISPLAY_HEIGHT } :
              Chip8CPU).setPC CHIP8_PROGRAM_HIRES_START) := by
      simp only [ExecuteOpcode, h1, ExecuteOpJPAddr]
      rw [if_pos ⟨hq.1, by rw [h2]; exact hq.2⟩]
    rw [e]
    have hpix : ∀ i, i < 64 * 64 →
        (s.display_.Reset CHIP8_HIRES_DISPLAY_WIDTH CHIP8_HIRES_DISPLAY_HEIGHT).pix_ i = 0 := by
      intro i hi
      unfold Chip8Display.Reset
      apply Clear_pix
      simp only [Chip8Display.GetSize, CHIP8_HIRES_DISPLAY_WIDTH, CHIP8_HIRES_DISPLAY_HEIGHT]
      omega
    refine ⟨rfl, rfl, rfl, rfl, rfl, hpix, ?_⟩
    intro x y
    have hlt := GetPos_lt_GetSize
      (s.display_.Reset CHIP8_HIRES_DISPLAY_WIDTH CHIP8_HIRES_DISPLAY_HEIGHT) x y rfl
      (Or.inr rfl)
    have hs : (s.display_.Reset CHIP8_HIRES_DISPLAY_WIDTH
        CHIP8_HIRES_DISPLAY_HEIGHT).GetSize = 4096 := by
      simp only [Chip8Display.Reset, Chip8Display.Clear, Chip8Display.GetSize,
        CHIP8_HIRES_DISPLAY_WIDTH, CHIP8_HIRES_DISPLAY_HEIGHT]
    rw [hs] at hlt
    exact hpix _ (Nat.lt_of_lt_of_le hlt (by decide))
  · intro hq
    simp only [ExecuteOpcode, h1, ExecuteOpJPAddr, h2]
    rw [if_neg hq]

theorem JPAddr_spec_witness :
    ((0x260 : Nat) < 4096 ∧ etiCPU.isETI660_ = true ∧ sampleCPU.isETI660_ = false) ∧
    ((ExecuteOpcode sampleCPU sampleEnv 0x1260).2.reg_.PC = CHIP8_PROGRAM_HIRES_START ∧
     (ExecuteOpcode sampleCPU sampleEnv 0x1260).2.isInHiresMode_ = true ∧
     (ExecuteOpcode sampleCPU sampleEnv 0x1260).2.display_.h_ = 64) ∧
    ExecuteOpcode etiCPU sampleEnv 0x1260 = (true, etiCPU.setPC 0x260) := by
  have h := (JPAddr_spec sampleCPU sampleEnv 0x260 (by decide)).1 ⟨by decide, rfl⟩
  have h2 := (JPAddr_spec etiCPU sampleEnv 0x260 (by decide)).2 (by decide)
  exact ⟨⟨by decide, by decide, by decide⟩, ⟨h.2.1, h.2.2.1, h.2.2.2.2.1⟩, h2⟩

/-- C15 (counterexample): on the ETI 660 machine `etiCPU`, whose `PC` is at
its configured program start `0x600`, the jump `1260` sets `PC = 0x260`, not
`0x2C0`, and leaves the high-resolution flag clear and the frame buffer at
64x32. -/
theorem JPAddr_eti_start_plain :
    etiCPU.isETI660_ = true ∧
    etiCPU.reg_.PC = CHIP8_PROGRAM_ETI660_START ∧
    (ExecuteOpcode etiCPU sampleEnv 0x1260).1 = true ∧
    (ExecuteOpcode etiCPU sampleEnv 0x1260).2.reg_.PC = 0x260 ∧
    (ExecuteOpcode etiCPU sampleEnv 0x1260).2.reg_.PC ≠ CHIP8_PROGRAM_HIRES_START ∧
    (ExecuteOpcode etiCPU sampleEnv 0x1260).2.isInHiresMode_ = false ∧
    (ExecuteOpcode etiCPU sampleEnv 0x1260).2.display_.h_ = 32 := by
  decide

/-! ### Decode faults and ignored system calls -/

theorem group_8_fault (s : Chip8CPU) (env : Chip8Env) (op : Nat)
    (hg : op / 4096 % 16 = 8) (hN : op % 16 ∉ [0, 1, 2, 3, 4, 5, 6, 7, 14]) :
    ExecuteOpcode s env op = (false, s) := by
  have h1 : op &&& 0xF000 = 0x8000 := by rw [land_F000]; omega
  have h2 := land_000F op
  simp only [List.mem_cons, List.mem_singleton, List.not_mem_nil, or_false, not_or] at hN
  simp only [ExecuteOpcode, h1, h2]
  split <;> first | rfl | omega

theorem group_E_fault (s : Chip8CPU) (env : Chip8Env) (op : Nat)
    (hg : op / 4096 % 16 = 0xE) (hKK : op % 256 ∉ [0x9E, 0xA1]) :
    ExecuteOpcode s env op = (false, s) := by
  have h1 : op &&& 0xF000 = 0xE000 := by rw [land_F000]; omega
  have h2 := land_00FF op
  simp only [List.mem_cons, List.mem_singleton, List.not_mem_nil, or_false, not_or] at hKK
  simp only [ExecuteOpcode, h1, h2]
  split <;> first | rfl | omega

theorem group_F_fault (s : Chip8CPU) (env : Chip8Env) (op : Nat)
    (hg : op / 4096 % 16 = 0xF)
    (hKK : op % 256 ∉ [0x07, 0x0A, 0x15, 0x18, 0x1E, 0x29, 0x33, 0x55, 0x65]) :
    ExecuteOpcode s env op = (false, s) := by
  have h1 : op &&& 0xF000 = 0xF000 := by rw [land_F000]; omega
  have h2 := land_00FF op
  simp only [List.mem_cons, List.mem_singleton, List.not_mem_nil, or_false, not_or] at hKK
  simp only [ExecuteOpcode, h1, h2]
  split <;> first | rfl | omega

theorem group_0_decode (s : Chip8CPU) (env : Chip8Env) (op : Nat)
    (hg : op / 4096 % 16 = 0) :
    (op % 256 = 0xE0 → ExecuteOpcode s env op = ExecuteOpCLS s) ∧
    (op % 256 = 0xEE → ExecuteOpcode s env op = ExecuteOpRET s) ∧
    (op % 256 ∉ [0xE0, 0xEE] → ExecuteOpcode s env op = (true, SetPCNext s)) := by
  have h1 : op &&& 0xF000 = 0 := by rw [land_F000]; omega
  have h2 := land_00FF op
  refine ⟨?_, ?_, ?_⟩
  · intro h
    simp only [ExecuteOpcode, h1, h2, h]
  · intro h
    simp only [ExecuteOpcode, h1, h2, h]
  · intro h
    simp only [List.mem_cons, List.mem_singleton, List.not_mem_nil, or_false, not_or] at h
    simp only [ExecuteOpcode, h1, h2]
    split <;> first | rfl | omega

/-- C20 (amended): an opcode `8xyN` with `N` outside `0..7` and `E`, an
opcode `ExKK` with `KK` outside `9E`, `A1`, and an opcode `FxKK` with `KK`
outside `07 0A 15 18 1E 29 33 55 65` fail and return the machine unchanged.
Group `0` is decoded by the low byte alone: an opcode `0NNN` whose low byte
is neither `E0` nor `EE` succeeds and changes nothing except `PC`, which
advances by 2 (in 16 bits), while every `0NE0` runs clear-screen and every
`0NEE` runs return. -/
theorem decode_fault_or_ignore (s : Chip8CPU) (env : Chip8Env) (op : Nat) :
    (op / 4096 % 16 = 8 → op % 16 ∉ [0, 1, 2, 3, 4, 5, 6, 7, 14] →
      ExecuteOpcode s env op = (false, s)) ∧
    (op / 4096 % 16 = 0xE → op % 256 ∉ [0x9E, 0xA1] →
      ExecuteOpcode s env op = (false, s)) ∧
    (op / 4096 % 16 = 0xF →
      op % 256 ∉ [0x07, 0x0A, 0x15, 0x18, 0x1E, 0x29, 0x33, 0x55, 0x65] →
      ExecuteOpcode s env op = (false, s)) ∧
    (op / 4096 % 16 = 0 → op % 256 ∉ [0xE0, 0xEE] →
      ExecuteOpcode s env op = (true, SetPCNext s)) ∧
    (op / 4096 % 16 = 0 → op % 256 = 0xE0 → ExecuteOpcode s env op = ExecuteOpCLS s) ∧
    (op / 4096 % 16 = 0 → op % 256 = 0xEE → ExecuteOpcode s env op = ExecuteOpRET s) :=
  ⟨group_8_fault s env op, group_E_fault s env op, group_F_fault s env op,
   fun hg h => (group_0_decode s env op hg).2.2 h,
   fun hg h => (group_0_decode s env op hg).1 h,
   fun hg h => (group_0_decode s env op hg).2.1 h⟩

theorem decode_fault_or_ignore_witness :
    ExecuteOpcode litCPU sampleEnv 0x8AB9 = (false, litCPU) ∧
    ExecuteOpcode litCPU sampleEnv 0xE19F = (false, litCPU) ∧
    ExecuteOpcode litCPU sampleEnv 0xF1FF = (false, litCPU) ∧
    ExecuteOpcode litCPU sampleEnv 0x0123 = (true, SetPCNext litCPU) := by
  refine ⟨(decode_fault_or_ignore litCPU sampleEnv 0x8AB9).1 (by decide) (by decide),
    (decode_fault_or_ignore litCPU sampleEnv 0xE19F).2.1 (by decide) (by decide),
    (decode_fault_or_ignore litCPU sampleEnv 0xF1FF).2.2.1 (by decide) (by decide),
    (decode_fault_or_ignore litCPU sampleEnv 0x0123).2.2.2.1 (by decide) (by decide)⟩

/-- C20 (counterexample): `01E0` and `01EE` are opcodes `0NNN` other than
`00E0` and `00EE`, yet `01E0` clears the lit cell of `litCPU`, and `01EE`
pops the stack of `usedCPU` (`SP` goes from 1 to 0 and `PC` from `0x300` to
`0x204`): neither changes only `PC` by 2. -/
theorem group_0_low_byte_decides :
    litCPU.display_.pix_ 0 = 1 ∧
    (ExecuteOpcode litCPU sampleEnv 0x01E0).2.display_.pix_ 0 = 0 ∧
    usedCPU.reg_.SP = 1 ∧ usedCPU.reg_.PC = 0x300 ∧
    (ExecuteOpcode usedCPU sampleEnv 0x01EE).2.reg_.SP = 0 ∧
    (ExecuteOpcode usedCPU sampleEnv 0x01EE).2.reg_.PC = 0x204 ∧
    (ExecuteOpcode usedCPU sampleEnv 0x01EE).2.reg_.PC ≠ (usedCPU.reg_.PC + 2) % 65536 := by
  decide

/-! ### Program load -/

theorem loadLoop_spec (file : List Nat) : ∀ (i : Nat) (m : Chip8Memory),
    i + file.length < 65536 →
    (loadLoop file i m).2.memSize_ = m.memSize_ ∧
    ((loadLoop file i m).1 = true ↔ i + file.length + 1 ≤ m.memSize_) ∧
    (∀ a, a < i → (loadLoop file i m).2.mem_ a = m.mem_ a) ∧
    ((loadLoop file i m).1 = true →
      (∀ k, k < file.length → (loadLoop file i m).2.mem_ (i + k) = file.getD k 0 % 256) ∧
      (loadLoop file i m).2.mem_ (i + file.length) = 255) := by
  induction file with
  | nil =>
    intro i m _
    by_cases hw : i ≥ m.memSize_
    · simp [loadLoop, Chip8Memory.WriteValue, hw]
      omega
    · have hlt : i + 1 ≤ m.memSize_ := by omega
      simp only [loadLoop, Chip8Memory.WriteValue, hw, if_false, List.length_nil,
        Nat.add_zero]
      refine ⟨trivial, ⟨fun _ => hlt, fun _ => trivial⟩, ?_, ?_⟩
      · intro a ha
        have : a ≠ i := by omega
        simp [setAt, this]
      · intro _
        exact ⟨fun k hk => absurd hk (by omega), by simp [setAt]⟩
  | cons b bs ih =>
    intro i m hlen
    simp only [List.length_cons] at hlen
    by_cases hw : i ≥ m.memSize_
    · simp [loadLoop, Chip8Memory.WriteValue, hw]
      omega
    · have hmod : (i + 1) % 65536 = i + 1 := Nat.mod_eq_of_lt (by omega)
      obtain ⟨i1, i2, i3, i4⟩ := ih (i + 1) (m.WriteValue i (b % 256)).2 (by omega)
      simp only [Chip8Memory.WriteValue, hw, if_false] at i1 i2 i3 i4
      simp only [loadLoop, Chip8Memory.WriteValue, hw, if_false, if_true, hmod,
        List.length_cons]
      refine ⟨i1, ?_, ?_, ?_⟩
      · rw [i2]; omega
      · intro a ha
        rw [i3 a (by omega)]
        have : a ≠ i := by omega
        simp [setAt, this]
      · intro hok
        obtain ⟨j1, j2⟩ := i4 hok
        refine ⟨?_, ?_⟩
        · intro k hk
          cases k with
          | zero =>
            simp only [Nat.add_zero, List.getD_cons_zero]
            rw [i3 i (by omega)]
            simp [setAt]
          | succ k =>
            have := j1 k (by omega)
            rw [show i + (k + 1) = i + 1 + k by omega, this]
            simp
        · rw [show i + (bs.length + 1) = i + 1 + bs.length by omega]
          exact j2

/-- When `LoadProgram` succeeds: exactly when the program and one more byte
fit, i.e. `start + n + 1 <= capacity`; the program bytes are then in memory
from `start` on, followed by the byte 255 stored for the end-of-file read. -/
theorem LoadProgram_spec (tpu : Nat) (fresh : Chip8CPU) (env : Chip8Env) (file : List Nat)
    (eti : Bool) (hlen : file.length < 4096) :
    ((LoadProgram tpu fresh env file eti).isSome = true ↔
      (if eti then CHIP8_PROGRAM_ETI660_START else CHIP8_PROGRAM_START) + file.length + 1
        ≤ (if eti then CHIP8_MEMORY_ETI660_SIZE else CHIP8_MEMORY_SIZE)) ∧
    (∀ cpu, LoadProgram tpu fresh env file eti = some cpu →
      (∀ k, k < file.length →
        cpu.ram_.mem_ ((if eti then CHIP8_PROGRAM_ETI660_START else CHIP8_PROGRAM_START) + k)
          = file.getD k 0 % 256) ∧
      cpu.ram_.mem_
        ((if eti then CHIP8_PROGRAM_ETI660_START else CHIP8_PROGRAM_START) + file.length)
          = 255) := by
  have hstart : (if eti then CHIP8_PROGRAM_ETI660_START else CHIP8_PROGRAM_START) + file.length
      < 65536 := by
    cases eti <;> simp [CHIP8_PROGRAM_ETI660_START, CHIP8_PROGRAM_START] <;> omega
  have hstart80 : 80 ≤ (if eti then CHIP8_PROGRAM_ETI660_START else CHIP8_PROGRAM_START) := by
    cases eti <;> simp [CHIP8_PROGRAM_ETI660_START, CHIP8_PROGRAM_START]
  have hsize : (if eti then CHIP8_MEMORY_ETI660_SIZE else CHIP8_MEMORY_SIZE) % 65536
      = (if eti then CHIP8_MEMORY_ETI660_SIZE else CHIP8_MEMORY_SIZE) := by
    cases eti <;> simp [CHIP8_MEMORY_ETI660_SIZE, CHIP8_MEMORY_SIZE]
  have hsize80 : 80 ≤ (if eti then CHIP8_MEMORY_ETI660_SIZE else CHIP8_MEMORY_SIZE) := by
    cases eti <;> simp [CHIP8_MEMORY_ETI660_SIZE, CHIP8_MEMORY_SIZE]
  obtain ⟨l1, l2, -, l4⟩ := loadLoop_spec file
    (if eti then CHIP8_PROGRAM_ETI660_START else CHIP8_PROGRAM_START)
    (Chip8Memory.Reset
      { memSize_ := (if eti then CHIP8_MEMORY_ETI660_SIZE else CHIP8_MEMORY_SIZE) % 65536,
        mem_ := fresh.ram_.mem_ }) hstart
  simp only [Chip8Memory.Reset, hsize] at l1 l2 l4
  unfold LoadProgram
  simp only [Chip8Memory.Reset, hsize]
  by_cases hfit : (if eti then CHIP8_PROGRAM_ETI660_START else CHIP8_PROGRAM_START)
      + file.length + 1 ≤ (if eti then CHIP8_MEMORY_ETI660_SIZE else CHIP8_MEMORY_SIZE)
  · have hok := l2.mpr hfit
    rw [if_pos hok]
    refine ⟨⟨fun _ => hfit, fun _ => ?_⟩, ?_⟩
    · exact Option.isSome_iff_exists.mpr
        (Reset_total _ _ _ (by simp only; rw [l1]; exact hsize80))
    · intro cpu hcpu
      obtain ⟨-, hram, -⟩ := Reset_eq_some _ _ _ _ hcpu
      simp only at hram
      obtain ⟨j1, j2⟩ := l4 hok
      rw [hram]
      refine ⟨?_, ?_⟩
      · intro k hk
        rw [(writeSprites_frame 80 0 _ (by omega)).2 _ (Or.inr (by omega))]
        exact j1 k hk
      · rw [(writeSprites_frame 80 0 _ (by omega)).2 _ (Or.inr (by omega))]
        exact j2
  · have hok : ¬ ((loadLoop file
        (if eti then CHIP8_PROGRAM_ETI660_START else CHIP8_PROGRAM_START)
        { memSize_ := (if eti then CHIP8_MEMORY_ETI660_SIZE else CHIP8_MEMORY_SIZE),
          mem_ := fun i =>
            if i < (if eti then CHIP8_MEMORY_ETI660_SIZE else CHIP8_MEMORY_SIZE) then 0
            else fresh.ram_.mem_ i }).1 = true) := mt l2.mp hfit
    rw [if_neg hok]
    refine ⟨⟨fun h => absurd h (by simp), fun h => absurd h hfit⟩, ?_⟩
    intro cpu hcpu
    exact absurd hcpu (by simp)

/-- C16: a program that fits exactly is refused. A 512-byte program for the
ETI 660 variant (start `0x600`, capacity 2048) and a 3584-byte program for
the standard variant (start `0x200`, capacity 4096) both satisfy
`start + n <= capacity`, and `LoadProgram` returns failure for both: the
loop makes one more write, of the end-of-file value, at `start + n`. -/
theorem LoadProgram_exact_fit_fails :
    CHIP8_PROGRAM_ETI660_START + (List.replicate 512 0).length ≤ CHIP8_MEMORY_ETI660_SIZE ∧
    (LoadProgram 1000 sampleCPU sampleEnv (List.replicate 512 0) true).isSome = false ∧
    CHIP8_PROGRAM_START + (List.replicate 3584 0).length ≤ CHIP8_MEMORY_SIZE ∧
    (LoadProgram 1000 sampleCPU sampleEnv (List.replicate 3584 0) false).isSome = false := by
  have h1 := (LoadProgram_spec 1000 sampleCPU sampleEnv (List.replicate 512 0) true
    (by rw [List.length_replicate]; omega)).1
  have h2 := (LoadProgram_spec 1000 sampleCPU sampleEnv (List.replicate 3584 0) false
    (by rw [List.length_replicate]; omega)).1
  simp only [List.length_replicate, CHIP8_PROGRAM_ETI660_START, CHIP8_MEMORY_ETI660_SIZE,
    CHIP8_PROGRAM_START, CHIP8_MEMORY_SIZE, if_true, Bool.false_eq_true, if_false] at h1 h2 ⊢
  refine ⟨by omega, ?_, by omega, ?_⟩
  · cases hs : (LoadProgram 1000 sampleCPU sampleEnv (List.replicate 512 0) true).isSome with
    | false => rfl
    | true => exact absurd (h1.mp hs) (by omega)
  · cases hs : (LoadProgram 1000 sampleCPU sampleEnv (List.replicate 3584 0) false).isSome with
    | false => rfl
    | true => exact absurd (h2.mp hs) (by omega)

/-- A program one byte shorter than the exact fit loads, and the byte after
it is the stored end-of-file value 255. -/
theorem LoadProgram_spec_witness :
    ((List.replicate 511 7).length < 4096) ∧
    (LoadProgram 1000 sampleCPU sampleEnv (List.replicate 511 7) true).isSome = true ∧
    (∀ cpu, LoadProgram 1000 sampleCPU sampleEnv (List.replicate 511 7) true = some cpu →
      cpu.ram_.mem_ (0x600 + 510) = 7 ∧ cpu.ram_.mem_ (0x600 + 511) = 255) := by
  have hl : (List.replicate 511 7).length < 4096 := by rw [List.length_replicate]; omega
  have h := LoadProgram_spec 1000 sampleCPU sampleEnv (List.replicate 511 7) true hl
  simp only [List.length_replicate, CHIP8_PROGRAM_ETI660_START, CHIP8_MEMORY_ETI660_SIZE,
    if_true] at h
  refine ⟨hl, h.1.mpr (by omega), ?_⟩
  intro cpu hcpu
  obtain ⟨k1, k2⟩ := h.2 cpu hcpu
  have k3 := k1 510 (by omega)
  refine ⟨?_, k2⟩
  rw [k3, List.getD_eq_getElem?_getD, List.getElem?_replicate]
  rfl

/-! ### Shift left `8xyE` and reverse subtract `8xy7` -/

/-- C27: shift left `8xyE` with an operand register other than the flags
register: `VF` is the most-significant bit of the old `Vx` (the quotient by
128), `Vx` is doubled modulo 256, and the program counter advances by 2 (in
16 bits). -/
theorem SHL_spec (s : Chip8CPU) (env : Chip8Env) (x y : Nat)
    (hx : x < 15) (hy : y < 16) (ha : s.reg_.V x < 256) :
    (ExecuteOpcode s env (0x8000 + 0x100 * x + 0x10 * y + 0xE)).1 = true ∧
    (ExecuteOpcode s env (0x8000 + 0x100 * x + 0x10 * y + 0xE)).2.reg_.V 0xF
      = s.reg_.V x / 128 ∧
    (ExecuteOpcode s env (0x8000 + 0x100 * x + 0x10 * y + 0xE)).2.reg_.V x
      = (2 * s.reg_.V x) % 256 ∧
    (ExecuteOpcode s env (0x8000 + 0x100 * x + 0x10 * y + 0xE)).2.reg_.PC
      = (s.reg_.PC + 2) % 65536 := by
  obtain ⟨h1, h2, h3, h4⟩ := decode_8 x y 0xE (by omega) (by omega) (by omega)
  have hxF : ¬ (15 = x) := by omega
  have hxF2 : ¬ (x = 15) := by omega
  have hb : (s.reg_.V x &&& 128) >>> 7 = s.reg_.V x / 128 := by
    rw [and_shiftRight_distrib, Nat.shiftRight_eq_div_pow]
    have e : (128 >>> 7 : Nat) = 1 := by decide
    rw [e, Nat.and_one_is_mod]
    norm_num
    omega
  simp only [ExecuteOpcode, h1, h2, ExecuteOpSHL, h3, h4, hb]
  clear h1 h2 h3 h4
  simp [setV, setAt, SetPCNext, setPC, hxF, hxF2]
  omega

/-- With `V0 = 0x81` the shift leaves `VF = 1` and `V0 = 2`. -/
theorem SHL_spec_witness :
    (sampleCPU.setV 0 0x81).reg_.V 0 < 256 ∧
    (ExecuteOpcode (sampleCPU.setV 0 0x81) sampleEnv 0x800E).2.reg_.V 0xF = 1 ∧
    (ExecuteOpcode (sampleCPU.setV 0 0x81) sampleEnv 0x800E).2.reg_.V 0 = 2 := by
  have h := SHL_spec (sampleCPU.setV 0 0x81) sampleEnv 0 0 (by decide) (by decide) (by decide)
  exact ⟨by decide, h.2.1, h.2.2.1⟩

/-- Reverse subtract `8xy7` when neither register is the flags register:
`VF` is 1 exactly when `Vy > Vx`, `Vx` becomes `(Vy - Vx) mod 256`, and the
program counter advances by 2. -/
theorem SUBN_other_source (s : Chip8CPU) (env : Chip8Env) (x y : Nat)
    (hx : x < 15) (hy : y < 15) (ha : s.reg_.V x < 256) (hb : s.reg_.V y < 256) :
    (ExecuteOpcode s env (0x8000 + 0x100 * x + 0x10 * y + 7)).1 = true ∧
    (ExecuteOpcode s env (0x8000 + 0x100 * x + 0x10 * y + 7)).2.reg_.V 0xF
      = (if s.reg_.V y > s.reg_.V x then 1 else 0) ∧
    ((ExecuteOpcode s env (0x8000 + 0x100 * x + 0x10 * y + 7)).2.reg_.V x : Int)
      = ((s.reg_.V y : Int) - (s.reg_.V x : Int)) % 256 ∧
    (ExecuteOpcode s env (0x8000 + 0x100 * x + 0x10 * y + 7)).2.reg_.PC
      = (s.reg_.PC + 2) % 65536 := by
  obtain ⟨h1, h2, h3, h4⟩ := decode_8 x y 7 (by omega) (by omega) (by omega)
  have hxF : ¬ (15 = x) := by omega
  have hyF : ¬ (y = 15) := by omega
  have hxF2 : ¬ (x = 15) := by omega
  simp only [ExecuteOpcode, h1, h2, ExecuteOpSUBN, h3, h4]
  clear h1 h2 h3 h4
  split <;> simp [setV, setAt, SetPCNext, setPC, hxF, hyF, hxF2] <;> omega

/-- With `V0 = 5` and `V1 = 3` the reverse subtraction borrows: `VF = 0`
and `V0 = 254`. -/
theorem SUBN_other_source_witness :
    (ExecuteOpcode ((sampleCPU.setV 0 5).setV 1 3) sampleEnv 0x8017).2.reg_.V 0xF = 0 ∧
    ((ExecuteOpcode ((sampleCPU.setV 0 5).setV 1 3) sampleEnv 0x8017).2.reg_.V 0 : Int)
      = ((3 : Int) - 5) % 256 := by
  have h := SUBN_other_source ((sampleCPU.setV 0 5).setV 1 3) sampleEnv 0 1
    (by decide) (by decide) (by decide) (by decide)
  exact ⟨h.2.1, h.2.2.1⟩

/-- C26 (failing input): reverse subtract `80F7` (`x = 0`, `y = 0xF`) with
`V0 = 5` and `VF = 10` succeeds and leaves `VF = 1`, but `V0 = 252`, which
is `(1 - 5) mod 256`, the difference taken from the flag just stored, and
not `(10 - 5) mod 256 = 5`. -/
theorem SUBN_flag_source :
    (ExecuteOpcode ((sampleCPU.setV 0 5).setV 0xF 10) sampleEnv 0x80F7).1 = true ∧
    (ExecuteOpcode ((sampleCPU.setV 0 5).setV 0xF 10) sampleEnv 0x80F7).2.reg_.V 0xF = 1 ∧
    (ExecuteOpcode ((sampleCPU.setV 0 5).setV 0xF 10) sampleEnv 0x80F7).2.reg_.V 0 = 252 ∧
    (ExecuteOpcode ((sampleCPU.setV 0 5).setV 0xF 10) sampleEnv 0x80F7).2.reg_.V 0
      ≠ (10 - 5) % 256 := by
  decide

/-! ### Conditional skips -/

theorem decode_xy (g x y n : Nat) (hg : g < 16) (hx : x < 16) (hy : y < 16) (hn : n < 16) :
    (0x1000 * g + 0x100 * x + 0x10 * y + n) &&& 0xF000 = 0x1000 * g ∧
    GetXArg (0x1000 * g + 0x100 * x + 0x10 * y + n) = x ∧
    GetYArg (0x1000 * g + 0x100 * x + 0x10 * y + n) = y := by
  rw [land_F000, GetXArg_eq, GetYArg_eq]
  omega

/-- C28: the conditional skips `3xkk` (skip when `Vx = kk`), `4xkk`
(`Vx != kk`), `5xy0` (`Vx = Vy`) and `9xy0` (`Vx != Vy`) always succeed and
change nothing but the program counter, which advances by 4 when the
condition holds and by 2 otherwise (in 16 bits). -/
theorem skip_spec (s : Chip8CPU) (env : Chip8Env) (x y kk : Nat)
    (hx : x < 16) (hy : y < 16) (hkk : kk < 256) :
    ExecuteOpcode s env (0x3000 + 0x100 * x + kk)
      = (true, s.setPC ((s.reg_.PC + (if s.reg_.V x = kk then 4 else 2)) % 65536)) ∧
    ExecuteOpcode s env (0x4000 + 0x100 * x + kk)
      = (true, s.setPC ((s.reg_.PC + (if s.reg_.V x ≠ kk then 4 else 2)) % 65536)) ∧
    ExecuteOpcode s env (0x5000 + 0x100 * x + 0x10 * y)
      = (true, s.setPC ((s.reg_.PC + (if s.reg_.V x = s.reg_.V y then 4 else 2)) % 65536)) ∧
    ExecuteOpcode s env (0x9000 + 0x100 * x + 0x10 * y)
      = (true, s.setPC ((s.reg_.PC + (if s.reg_.V x ≠ s.reg_.V y then 4 else 2)) % 65536)) := by
  obtain ⟨a1, a2, a3⟩ := decode_x_kk 3 x kk (by omega) hx hkk
  obtain ⟨b1, b2, b3⟩ := decode_x_kk 4 x kk (by omega) hx hkk
  obtain ⟨c1, c2, c3⟩ := decode_xy 5 x y 0 (by omega) hx hy (by omega)
  obtain ⟨d1, d2, d3⟩ := decode_xy 9 x y 0 (by omega) hx hy (by omega)
  simp only [Nat.reduceMul, Nat.add_zero] at a1 a2 a3 b1 b2 b3 c1 c2 c3 d1 d2 d3
  refine ⟨?_, ?_, ?_, ?_⟩
  · simp only [ExecuteOpcode, a1, ExecuteOpSEVxByte, a2, a3]
    split <;> rfl
  · simp only [ExecuteOpcode, b1, ExecuteOpSNEVxByte, b2, b3]
    split <;> rfl
  · simp only [ExecuteOpcode, c1, ExecuteOpSEVxVy, c2, c3]
    split <;> rfl
  · simp only [ExecuteOpcode, d1, ExecuteOpSNEVxVy, d2, d3]
    split <;> rfl

/-- With `V0 = 7`: `3007` and `9010` skip, `4007` and `5010` do not. -/
theorem skip_spec_witness :
    ExecuteOpcode (sampleCPU.setV 0 7) sampleEnv 0x3007
      = (true, (sampleCPU.setV 0 7).setPC 0x204) ∧
    ExecuteOpcode (sampleCPU.setV 0 7) sampleEnv 0x4007
      = (true, (sampleCPU.setV 0 7).setPC 0x202) ∧
    ExecuteOpcode (sampleCPU.setV 0 7) sampleEnv 0x5010
      = (true, (sampleCPU.setV 0 7).setPC 0x202) ∧
    ExecuteOpcode (sampleCPU.setV 0 7) sampleEnv 0x9010
      = (true, (sampleCPU.setV 0 7).setPC 0x204) := by
  have h := skip_spec (sampleCPU.setV 0 7) sampleEnv 0 1 7 (by decide) (by decide) (by decide)
  exact ⟨h.1, h.2.1, h.2.2.1, h.2.2.2⟩

/-! ### Timer update -/

/-- C22: timer update. If the accumulator is at most 0 when the update is
invoked, `DT` and `ST` each go down by one unless they are 0 (a zero counter
stays 0) and the accumulator becomes one period (16667 microseconds, in
clock ticks) minus the elapsed time; if the accumulator is positive, `DT`
and `ST` are unchanged and the accumulator is reduced by the elapsed time.
In both cases `PC`, `SP`, the `V` registers, the stack and `I` are
unchanged. -/
theorem UpdateTimers_spec (tpu : Nat) (s : Chip8CPU) (env : Chip8Env)
    (hDT : s.reg_.DT < 256) (hST : s.reg_.ST < 256) :
    (s.nextTimerDecrementCounter_ ≤ 0 →
      (UpdateTimers tpu s env).reg_.DT = s.reg_.DT - 1 ∧
      (UpdateTimers tpu s env).reg_.ST = s.reg_.ST - 1 ∧
      (UpdateTimers tpu s env).nextTimerDecrementCounter_
        = (CHIP8_CPU_TIMER_DECREMENT_DELAY_MICROSECONDS : Int) * (tpu : Int)
          - (env.now - s.lastStepTime_)) ∧
    (0 < s.nextTimerDecrementCounter_ →
      (UpdateTimers tpu s env).reg_.DT = s.reg_.DT ∧
      (UpdateTimers tpu s env).reg_.ST = s.reg_.ST ∧
      (UpdateTimers tpu s env).nextTimerDecrementCounter_
        = s.nextTimerDecrementCounter_ - (env.now - s.lastStepTime_)) ∧
    (UpdateTimers tpu s env).reg_.PC = s.reg_.PC ∧
    (UpdateTimers tpu s env).reg_.SP = s.reg_.SP ∧
    (UpdateTimers tpu s env).reg_.V = s.reg_.V ∧
    (UpdateTimers tpu s env).reg_.stack = s.reg_.stack ∧
    (UpdateTimers tpu s env).reg_.I = s.reg_.I := by
  obtain ⟨f1, f2, f3, f4, f5, -⟩ := UpdateTimers_frame tpu s env
  refine ⟨?_, ?_, f1, f2, f4, f3, f5⟩
  · intro hle
    have hfin : ∀ t : Chip8CPU, (SetBeeping t (decide (t.reg_.ST > 0))).reg_ = t.reg_ := by
      intro t; unfold SetBeeping; split <;> rfl
    have hfin2 : ∀ (t : Chip8CPU) (b : Bool), (SetBeeping t b).lastStepTime_ = t.lastStepTime_ := by
      intro t b; unfold SetBeeping; split <;> rfl
    simp only [UpdateTimers, hle, if_true, ResetTimerDecrement, hfin, hfin2]
    by_cases hd : s.reg_.DT > 0 <;> by_cases hs : s.reg_.ST > 0 <;>
      simp [hd, hs] <;> omega
  · intro hpos
    have hn : ¬ (s.nextTimerDecrementCounter_ ≤ 0) := by omega
    simp [UpdateTimers, hn]

/-- With a positive accumulator `DT = 5` stays; with the accumulator at 0 it
becomes 4 and `ST = 0` stays 0; the elapsed time is 500 ticks. -/
theorem UpdateTimers_spec_witness :
    (timerCPU.reg_.DT < 256 ∧ timerCPU.reg_.ST < 256 ∧
      0 < timerCPU.nextTimerDecrementCounter_ ∧ usedCPU.nextTimerDecrementCounter_ ≤ 0) ∧
    ((UpdateTimers 1000 timerCPU (envAt 500)).reg_.DT = timerCPU.reg_.DT ∧
     (UpdateTimers 1000 timerCPU (envAt 500)).reg_.ST = timerCPU.reg_.ST ∧
     (UpdateTimers 1000 timerCPU (envAt 500)).nextTimerDecrementCounter_
       = timerCPU.nextTimerDecrementCounter_ - ((envAt 500).now - timerCPU.lastStepTime_)) ∧
    ((UpdateTimers 1000 usedCPU (envAt 500)).reg_.DT = usedCPU.reg_.DT - 1 ∧
     (UpdateTimers 1000 usedCPU (envAt 500)).reg_.ST = usedCPU.reg_.ST - 1 ∧
     (UpdateTimers 1000 usedCPU (envAt 500)).nextTimerDecrementCounter_
       = (CHIP8_CPU_TIMER_DECREMENT_DELAY_MICROSECONDS : Int) * ((1000 : Nat) : Int)
         - ((envAt 500).now - usedCPU.lastStepTime_)) :=
  ⟨⟨by decide, by decide, by decide, by decide⟩,
   (UpdateTimers_spec 1000 timerCPU (envAt 500) (by decide) (by decide)).2.1 (by decide),
   (UpdateTimers_spec 1000 usedCPU (envAt 500) (by decide) (by decide)).1 (by decide)⟩

/-! ### Wait for key `Fx0A` -/

theorem getCurrentPressedKey_lt (env : Chip8Env) (k : Nat)
    (h : Chip8Keyboard.getCurrentPressedKey env = some k) : k < 16 := by
  unfold Chip8Keyboard.getCurrentPressedKey at h
  have := List.mem_of_find?_eq_some h
  simpa using this

/-- C23: a step that fetches the wait-for-key instruction `Fx0A`. If no
key is pressed, the step succeeds, the machine waits for input, every
register (`PC`, `SP`, `V`, stack, `I`, `DT`, `ST`), the timer accumulator,
the time of the last step, the memory and the display are unchanged, and
the same instruction is fetched again. If the key `k` is reported, the step
succeeds, `Vx = k`, the machine no longer waits and `PC` advances by 2. -/
theorem Step_wait_key (tpu : Nat) (s : Chip8CPU) (env : Chip8Env) (x : Nat) (hx : x < 16)
    (hf : FetchOpcode s = some (0xF000 + 0x100 * x + 0x0A)) :
    (Chip8Keyboard.getCurrentPressedKey env = none →
      (Step tpu s env).1 = true ∧
      (Step tpu s env).2.isWaitingForInput_ = true ∧
      (Step tpu s env).2.reg_ = s.reg_ ∧
      (Step tpu s env).2.nextTimerDecrementCounter_ = s.nextTimerDecrementCounter_ ∧
      (Step tpu s env).2.lastStepTime_ = s.lastStepTime_ ∧
      (Step tpu s env).2.ram_ = s.ram_ ∧
      (Step tpu s env).2.display_ = s.display_ ∧
      FetchOpcode (Step tpu s env).2 = some (0xF000 + 0x100 * x + 0x0A)) ∧
    (∀ k, Chip8Keyboard.getCurrentPressedKey env = some k →
      (Step tpu s env).1 = true ∧
      (Step tpu s env).2.reg_.V x = k ∧
      (Step tpu s env).2.isWaitingForInput_ = false ∧
      (Step tpu s env).2.reg_.PC = (s.reg_.PC + 2) % 65536) := by
  obtain ⟨h1, h2, h3⟩ := decode_F x 0x0A hx (by omega)
  constructor
  · intro hk
    have e : ExecuteOpcode { s with lastOp_ := 0xF000 + 0x100 * x + 0x0A } env
        (0xF000 + 0x100 * x + 0x0A)
        = (true, { s with lastOp_ := 0xF000 + 0x100 * x + 0x0A, isWaitingForInput_ := true }) := by
      simp only [ExecuteOpcode, h1, h2, ExecuteOpLDVxKey, hk]
    have hs : Step tpu s env
        = (true, { s with lastOp_ := 0xF000 + 0x100 * x + 0x0A, isWaitingForInput_ := true }) := by
      rw [Step_of_fetch tpu s env _ hf, e]
      simp
    rw [hs]
    refine ⟨rfl, rfl, rfl, rfl, rfl, rfl, rfl, ?_⟩
    simpa [FetchOpcode] using hf
  · intro k hk
    have hk16 := getCurrentPressedKey_lt env k hk
    have e : ExecuteOpcode { s with lastOp_ := 0xF000 + 0x100 * x + 0x0A } env
        (0xF000 + 0x100 * x + 0x0A)
        = (true, SetPCNext { ({ s with lastOp_ := 0xF000 + 0x100 * x + 0x0A } : Chip8CPU).setV
            x k with isWaitingForInput_ := false }) := by
      simp only [ExecuteOpcode, h1, h2, ExecuteOpLDVxKey, hk, h3, Nat.mod_eq_of_lt
        (show k < 256 by omega)]
    rw [Step_exec tpu s env _ _ hf e rfl]
    simp [UpdateTimers_frame, SetPCNext, setPC, setV, setAt]

/-- On `waitCPU` (`F30A`): with no key the machine waits and keeps its
registers; with key 7 down `V3 = 7` and `PC = 0x202`. -/
theorem Step_wait_key_witness :
    (FetchOpcode waitCPU = some 0xF30A ∧
      Chip8Keyboard.getCurrentPressedKey sampleEnv = none ∧
      Chip8Keyboard.getCurrentPressedKey (keyEnv 7) = some 7) ∧
    ((Step 1000 waitCPU sampleEnv).1 = true ∧
     (Step 1000 waitCPU sampleEnv).2.isWaitingForInput_ = true ∧
     (Step 1000 waitCPU sampleEnv).2.reg_ = waitCPU.reg_) ∧
    ((Step 1000 waitCPU (keyEnv 7)).1 = true ∧
     (Step 1000 waitCPU (keyEnv 7)).2.reg_.V 3 = 7 ∧
     (Step 1000 waitCPU (keyEnv 7)).2.isWaitingForInput_ = false ∧
     (Step 1000 waitCPU (keyEnv 7)).2.reg_.PC = (waitCPU.reg_.PC + 2) % 65536) := by
  have h1 := (Step_wait_key 1000 waitCPU sampleEnv 3 (by decide) (by decide)).1 (by decide)
  have h2 := (Step_wait_key 1000 waitCPU (keyEnv 7) 3 (by decide) (by decide)).2 7 (by decide)
  exact ⟨⟨by decide, by decide, by decide⟩, ⟨h1.1, h1.2.1, h1.2.2.1⟩, h2⟩

/-! ### Frame of eight steps -/

theorem stepsFrom_succ_front (tpu : Nat) (envs : Nat → Chip8Env) (s : Chip8CPU) (k : Nat) :
    stepsFrom tpu envs s (k + 1)
      = stepsFrom tpu (fun j => envs (j + 1)) (Step tpu s (envs 0)).2 k := by
  induction k with
  | zero => rfl
  | succ k ih =>
    show (Step tpu (stepsFrom tpu envs s (k + 1)) (envs (k + 1))).2 = _
    rw [ih]
    rfl

theorem runSteps_spec (tpu : Nat) (n : Nat) : ∀ (envs : Nat → Chip8Env) (i : Nat)
    (s : Chip8CPU),
    ((∀ k, k < n → (Step tpu (stepsFrom tpu (fun j => envs (i + j)) s k) (envs (i + k))).1
        = true) →
      runSteps tpu envs n i s = (true, stepsFrom tpu (fun j => envs (i + j)) s n)) ∧
    (∀ k, k < n →
      (∀ j, j < k → (Step tpu (stepsFrom tpu (fun j => envs (i + j)) s j) (envs (i + j))).1
        = true) →
      (Step tpu (stepsFrom tpu (fun j => envs (i + j)) s k) (envs (i + k))).1 = false →
      runSteps tpu envs n i s = (false, stepsFrom tpu (fun j => envs (i + j)) s (k + 1))) := by
  induction n with
  | zero =>
    intro envs i s
    exact ⟨fun _ => rfl, fun k hk => absurd hk (by omega)⟩
  | succ n ih =>
    intro envs i s
    obtain ⟨ih1, ih2⟩ := ih envs (i + 1) (Step tpu s (envs i)).2
    have hshift : (fun j => envs (i + 1 + j)) = (fun j => (fun j => envs (i + j)) (j + 1)) := by
      funext j; simp only; congr 1; omega
    have hfront : ∀ k, stepsFrom tpu (fun j => envs (i + j)) s (k + 1)
        = stepsFrom tpu (fun j => envs (i + 1 + j)) (Step tpu s (envs i)).2 k := by
      intro k
      rw [stepsFrom_succ_front, hshift]
      rfl
    constructor
    · intro hall
      have h0 := hall 0 (by omega)
      simp only [stepsFrom, Nat.add_zero] at h0
      simp only [runSteps, h0, Bool.not_true, Bool.false_eq_true, if_false]
      rw [hfront n]
      apply ih1
      intro k hk
      have := hall (k + 1) (by omega)
      rw [hfront k, show i + (k + 1) = i + 1 + k by omega] at this
      exact this
    · intro k hk hprev hfail
      cases k with
      | zero =>
        simp only [stepsFrom, Nat.add_zero] at hfail
        simp [runSteps, hfail, stepsFrom]
      | succ k =>
        have h0 := hprev 0 (by omega)
        simp only [stepsFrom, Nat.add_zero] at h0
        simp only [runSteps, h0, Bool.not_true, Bool.false_eq_true, if_false]
        rw [hfront (k + 1)]
        apply ih2 k (by omega)
        · intro j hj
          have := hprev (j + 1) (by omega)
          rw [hfront j, show i + (j + 1) = i + 1 + j by omega] at this
          exact this
        · rw [hfront k, show i + (k + 1) = i + 1 + k by omega] at hfail
          exact hfail

/-- C24: `RunFrame` is at most 8 steps in a row, stopping at the first
fault. It succeeds exactly when the 8 steps all succeed, and then its state
is the one left by the 8 steps; if step `k + 1` (`k < 8`) is the first to
fail, it fails and its state is the one left by the steps 1 to `k + 1`, no
further step being run. -/
theorem RunFrame_spec (tpu : Nat) (envs : Nat → Chip8Env) (s : Chip8CPU) :
    ((RunFrame tpu envs s).1 = true ↔
      ∀ k, k < 8 → (Step tpu (stepsFrom tpu envs s k) (envs k)).1 = true) ∧
    ((RunFrame tpu envs s).1 = true → (RunFrame tpu envs s).2 = stepsFrom tpu envs s 8) ∧
    (∀ k, k < 8 →
      (∀ j, j < k → (Step tpu (stepsFrom tpu envs s j) (envs j)).1 = true) →
      (Step tpu (stepsFrom tpu envs s k) (envs k)).1 = false →
      RunFrame tpu envs s = (false, stepsFrom tpu envs s (k + 1))) := by
  obtain ⟨h1, h2⟩ := runSteps_spec tpu 8 envs 0 s
  have e : (fun j => envs (0 + j)) = envs := by funext j; simp
  simp only [e, Nat.zero_add] at h1 h2
  have hfail : ∀ k, k < 8 →
      (∀ j, j < k → (Step tpu (stepsFrom tpu envs s j) (envs j)).1 = true) →
      (Step tpu (stepsFrom tpu envs s k) (envs k)).1 = false →
      RunFrame tpu envs s = (false, stepsFrom tpu envs s (k + 1)) := h2
  have hiff : (RunFrame tpu envs s).1 = true ↔
      ∀ k, k < 8 → (Step tpu (stepsFrom tpu envs s k) (envs k)).1 = true := by
    constructor
    · intro hrun
      by_contra hne
      push_neg at hne
      -- take the first failing step
      have hex : ∃ k, k < 8 ∧ (Step tpu (stepsFrom tpu envs s k) (envs k)).1 ≠ true := by
        obtain ⟨k, hk, hb⟩ := hne
        exact ⟨k, hk, hb⟩
      classical
      have hk0 := Nat.find_spec hex
      have hmin : ∀ j, j < Nat.find hex →
          (Step tpu (stepsFrom tpu envs s j) (envs j)).1 = true := by
        intro j hj
        by_contra hb
        exact Nat.find_min hex hj ⟨by omega, hb⟩
      have hf := hfail (Nat.find hex) hk0.1 hmin (by simpa using hk0.2)
      rw [hf] at hrun
      exact absurd hrun (by simp)
    · intro hall
      show (runSteps tpu envs CHIP8_CPU_STEPS_PER_FRAME 0 s).1 = true
      rw [show CHIP8_CPU_STEPS_PER_FRAME = 8 from rfl, h1 hall]
  refine ⟨hiff, ?_, hfail⟩
  intro hrun
  show (runSteps tpu envs CHIP8_CPU_STEPS_PER_FRAME 0 s).2 = _
  rw [show CHIP8_CPU_STEPS_PER_FRAME = 8 from rfl, h1 (hiff.mp hrun)]

/-- On `sampleCPU` (zeroed memory, eight ignored system calls) the frame
succeeds; on `faultCPU` the second step is the first to fail and the frame
stops in the state it leaves. -/
theorem RunFrame_spec_witness :
    ((RunFrame 1000 (fun _ => sampleEnv) sampleCPU).1 = true ∧
     (RunFrame 1000 (fun _ => sampleEnv) sampleCPU).2
       = stepsFrom 1000 (fun _ => sampleEnv) sampleCPU 8) ∧
    ((Step 1000 faultCPU sampleEnv).1 = true ∧
     (Step 1000 (stepsFrom 1000 (fun _ => sampleEnv) faultCPU 1) sampleEnv).1 = false ∧
     RunFrame 1000 (fun _ => sampleEnv) faultCPU
       = (false, stepsFrom 1000 (fun _ => sampleEnv) faultCPU 2)) := by
  have h := RunFrame_spec 1000 (fun _ => sampleEnv) sampleCPU
  have hok : (RunFrame 1000 (fun _ => sampleEnv) sampleCPU).1 = true := h.1.mpr (by decide)
  have g := RunFrame_spec 1000 (fun _ => sampleEnv) faultCPU
  exact ⟨⟨hok, h.2.1 hok⟩, by decide, by decide,
    g.2.2 1 (by decide) (by decide) (by decide)⟩

/-! ### Plot and pixel query -/

theorem GetPos_cell (d : Chip8Display) (cx cy : Nat) (hw8 : d.w_ < 256) (hh8 : d.h_ < 256)
    (hx : cx < d.w_) (hy : cy < d.h_) : d.GetPos cx cy = cx + cy * d.w_ := by
  unfold Chip8Display.GetPos
  have h1 : cy * d.w_ ≤ 255 * 255 := Nat.mul_le_mul (by omega) (by omega)
  rw [Nat.mod_eq_of_lt (show cx < 256 by omega), Nat.mod_eq_of_lt (show cy < 256 by omega)]
  exact Nat.mod_eq_of_lt (by omega)

theorem GetPos_inj (d : Chip8Display) (cx cy cx2 cy2 : Nat) (hw8 : d.w_ < 256)
    (hh8 : d.h_ < 256) (hx : cx < d.w_) (hy : cy < d.h_) (hx2 : cx2 < d.w_) (hy2 : cy2 < d.h_)
    (h : d.GetPos cx cy = d.GetPos cx2 cy2) : cx = cx2 ∧ cy = cy2 := by
  rw [GetPos_cell d cx cy hw8 hh8 hx hy, GetPos_cell d cx2 cy2 hw8 hh8 hx2 hy2] at h
  have hm := congrArg (· % d.w_) h
  have hd := congrArg (· / d.w_) h
  simp only [Nat.add_mul_mod_self_right, Nat.mod_eq_of_lt hx, Nat.mod_eq_of_lt hx2] at hm
  have hwpos : 0 < d.w_ := by omega
  simp only [Nat.add_mul_div_right _ _ hwpos, Nat.div_eq_of_lt hx, Nat.div_eq_of_lt hx2,
    Nat.zero_add] at hd
  exact ⟨hm, hd⟩

/-- C25: plot and query with wraparound on a display of byte cells with
width and height in 1..255. `Plot x y` keeps the width and height, flips the
low bit of the cell `(x mod w, y mod h)` (0 becomes 1 and 1 becomes 0) and
leaves every other cell unchanged; `GetPixelState x y` returns the cell
`(x mod w, y mod h)`; two `Plot x y` in a row restore the display. -/
theorem Plot_spec (d : Chip8Display) (x y : Nat) (hw : 0 < d.w_) (hh : 0 < d.h_)
    (hw8 : d.w_ < 256) (hh8 : d.h_ < 256) (hpix : ∀ i, d.pix_ i < 256) :
    (d.Plot x y).w_ = d.w_ ∧ (d.Plot x y).h_ = d.h_ ∧
    (∀ cx cy, cx < d.w_ → cy < d.h_ →
      (d.Plot x y).pix_ (d.GetPos cx cy)
        = if cx = x % d.w_ ∧ cy = y % d.h_ then d.pix_ (d.GetPos cx cy) ^^^ 1
          else d.pix_ (d.GetPos cx cy)) ∧
    (∀ i, i ≠ d.GetPos (x % d.w_) (y % d.h_) → (d.Plot x y).pix_ i = d.pix_ i) ∧
    (d.GetPixelState x y = 0 → (d.Plot x y).GetPixelState x y = 1) ∧
    (d.GetPixelState x y = 1 → (d.Plot x y).GetPixelState x y = 0) ∧
    d.GetPixelState x y = d.pix_ (d.GetPos (x % d.w_) (y % d.h_)) ∧
    (d.Plot x y).Plot x y = d := by
  have hxm : x % d.w_ < d.w_ := Nat.mod_lt _ hw
  have hym : y % d.h_ < d.h_ := Nat.mod_lt _ hh
  have hp : ∀ i, (d.Plot x y).pix_ i
      = toggle d.pix_ (d.GetPos (x % d.w_) (y % d.h_)) i := fun _ => rfl
  refine ⟨rfl, rfl, ?_, ?_, ?_, ?_, rfl, ?_⟩
  · intro cx cy hcx hcy
    rw [hp, toggle_apply _ _ _ (hpix _)]
    by_cases hc : cx = x % d.w_ ∧ cy = y % d.h_
    · rw [if_pos hc, hc.1, hc.2, if_pos rfl]
    · rw [if_neg hc, if_neg]
      intro he
      exact hc (GetPos_inj d cx cy _ _ hw8 hh8 hcx hcy hxm hym he)
  · intro i hi
    rw [hp, toggle_apply _ _ _ (hpix _), if_neg hi]
  · intro h0
    unfold Chip8Display.GetPixelState at h0 ⊢
    show (d.Plot x y).pix_ (d.GetPos (x % d.w_) (y % d.h_)) = 1
    rw [hp, toggle_apply _ _ _ (hpix _), if_pos rfl, h0]
    rfl
  · intro h1
    unfold Chip8Display.GetPixelState at h1 ⊢
    show (d.Plot x y).pix_ (d.GetPos (x % d.w_) (y % d.h_)) = 0
    rw [hp, toggle_apply _ _ _ (hpix _), if_pos rfl, h1]
    rfl
  · have hb := toggle_byte d.pix_ hpix (d.GetPos (x % d.w_) (y % d.h_))
    have e : ((d.Plot x y).Plot x y).pix_ = d.pix_ := by
      funext i
      show toggle (toggle d.pix_ (d.GetPos (x % d.w_) (y % d.h_)))
        (d.GetPos (x % d.w_) (y % d.h_)) i = d.pix_ i
      rw [toggle_apply _ _ _ (hb _), toggle_apply _ _ _ (hpix _), toggle_apply _ _ _ (hpix _)]
      by_cases hi : i = d.GetPos (x % d.w_) (y % d.h_)
      · simp [hi, Nat.xor_cancel_right]
      · simp [hi]
    cases d with
    | mk w h pix =>
      show Chip8Display.mk w h _ = Chip8Display.mk w h pix
      rw [Chip8Display.mk.injEq]
      exact ⟨rfl, rfl, e⟩

/-- On the cleared 64x32 display, plotting `(70, 40)` turns on the cell
`(6, 8)`, and plotting it again restores the display. -/
theorem Plot_spec_witness :
    ((0 : Nat) < sampleCPU.display_.w_ ∧ sampleCPU.display_.h_ < 256) ∧
    sampleCPU.display_.GetPixelState 70 40 = 0 ∧
    (sampleCPU.display_.Plot 70 40).GetPixelState 70 40 = 1 ∧
    (sampleCPU.display_.Plot 70 40).GetPixelState 6 8 = 1 ∧
    ((sampleCPU.display_.Plot 70 40).Plot 70 40) = sampleCPU.display_ := by
  have h := Plot_spec sampleCPU.display_ 70 40 (by decide) (by decide) (by decide) (by decide)
    (fun _ => (by decide : (0 : Nat) < 256))
  exact ⟨⟨by decide, by decide⟩, by decide, h.2.2.2.2.1 (by decide), by decide,
    h.2.2.2.2.2.2.2⟩

/-! ### Store register block `Fx55` -/

theorem storeRegs_spec (V : Nat → Nat) (I : Nat) (n : Nat) : ∀ (i : Nat) (m : Chip8Memory),
    m.memSize_ < 65536 → I + i < 65536 →
    (storeRegs V I n i m).2.memSize_ = m.memSize_ ∧
    ((storeRegs V I n i m).1 = true ↔ (n = 0 ∨ I + i + n ≤ m.memSize_)) ∧
    (∀ a, (storeRegs V I n i m).2.mem_ a
      = if I + i ≤ a ∧ a < I + i + n ∧ a < m.memSize_ then V (a - I) else m.mem_ a) := by
  induction n with
  | zero =>
    intro i m _ _
    refine ⟨rfl, by simp [storeRegs], ?_⟩
    intro a
    have : ¬ (I + i ≤ a ∧ a < I + i + 0 ∧ a < m.memSize_) := by omega
    rw [if_neg this]
    rfl
  | succ n ih =>
    intro i m hcap hi
    have hmod : (I + i) % 65536 = I + i := Nat.mod_eq_of_lt hi
    by_cases hw : I + i ≥ m.memSize_
    · simp only [storeRegs, hmod, Chip8Memory.WriteValue, hw, if_true, Bool.false_eq_true,
        if_false]
      refine ⟨trivial, ⟨fun h => absurd h (by simp), fun h => by omega⟩, ?_⟩
      intro a
      have : ¬ (I + i ≤ a ∧ a < I + i + (n + 1) ∧ a < m.memSize_) := by omega
      rw [if_neg this]
    · obtain ⟨i1, i2, i3⟩ := ih (i + 1) (m.WriteValue (I + i) (V i)).2
        (by simpa [Chip8Memory.WriteValue, hw] using hcap) (by omega)
      simp only [Chip8Memory.WriteValue, hw, if_false] at i1 i2 i3
      simp only [storeRegs, hmod, Chip8Memory.WriteValue, hw, if_false, if_true]
      refine ⟨i1, ?_, ?_⟩
      · rw [i2]; omega
      · intro a
        rw [i3 a]
        by_cases ha : a = I + i
        · subst ha
          have c1 : ¬ (I + (i + 1) ≤ I + i ∧ I + i < I + (i + 1) + n ∧ I + i < m.memSize_) := by
            omega
          have c2 : I + i ≤ I + i ∧ I + i < I + i + (n + 1) ∧ I + i < m.memSize_ := by omega
          rw [if_neg c1, if_pos c2]
          simp [setAt]
        · by_cases hc : I + (i + 1) ≤ a ∧ a < I + (i + 1) + n ∧ a < m.memSize_
          · rw [if_pos hc, if_pos (by omega)]
          · rw [if_neg hc, if_neg (by omega)]
            simp [setAt, ha]

/-- C29: store register block `Fx55` on a memory of fewer than 65536
bytes. Execution succeeds exactly when `I + x` is below the capacity. In
either case the byte at each address `I + i` with `i <= x` and `I + i` below
the capacity becomes `Vi` and every other byte is unchanged (on success
these are all of `I .. I + x`; on failure the in-range prefix), the capacity
and the display are unchanged, and no register changes except that `PC`
advances by 2 (in 16 bits) on success and stays on failure. -/
theorem LDIaddrVx_spec (s : Chip8CPU) (env : Chip8Env) (x : Nat) (hx : x < 16)
    (hcap : s.ram_.memSize_ < 65536) (hI : s.reg_.I < 65536) :
    ((ExecuteOpcode s env (0xF000 + 0x100 * x + 0x55)).1 = true ↔
      s.reg_.I + x < s.ram_.memSize_) ∧
    (∀ a, (ExecuteOpcode s env (0xF000 + 0x100 * x + 0x55)).2.ram_.mem_ a
      = if s.reg_.I ≤ a ∧ a ≤ s.reg_.I + x ∧ a < s.ram_.memSize_ then s.reg_.V (a - s.reg_.I)
        else s.ram_.mem_ a) ∧
    (ExecuteOpcode s env (0xF000 + 0x100 * x + 0x55)).2.ram_.memSize_ = s.ram_.memSize_ ∧
    (ExecuteOpcode s env (0xF000 + 0x100 * x + 0x55)).2.reg_
      = { s.reg_ with PC :=
          if s.reg_.I + x < s.ram_.memSize_ then (s.reg_.PC + 2) % 65536 else s.reg_.PC } ∧
    (ExecuteOpcode s env (0xF000 + 0x100 * x + 0x55)).2.display_ = s.display_ := by
  obtain ⟨h1, h2, h3⟩ := decode_F x 0x55 hx (by omega)
  obtain ⟨l1, l2, l3⟩ := storeRegs_spec s.reg_.V s.reg_.I (x + 1) 0 s.ram_ hcap (by omega)
  simp only [Nat.add_zero] at l1 l2 l3
  simp only [ExecuteOpcode, h1, h2, ExecuteOpLDIaddrVx, h3]
  by_cases hok : s.reg_.I + x < s.ram_.memSize_
  · have hr := l2.mpr (Or.inr (by omega))
    rw [if_pos hr]
    refine ⟨⟨fun _ => hok, fun _ => rfl⟩, ?_, l1, ?_, rfl⟩
    · intro a
      simp only [SetPCNext, setPC]
      rw [l3 a]
      by_cases hc : s.reg_.I ≤ a ∧ a < s.reg_.I + (x + 1) ∧ a < s.ram_.memSize_
      · rw [if_pos hc, if_pos (by omega)]
      · rw [if_neg hc, if_neg (by omega)]
    · simp [SetPCNext, setPC, hok]
  · have hr : ¬ ((storeRegs s.reg_.V s.reg_.I (x + 1) 0 s.ram_).1 = true) := by
      rw [l2]; omega
    rw [if_neg hr]
    refine ⟨⟨fun h => absurd h (by simp), fun h => absurd h hok⟩, ?_, l1, ?_, rfl⟩
    · intro a
      simp only
      rw [l3 a]
      by_cases hc : s.reg_.I ≤ a ∧ a < s.reg_.I + (x + 1) ∧ a < s.ram_.memSize_
      · rw [if_pos hc, if_pos (by omega)]
      · rw [if_neg hc, if_neg (by omega)]
    · simp [hok]

/-- On `edgeCPU` (`I = 4094`): `F155` fits and succeeds; `F255` fails with
`PC` unchanged after storing `V0`, `V1` at 4094, 4095. -/
theorem LDIaddrVx_spec_witness :
    (edgeCPU.ram_.memSize_ < 65536 ∧ edgeCPU.reg_.I < 65536) ∧
    ((ExecuteOpcode edgeCPU sampleEnv 0xF155).1 = true ∧
     (ExecuteOpcode edgeCPU sampleEnv 0xF155).2.reg_.PC = 0x202) ∧
    ((ExecuteOpcode edgeCPU sampleEnv 0xF255).1 ≠ true ∧
     (ExecuteOpcode edgeCPU sampleEnv 0xF255).2.ram_.mem_ 4094 = 0x11 ∧
     (ExecuteOpcode edgeCPU sampleEnv 0xF255).2.ram_.mem_ 4095 = 0x22 ∧
     (ExecuteOpcode edgeCPU sampleEnv 0xF255).2.reg_.PC = 0x200) := by
  have h := LDIaddrVx_spec edgeCPU sampleEnv 1 (by decide) (by decide) (by decide)
  have g := LDIaddrVx_spec edgeCPU sampleEnv 2 (by decide) (by decide) (by decide)
  refine ⟨⟨by decide, by decide⟩, ⟨h.1.mpr (by decide), ?_⟩,
    ⟨fun hc => absurd (g.1.mp hc) (by decide), ?_, ?_, ?_⟩⟩
  · have e := congrArg Chip8CPURegisters.PC h.2.2.2.1
    exact e
  · exact g.2.1 4094
  · exact g.2.1 4095
  · have e := congrArg Chip8CPURegisters.PC g.2.2.2.1
    exact e

/-! ### Draw sprite: pixels and flag -/

theorem spriteBit_testBit (b c : Nat) (hc : c < 8) :
    spriteBit b c = true ↔ b.testBit (7 - c) = true := by
  have e : (128 >>> c : Nat) = 2 ^ (7 - c) := by
    interval_cases c <;> rfl
  unfold spriteBit
  rw [e, Nat.and_two_pow]
  cases b.testBit (7 - c) <;> simp

theorem drawStep_flag_nodup (L : List Nat) : L.Nodup → ∀ (vf : Nat) (pix : Nat → Nat),
    (L.foldl drawStep (vf, pix)).1 = if ∃ p, p ∈ L ∧ pix p ≠ 0 then 1 else vf := by
  induction L with
  | nil => intro _ vf pix; simp
  | cons q L ih =>
    intro hnd vf pix
    obtain ⟨hq, hL⟩ := List.nodup_cons.mp hnd
    by_cases hex : ∃ p, p ∈ q :: L ∧ pix p ≠ 0
    · rw [if_pos hex]
      exact drawStep_flag_of_on _ _ _ hex
    · rw [if_neg hex]
      have hq0 : pix q = 0 := by
        by_contra h
        exact hex ⟨q, List.mem_cons_self _ _, h⟩
      simp only [List.foldl_cons, drawStep]
      have hno : ¬ ∃ p, p ∈ L ∧ toggle pix q p ≠ 0 := by
        rintro ⟨p, hp, hne⟩
        have hpq : p ≠ q := fun h => hq (h ▸ hp)
        apply hex
        refine ⟨p, List.mem_cons_of_mem _ hp, ?_⟩
        simpa [toggle, setAt, hpq] using hne
      rw [ih hL, if_neg hno, if_neg (not_not.mpr hq0)]

theorem plotPos_cell (h Vx Vy r c px py : Nat) (hh : h = 32 ∨ h = 64)
    (hpx : px < 64) (hpy : py < h) :
    plotPos 64 h Vx Vy r c = px + py * 64 ↔ px = (Vx + c) % 64 ∧ py = (Vy + r) % h := by
  unfold plotPos
  rcases hh with rfl | rfl <;> omega

/-- C21: draw sprite `Dxyn` on a 64x32 or 64x64 display of byte cells, with
the sprite rows `I .. I + n - 1` inside the memory (`I + n <= capacity`).
The instruction succeeds; each pixel `(px, py)` of the display has its low
bit flipped when some row `r < n` and column `c < 8` satisfy
`px = (Vx + c) mod w`, `py = (Vy + r) mod h` with bit `7 - c` of
`memory[I + r]` set, and is unchanged otherwise; `VF` is 1 when some set
sprite bit targets a pixel that was on before the instruction and 0
otherwise; the other `V` registers and `I` are unchanged, `PC` advances by 2
(in 16 bits) and the memory is unchanged. `Vx`, `Vy` are the values before
the instruction. -/
theorem DRW_spec (s : Chip8CPU) (env : Chip8Env) (x y n : Nat)
    (hx : x < 16) (hy : y < 16) (hn : n < 16)
    (hw : s.display_.w_ = 64) (hh : s.display_.h_ = 32 ∨ s.display_.h_ = 64)
    (hpix : ∀ i, s.display_.pix_ i < 256)
    (hcap : s.ram_.memSize_ < 65536)
    (hI : s.reg_.I + n ≤ s.ram_.memSize_) :
    (ExecuteOpcode s env (0xD000 + 0x100 * x + 0x10 * y + n)).1 = true ∧
    (∀ px py, px < s.display_.w_ → py < s.display_.h_ →
      (ExecuteOpcode s env (0xD000 + 0x100 * x + 0x10 * y + n)).2.display_.GetPixelState px py
        = if ∃ r < n, ∃ c < 8, px = (s.reg_.V x + c) % s.display_.w_ ∧
              py = (s.reg_.V y + r) % s.display_.h_ ∧
              (s.ram_.mem_ (s.reg_.I + r)).testBit (7 - c) = true
          then s.display_.GetPixelState px py ^^^ 1
          else s.display_.GetPixelState px py) ∧
    (ExecuteOpcode s env (0xD000 + 0x100 * x + 0x10 * y + n)).2.display_.w_ = s.display_.w_ ∧
    (ExecuteOpcode s env (0xD000 + 0x100 * x + 0x10 * y + n)).2.display_.h_ = s.display_.h_ ∧
    (ExecuteOpcode s env (0xD000 + 0x100 * x + 0x10 * y + n)).2.reg_.V 0xF
      = (if ∃ r < n, ∃ c < 8, (s.ram_.mem_ (s.reg_.I + r)).testBit (7 - c) = true ∧
            s.display_.GetPixelState ((s.reg_.V x + c) % s.display_.w_)
              ((s.reg_.V y + r) % s.display_.h_) ≠ 0
        then 1 else 0) ∧
    (∀ i, i ≠ 0xF →
      (ExecuteOpcode s env (0xD000 + 0x100 * x + 0x10 * y + n)).2.reg_.V i = s.reg_.V i) ∧
    (ExecuteOpcode s env (0xD000 + 0x100 * x + 0x10 * y + n)).2.reg_.I = s.reg_.I ∧
    (ExecuteOpcode s env (0xD000 + 0x100 * x + 0x10 * y + n)).2.reg_.PC
      = (s.reg_.PC + 2) % 65536 ∧
    (ExecuteOpcode s env (0xD000 + 0x100 * x + 0x10 * y + n)).2.ram_ = s.ram_ := by
  rw [DRW_eq s env x y n hx hy hn hcap hI]
  have hnd : (drawPlots s x y n).Nodup := by
    unfold drawPlots
    rw [hw]
    exact rowsPlots_nodup _ _ _ _ _ _ hh (by omega)
  have hh0 : 0 < s.display_.h_ := by rcases hh with h | h <;> omega
  have hcell : ∀ (pix : Nat → Nat) (px py : Nat), px < 64 → py < s.display_.h_ →
      Chip8Display.GetPixelState { s.display_ with pix_ := pix } px py = pix (px + py * 64) := by
    intro pix px py h3 h4
    unfold Chip8Display.GetPixelState Chip8Display.GetPos
    simp only
    congr 1
    rw [hw]
    rcases hh with h | h <;> rw [h] at h4 ⊢ <;> omega
  have hmem : ∀ px py, px < 64 → py < s.display_.h_ →
      (px + py * 64 ∈ drawPlots s x y n ↔
        ∃ r < n, ∃ c < 8, px = (s.reg_.V x + c) % s.display_.w_ ∧
          py = (s.reg_.V y + r) % s.display_.h_ ∧
          (s.ram_.mem_ (s.reg_.I + r)).testBit (7 - c) = true) := by
    intro px py h3 h4
    unfold drawPlots
    rw [mem_rowsPlots, hw]
    constructor
    · rintro ⟨r, c, hr, hc, hb, hp⟩
      have := (plotPos_cell _ _ _ r c px py hh h3 h4).mp hp
      exact ⟨r, hr, c, hc, this.1, this.2, (spriteBit_testBit _ c hc).mp hb⟩
    · rintro ⟨r, hr, c, hc, h5, h6, hb⟩
      exact ⟨r, c, hr, hc, (spriteBit_testBit _ c hc).mpr hb,
        (plotPos_cell _ _ _ r c px py hh h3 h4).mpr ⟨h5, h6⟩⟩
  refine ⟨rfl, ?_, rfl, rfl, ?_, ?_, rfl, rfl, rfl⟩
  · intro px py hpx hpy
    rw [hw] at hpx
    have e0 := hcell s.display_.pix_ px py hpx hpy
    have e1 := hcell ((drawPlots s x y n).foldl toggle s.display_.pix_) px py hpx hpy
    simp only [SetPCNext, setPC, setV, drawStep_fold_pix]
    rw [e1, e0, toggle_fold_apply _ _ hpix]
    by_cases hin : px + py * 64 ∈ drawPlots s x y n
    · rw [List.count_eq_one_of_mem hnd hin, if_pos (by decide),
        if_pos ((hmem px py hpx hpy).mp hin)]
    · rw [List.count_eq_zero_of_not_mem hin, if_neg (by decide),
        if_neg (fun h => hin ((hmem px py hpx hpy).mpr h))]
  · simp only [SetPCNext, setPC, setV, setAt, if_true]
    rw [drawStep_flag_nodup _ hnd]
    apply if_congr _ rfl rfl
    constructor
    · rintro ⟨p, hp, hne⟩
      have hp2 := hp
      unfold drawPlots at hp2
      rw [mem_rowsPlots, hw] at hp2
      obtain ⟨r, c, hr, hc, hb, rfl⟩ := hp2
      have hpx : (s.reg_.V x + c) % 64 < 64 := Nat.mod_lt _ (by decide)
      have hpy : (s.reg_.V y + r) % s.display_.h_ < s.display_.h_ := Nat.mod_lt _ hh0
      have hc2 := (plotPos_cell s.display_.h_ (s.reg_.V x) (s.reg_.V y) r c _ _ hh hpx hpy).mpr
        ⟨rfl, rfl⟩
      refine ⟨r, hr, c, hc, (spriteBit_testBit _ c hc).mp hb, ?_⟩
      have e0 := hcell s.display_.pix_ _ _ hpx hpy
      rw [hw]
      rw [e0, ← hc2]
      exact hne
    · rintro ⟨r, hr, c, hc, hb, hne⟩
      have hpx : (s.reg_.V x + c) % 64 < 64 := Nat.mod_lt _ (by decide)
      have hpy : (s.reg_.V y + r) % s.display_.h_ < s.display_.h_ := Nat.mod_lt _ hh0
      rw [hw] at hne
      refine ⟨_, (hmem _ _ hpx hpy).mpr ⟨r, hr, c, hc, by rw [hw], rfl, hb⟩, ?_⟩
      have e0 := hcell s.display_.pix_ _ _ hpx hpy
      rw [e0] at hne
      exact hne
  · intro i hi
    simp [SetPCNext, setPC, setV, setAt, hi]

/-- On `glyphCPU` the draw `D015` at `(62, 30)` wraps around both edges: it
turns on `(62, 30)` and `(1, 2)`, leaves `(2, 2)` off, and reports no
collision. -/
theorem DRW_spec_witness :
    (glyphCPU.display_.w_ = 64 ∧ glyphCPU.reg_.I + 5 ≤ glyphCPU.ram_.memSize_) ∧
    (ExecuteOpcode glyphCPU sampleEnv 0xD015).1 = true ∧
    (ExecuteOpcode glyphCPU sampleEnv 0xD015).2.display_.GetPixelState 62 30 = 1 ∧
    (ExecuteOpcode glyphCPU sampleEnv 0xD015).2.display_.GetPixelState 1 2 = 1 ∧
    (ExecuteOpcode glyphCPU sampleEnv 0xD015).2.display_.GetPixelState 2 2 = 0 ∧
    (ExecuteOpcode glyphCPU sampleEnv 0xD015).2.reg_.V 0xF = 0 ∧
    (ExecuteOpcode glyphCPU sampleEnv 0xD015).2.reg_.PC = 0x202 := by
  have h := DRW_spec glyphCPU sampleEnv 0 1 5 (by decide) (by decide) (by decide)
    (by decide) (by decide) (fun _ => (by decide : (0 : Nat) < 256)) (by decide) (by decide)
  refine ⟨⟨by decide, by decide⟩, h.1, ?_, ?_, ?_, ?_, h.2.2.2.2.2.2.2.1⟩
  · rw [h.2.1 62 30 (by decide) (by decide)]; decide
  · rw [h.2.1 1 2 (by decide) (by decide)]; decide
  · rw [h.2.1 2 2 (by decide) (by decide)]; decide
  · rw [h.2.2.2.2.1]; decide

/-! ### Return-stack slots -/

/-- C30 (failing input): `nestProgram` run from a reset of the standard
machine `nestCPU`. After 15 steps `SP = 15`, the next instruction is the
call `2220` and the stack map holds 0 at index 16. The 16th step succeeds,
leaves `SP = 16` and has stored its return address `0x21E` at index 16, one
past the 16-entry stack (index 15 still holds `0x21C`). The 17th step, the
return `00EE`, succeeds with `PC = 0x220 = stack[16] + 2` and `SP = 15`: it
has read index 16. -/
theorem call_16_stores_past_stack :
    (Reset 1000 nestCPU sampleEnv).map (fun s0 =>
        ((stepsFrom 1000 (fun _ => sampleEnv) s0 15).reg_.SP,
         FetchOpcode (stepsFrom 1000 (fun _ => sampleEnv) s0 15),
         (stepsFrom 1000 (fun _ => sampleEnv) s0 15).reg_.stack 16))
      = some (15, some 0x2220, 0) ∧
    (Reset 1000 nestCPU sampleEnv).map (fun s0 =>
        ((Step 1000 (stepsFrom 1000 (fun _ => sampleEnv) s0 15) sampleEnv).1,
         (stepsFrom 1000 (fun _ => sampleEnv) s0 16).reg_.SP,
         (stepsFrom 1000 (fun _ => sampleEnv) s0 16).reg_.stack 15,
         (stepsFrom 1000 (fun _ => sampleEnv) s0 16).reg_.stack 16))
      = some (true, 16, 0x21C, 0x21E) ∧
    (Reset 1000 nestCPU sampleEnv).map (fun s0 =>
        (FetchOpcode (stepsFrom 1000 (fun _ => sampleEnv) s0 16),
         (Step 1000 (stepsFrom 1000 (fun _ => sampleEnv) s0 16) sampleEnv).1,
         (stepsFrom 1000 (fun _ => sampleEnv) s0 17).reg_.PC,
         (stepsFrom 1000 (fun _ => sampleEnv) s0 17).reg_.SP))
      = some (some 0x00EE, true, 0x220, 15) := by
  set_option maxRecDepth 100000 in
  decide

/-! ### Which opcodes fault -/

theorem group_simple_ok (s : Chip8CPU) (env : Chip8Env) (op : Nat)
    (hg : op / 4096 % 16 ∈ [1, 3, 4, 5, 6, 7, 9, 0xA, 0xB, 0xC]) :
    (ExecuteOpcode s env op).1 = true := by
  have h1 := land_F000 op
  simp only [List.mem_cons, List.mem_singleton, List.not_mem_nil, or_false] at hg
  rcases hg with h | h | h | h | h | h | h | h | h | h <;> rw [h] at h1 <;>
    simp only [Nat.reduceMul] at h1 <;> simp only [ExecuteOpcode, h1]
  · unfold ExecuteOpJPAddr; split <;> rfl
  all_goals rfl

theorem group_0_fault_iff (s : Chip8CPU) (env : Chip8Env) (op : Nat) (hg : op / 4096 % 16 = 0) :
    (ExecuteOpcode s env op).1 = false ↔ op % 256 = 0xEE ∧ s.reg_.SP > 16 := by
  obtain ⟨a, b, c⟩ := group_0_decode s env op hg
  by_cases h1 : op % 256 = 0xE0
  · rw [a h1]
    simp [ExecuteOpCLS, h1]
  · by_cases h2 : op % 256 = 0xEE
    · rw [b h2]
      unfold ExecuteOpRET
      split <;> simp_all
    · rw [c (by simp [h1, h2])]
      simp [h2]

theorem group_2_fault_iff (s : Chip8CPU) (env : Chip8Env) (op : Nat) (hg : op / 4096 % 16 = 2) :
    (ExecuteOpcode s env op).1 = false ↔ s.reg_.SP > 15 := by
  have h1 : op &&& 0xF000 = 0x2000 := by rw [land_F000]; omega
  simp only [ExecuteOpcode, h1, ExecuteOpCALL]
  split <;> simp_all

theorem group_8_fault_iff (s : Chip8CPU) (env : Chip8Env) (op : Nat) (hg : op / 4096 % 16 = 8) :
    (ExecuteOpcode s env op).1 = false ↔ op % 16 ∉ [0, 1, 2, 3, 4, 5, 6, 7, 14] := by
  by_cases hN : op % 16 ∉ [0, 1, 2, 3, 4, 5, 6, 7, 14]
  · rw [group_8_fault s env op hg hN]
    simp [hN]
  · have h1 : op &&& 0xF000 = 0x8000 := by rw [land_F000]; omega
    have h2 := land_000F op
    have hN2 := hN
    simp only [List.mem_cons, List.mem_singleton, List.not_mem_nil, or_false, not_not] at hN2
    have : (ExecuteOpcode s env op).1 = true := by
      rcases hN2 with h | h | h | h | h | h | h | h | h <;> rw [h] at h2 <;>
        simp only [ExecuteOpcode, h1, h2] <;> rfl
    rw [this]
    exact ⟨fun h => absurd h (by simp), fun h => absurd h hN⟩

theorem group_E_fault_iff (s : Chip8CPU) (env : Chip8Env) (op : Nat) (hg : op / 4096 % 16 = 0xE) :
    (ExecuteOpcode s env op).1 = false ↔ op % 256 ∉ [0x9E, 0xA1] := by
  by_cases hN : op % 256 ∉ [0x9E, 0xA1]
  · rw [group_E_fault s env op hg hN]
    simp [hN]
  · have h1 : op &&& 0xF000 = 0xE000 := by rw [land_F000]; omega
    have h2 := land_00FF op
    have hN2 := hN
    simp only [List.mem_cons, List.mem_singleton, List.not_mem_nil, or_false, not_not] at hN2
    have : (ExecuteOpcode s env op).1 = true := by
      rcases hN2 with h | h <;> rw [h] at h2 <;>
        simp only [ExecuteOpcode, h1, h2] <;> rfl
    rw [this]
    exact ⟨fun h => absurd h (by simp), fun h => absurd h hN⟩

theorem drwRows_ok_iff (ram : Chip8Memory) (I Vx Vy : Nat) (n : Nat) :
    ∀ (y : Nat) (st : Nat × Chip8Display), ram.memSize_ < 65536 → I + y < 65536 →
    ((drwRows ram I Vx Vy n y st).1 = true ↔ (n = 0 ∨ I + y + n ≤ ram.memSize_)) := by
  induction n with
  | zero => intro y st _ _; simp [drwRows]
  | succ n ih =>
    intro y st hcap hy
    have hmod : (I + y) % 65536 = I + y := Nat.mod_eq_of_lt hy
    by_cases hr : I + y ≥ ram.memSize_
    · simp only [drwRows, hmod, Chip8Memory.ReadValue, hr, if_true]
      simp
      omega
    · simp only [drwRows, hmod, Chip8Memory.ReadValue, hr, if_false]
      rw [ih (y + 1) _ hcap (by omega)]
      omega

theorem loadRegs_spec (ram : Chip8Memory) (I : Nat) (n : Nat) :
    ∀ (i : Nat) (V : Nat → Nat), ram.memSize_ < 65536 → I + i < 65536 →
    ((loadRegs ram I n i V).1 = true ↔ (n = 0 ∨ I + i + n ≤ ram.memSize_)) ∧
    (∀ j, (loadRegs ram I n i V).2 j
      = if i ≤ j ∧ j < i + n ∧ I + j < ram.memSize_ then ram.mem_ (I + j) else V j) := by
  induction n with
  | zero =>
    intro i V _ _
    refine ⟨by simp [loadRegs], ?_⟩
    intro j
    rw [if_neg (by omega)]
    rfl
  | succ n ih =>
    intro i V hcap hi
    have hmod : (I + i) % 65536 = I + i := Nat.mod_eq_of_lt hi
    by_cases hr : I + i ≥ ram.memSize_
    · simp only [loadRegs, hmod, Chip8Memory.ReadValue, hr, if_true]
      refine ⟨by simp; omega, ?_⟩
      intro j
      rw [if_neg (by omega)]
    · simp only [loadRegs, hmod, Chip8Memory.ReadValue, hr, if_false]
      obtain ⟨a, b⟩ := ih (i + 1) (setAt V i (ram.mem_ (I + i))) hcap (by omega)
      refine ⟨by rw [a]; omega, ?_⟩
      intro j
      rw [b j]
      by_cases hj : j = i
      · subst hj
        rw [if_neg (by omega), if_pos (by omega)]
        simp [setAt]
      · by_cases hc : i + 1 ≤ j ∧ j < i + 1 + n ∧ I + j < ram.memSize_
        · rw [if_pos hc, if_pos (by omega)]
        · rw [if_neg hc, if_neg (by omega)]
          simp [setAt, hj]

theorem group_D_fault_iff (s : Chip8CPU) (env : Chip8Env) (op : Nat) (hg : op / 4096 % 16 = 0xD)
    (hcap : s.ram_.memSize_ < 65536) (hI : s.reg_.I < 65536) :
    (ExecuteOpcode s env op).1 = false ↔
      0 < op % 16 ∧ s.reg_.I + op % 16 - 1 ≥ s.ram_.memSize_ := by
  have h1 : op &&& 0xF000 = 0xD000 := by rw [land_F000]; omega
  have h2 : (op &&& 0x000F) % 256 = op % 16 := by rw [land_000F]; omega
  have hk := drwRows_ok_iff s.ram_ s.reg_.I (s.reg_.V (GetXArg op)) (s.reg_.V (GetYArg op))
    (op % 16) 0 (0, s.display_) hcap (by omega)
  simp only [ExecuteOpcode, h1, ExecuteOpDRW, h2]
  split
  · rename_i hr
    have := hk.mp hr
    simp
    omega
  · rename_i hr
    have : ¬ (op % 16 = 0 ∨ s.reg_.I + 0 + op % 16 ≤ s.ram_.memSize_) := fun h => hr (hk.mpr h)
    simp
    omega

theorem LDBVx_fault_iff (s : Chip8CPU) (op : Nat)
    (hcap : s.ram_.memSize_ < 65536) (hI : s.reg_.I < 65536) :
    (ExecuteOpLDBVx s op).1 = false ↔ s.reg_.I + 2 ≥ s.ram_.memSize_ := by
  unfold ExecuteOpLDBVx Chip8Memory.WriteValue
  by_cases h0 : s.reg_.I ≥ s.ram_.memSize_
  · simp [h0]
    omega
  · have m1 : (s.reg_.I + 1) % 65536 = s.reg_.I + 1 := Nat.mod_eq_of_lt (by omega)
    by_cases h1 : s.reg_.I + 1 ≥ s.ram_.memSize_
    · simp [h0, h1, m1]
      omega
    · have m2 : (s.reg_.I + 2) % 65536 = s.reg_.I + 2 := Nat.mod_eq_of_lt (by omega)
      by_cases h2 : s.reg_.I + 2 ≥ s.ram_.memSize_
      · simp [h0, h1, m1, h2, m2]
      · simp [h0, h1, m1, h2, m2]

theorem group_F_fault_iff (s : Chip8CPU) (env : Chip8Env) (op : Nat) (hg : op / 4096 % 16 = 0xF)
    (hcap : s.ram_.memSize_ < 65536) (hI : s.reg_.I < 65536) :
    (ExecuteOpcode s env op).1 = false ↔
      (op % 256 ∉ [0x07, 0x0A, 0x15, 0x18, 0x1E, 0x29, 0x33, 0x55, 0x65] ∨
       (op % 256 = 0x33 ∧ s.reg_.I + 2 ≥ s.ram_.memSize_) ∨
       ((op % 256 = 0x55 ∨ op % 256 = 0x65) ∧
         s.reg_.I + op / 256 % 16 ≥ s.ram_.memSize_)) := by
  by_cases hN : op % 256 ∉ [0x07, 0x0A, 0x15, 0x18, 0x1E, 0x29, 0x33, 0x55, 0x65]
  · rw [group_F_fault s env op hg hN]
    simp only [true_iff]
    exact Or.inl hN
  · have h1 : op &&& 0xF000 = 0xF000 := by rw [land_F000]; omega
    have h2 := land_00FF op
    have hx := GetXArg_eq op
    have hN2 := hN
    simp only [List.mem_cons, List.mem_singleton, List.not_mem_nil, or_false, not_not] at hN2
    rcases hN2 with h | h | h | h | h | h | h | h | h <;> rw [h] at h2 <;>
      simp only [ExecuteOpcode, h1, h2]
    · have : (ExecuteOpLDVxDT s op).1 = true := rfl
      simp [this, h]
    · have : (ExecuteOpLDVxKey s env op).1 = true := by
        unfold ExecuteOpLDVxKey; split <;> rfl
      simp [this, h]
    · have : (ExecuteOpLDDTVx s op).1 = true := rfl
      simp [this, h]
    · have : (ExecuteOpLDSTVx s op).1 = true := rfl
      simp [this, h]
    · have : (ExecuteOpADDIVx s op).1 = true := rfl
      simp [this, h]
    · have : (ExecuteOpLDFVx s op).1 = true := rfl
      simp [this, h]
    · rw [LDBVx_fault_iff s op hcap hI]
      simp [h]
    · obtain ⟨-, l2, -⟩ := storeRegs_spec s.reg_.V s.reg_.I (GetXArg op + 1) 0 s.ram_ hcap
        (by omega)
      rw [hx] at l2
      simp only [ExecuteOpLDIaddrVx, hx]
      by_cases hr : (storeRegs s.reg_.V s.reg_.I (op / 256 % 16 + 1) 0 s.ram_).1 = true
      · rw [if_pos hr]
        have := l2.mp hr
        simp [h]
        omega
      · rw [if_neg hr]
        have : ¬ (op / 256 % 16 + 1 = 0 ∨ s.reg_.I + 0 + (op / 256 % 16 + 1) ≤ s.ram_.memSize_) :=
          fun hh => hr (l2.mpr hh)
        simp [h]
        omega
    · obtain ⟨l2, -⟩ := loadRegs_spec s.ram_ s.reg_.I (GetXArg op + 1) 0 s.reg_.V hcap
        (by omega)
      rw [hx] at l2
      simp only [ExecuteOpLDVxIaddr, hx]
      by_cases hr : (loadRegs s.ram_ s.reg_.I (op / 256 % 16 + 1) 0 s.reg_.V).1 = true
      · rw [if_pos hr]
        have := l2.mp hr
        simp [h]
        omega
      · rw [if_neg hr]
        have : ¬ (op / 256 % 16 + 1 = 0 ∨ s.reg_.I + 0 + (op / 256 % 16 + 1) ≤ s.ram_.memSize_) :=
          fun hh => hr (l2.mpr hh)
        simp [h]
        omega

/-- C31: which opcodes fault, for a memory of fewer than 65536 bytes and a
16-bit `I`. With `g`, `x`, `KK`, `N` the top nibble, the second nibble, the
low byte and the low nibble of the opcode, `ExecuteOpcode` fails exactly
when one of these holds: `g = 0`, `KK = EE` and `SP > 16`; `g = 2` and
`SP > 15`; `g = 8` and `N` is outside `0..7`, `E`; `g = E` and `KK` is
outside `9E`, `A1`; `g = F` and `KK` is outside
`07 0A 15 18 1E 29 33 55 65`; `g = D`, `N > 0` and `I + N - 1` is at or past
the capacity; `Fx33` and `I + 2` is at or past the capacity; `Fx55` or
`Fx65` and `I + x` is at or past the capacity. Every other opcode
succeeds. -/
theorem ExecuteOpcode_fault_iff (s : Chip8CPU) (env : Chip8Env) (op : Nat)
    (hcap : s.ram_.memSize_ < 65536) (hI : s.reg_.I < 65536) :
    (ExecuteOpcode s env op).1 = false ↔
      ((op / 4096 % 16 = 0 ∧ op % 256 = 0xEE ∧ s.reg_.SP > 16) ∨
       (op / 4096 % 16 = 2 ∧ s.reg_.SP > 15) ∨
       (op / 4096 % 16 = 8 ∧ op % 16 ∉ [0, 1, 2, 3, 4, 5, 6, 7, 0xE]) ∨
       (op / 4096 % 16 = 0xE ∧ op % 256 ∉ [0x9E, 0xA1]) ∨
       (op / 4096 % 16 = 0xF ∧
         op % 256 ∉ [0x07, 0x0A, 0x15, 0x18, 0x1E, 0x29, 0x33, 0x55, 0x65]) ∨
       (op / 4096 % 16 = 0xD ∧ 0 < op % 16 ∧
         s.reg_.I + op % 16 - 1 ≥ s.ram_.memSize_) ∨
       (op / 4096 % 16 = 0xF ∧ op % 256 = 0x33 ∧ s.reg_.I + 2 ≥ s.ram_.memSize_) ∨
       (op / 4096 % 16 = 0xF ∧ (op % 256 = 0x55 ∨ op % 256 = 0x65) ∧
         s.reg_.I + op / 256 % 16 ≥ s.ram_.memSize_)) := by
  have hg : op / 4096 % 16 < 16 := Nat.mod_lt _ (by decide)
  generalize hk : op / 4096 % 16 = g at hg
  interval_cases g
  · rw [group_0_fault_iff s env op hk]; simp
  · rw [group_simple_ok s env op (by rw [hk]; decide)]; simp
  · rw [group_2_fault_iff s env op hk]; simp
  · rw [group_simple_ok s env op (by rw [hk]; decide)]; simp
  · rw [group_simple_ok s env op (by rw [hk]; decide)]; simp
  · rw [group_simple_ok s env op (by rw [hk]; decide)]; simp
  · rw [group_simple_ok s env op (by rw [hk]; decide)]; simp
  · rw [group_simple_ok s env op (by rw [hk]; decide)]; simp
  · rw [group_8_fault_iff s env op hk]; simp
  · rw [group_simple_ok s env op (by rw [hk]; decide)]; simp
  · rw [group_simple_ok s env op (by rw [hk]; decide)]; simp
  · rw [group_simple_ok s env op (by rw [hk]; decide)]; simp
  · rw [group_simple_ok s env op (by rw [hk]; decide)]; simp
  · rw [group_D_fault_iff s env op hk hcap hI]; simp
  · rw [group_E_fault_iff s env op hk]; simp
  · rw [group_F_fault_iff s env op hk hcap hI]; simp

/-- On `edgeCPU` (`I = 4094`, capacity 4096): `F255`, `8008` and `D003`
fault; `F155`, `5AB7` and `D002` do not. -/
theorem ExecuteOpcode_fault_iff_witness :
    (edgeCPU.ram_.memSize_ < 65536 ∧ edgeCPU.reg_.I < 65536) ∧
    (ExecuteOpcode edgeCPU sampleEnv 0xF255).1 = false ∧
    (ExecuteOpcode edgeCPU sampleEnv 0x8008).1 = false ∧
    (ExecuteOpcode edgeCPU sampleEnv 0xD003).1 = false ∧
    (ExecuteOpcode edgeCPU sampleEnv 0xF155).1 ≠ false ∧
    (ExecuteOpcode edgeCPU sampleEnv 0x5AB7).1 ≠ false ∧
    (ExecuteOpcode edgeCPU sampleEnv 0xD002).1 ≠ false :=
  ⟨⟨by decide, by decide⟩,
   (ExecuteOpcode_fault_iff edgeCPU sampleEnv 0xF255 (by decide) (by decide)).mpr (by decide),
   (ExecuteOpcode_fault_iff edgeCPU sampleEnv 0x8008 (by decide) (by decide)).mpr (by decide),
   (ExecuteOpcode_fault_iff edgeCPU sampleEnv 0xD003 (by decide) (by decide)).mpr (by decide),
   fun h => absurd
     ((ExecuteOpcode_fault_iff edgeCPU sampleEnv 0xF155 (by decide) (by decide)).mp h)
     (by decide),
   fun h => absurd
     ((ExecuteOpcode_fault_iff edgeCPU sampleEnv 0x5AB7 (by decide) (by decide)).mp h)
     (by decide),
   fun h => absurd
     ((ExecuteOpcode_fault_iff edgeCPU sampleEnv 0xD002 (by decide) (by decide)).mp h)
     (by decide)⟩

/-! ### Register block round trip -/

theorem LDIaddrVx_eq (s : Chip8CPU) (env : Chip8Env) (x : Nat) (hx : x < 16)
    (hcap : s.ram_.memSize_ < 65536) (hI : s.reg_.I + x < s.ram_.memSize_) :
    ExecuteOpcode s env (0xF000 + 0x100 * x + 0x55)
      = (true, SetPCNext { s with ram_ := (storeRegs s.reg_.V s.reg_.I (x + 1) 0 s.ram_).2 }) := by
  obtain ⟨h1, h2, h3⟩ := decode_F x 0x55 hx (by omega)
  obtain ⟨-, l2, -⟩ := storeRegs_spec s.reg_.V s.reg_.I (x + 1) 0 s.ram_ hcap (by omega)
  simp only [ExecuteOpcode, h1, h2, ExecuteOpLDIaddrVx, h3]
  rw [if_pos (l2.mpr (Or.inr (by omega)))]

theorem LDVxIaddr_eq (s : Chip8CPU) (env : Chip8Env) (x : Nat) (hx : x < 16)
    (hcap : s.ram_.memSize_ < 65536) (hI : s.reg_.I + x < s.ram_.memSize_) :
    ExecuteOpcode s env (0xF000 + 0x100 * x + 0x65)
      = (true, SetPCNext { s with reg_ := { s.reg_ with
          V := (loadRegs s.ram_ s.reg_.I (x + 1) 0 s.reg_.V).2 } }) := by
  obtain ⟨h1, h2, h3⟩ := decode_F x 0x65 hx (by omega)
  obtain ⟨l2, -⟩ := loadRegs_spec s.ram_ s.reg_.I (x + 1) 0 s.reg_.V hcap (by omega)
  simp only [ExecuteOpcode, h1, h2, ExecuteOpLDVxIaddr, h3]
  rw [if_pos (l2.mpr (Or.inr (by omega)))]

/-- C32: register block round trip, for `x` in 0..15 and `I + x` below the
capacity. `Fx55` executed in the state `s` succeeds and keeps `I`. If `Fx65`
with the same `x` is then executed in any state `t` whose memory is the one
the store left and whose `I` is the `I` of `s` (the `V` registers of `t`
being arbitrary), it succeeds, `Vi` is the value `Vi` had in `s` for every
`i <= x`, every `Vj` with `j > x` keeps the value it has in `t`, and `I` is
unchanged. -/
theorem store_load_round_trip (s t : Chip8CPU) (env env2 : Chip8Env) (x : Nat) (hx : x < 16)
    (hcap : s.ram_.memSize_ < 65536) (hI : s.reg_.I + x < s.ram_.memSize_)
    (hram : t.ram_ = (ExecuteOpcode s env (0xF000 + 0x100 * x + 0x55)).2.ram_)
    (hIt : t.reg_.I = s.reg_.I) :
    (ExecuteOpcode s env (0xF000 + 0x100 * x + 0x55)).1 = true ∧
    (ExecuteOpcode s env (0xF000 + 0x100 * x + 0x55)).2.reg_.I = s.reg_.I ∧
    (ExecuteOpcode t env2 (0xF000 + 0x100 * x + 0x65)).1 = true ∧
    (∀ i, i ≤ x →
      (ExecuteOpcode t env2 (0xF000 + 0x100 * x + 0x65)).2.reg_.V i = s.reg_.V i) ∧
    (∀ j, x < j →
      (ExecuteOpcode t env2 (0xF000 + 0x100 * x + 0x65)).2.reg_.V j = t.reg_.V j) ∧
    (ExecuteOpcode t env2 (0xF000 + 0x100 * x + 0x65)).2.reg_.I = t.reg_.I := by
  rw [LDIaddrVx_eq s env x hx hcap hI] at hram ⊢
  obtain ⟨m1, -, m3⟩ := storeRegs_spec s.reg_.V s.reg_.I (x + 1) 0 s.ram_ hcap (by omega)
  have hsz : t.ram_.memSize_ = s.ram_.memSize_ := by rw [hram]; exact m1
  have hmem : ∀ a, t.ram_.mem_ a
      = if s.reg_.I + 0 ≤ a ∧ a < s.reg_.I + 0 + (x + 1) ∧ a < s.ram_.memSize_
        then s.reg_.V (a - s.reg_.I) else s.ram_.mem_ a := by
    intro a; rw [hram]; exact m3 a
  rw [LDVxIaddr_eq t env2 x hx (by rw [hsz]; exact hcap) (by rw [hsz, hIt]; exact hI)]
  obtain ⟨-, l⟩ := loadRegs_spec t.ram_ t.reg_.I (x + 1) 0 t.reg_.V (by rw [hsz]; exact hcap)
    (by rw [hIt]; omega)
  refine ⟨rfl, rfl, rfl, ?_, ?_, rfl⟩
  · intro i hi
    show (loadRegs t.ram_ t.reg_.I (x + 1) 0 t.reg_.V).2 i = _
    rw [l i, if_pos (by rw [hsz, hIt]; omega), hmem, hIt, if_pos (by omega)]
    congr 1
    omega
  · intro j hj
    show (loadRegs t.ram_ t.reg_.I (x + 1) 0 t.reg_.V).2 j = _
    rw [l j, if_neg (by omega)]

/-- On `edgeCPU` with `x = 1`: after the store `F155`, `V0` and `V1` are
overwritten with 9; the load `F165` brings back `0x11` and `0x22` and leaves
`V2 = 0x33` alone. -/
theorem store_load_round_trip_witness :
    edgeCPU.reg_.I + 1 < edgeCPU.ram_.memSize_ ∧
    (((ExecuteOpcode edgeCPU sampleEnv 0xF155).2.setV 0 9).setV 1 9).reg_.V 0 = 9 ∧
    (ExecuteOpcode (((ExecuteOpcode edgeCPU sampleEnv 0xF155).2.setV 0 9).setV 1 9)
      sampleEnv 0xF165).1 = true ∧
    (ExecuteOpcode (((ExecuteOpcode edgeCPU sampleEnv 0xF155).2.setV 0 9).setV 1 9)
      sampleEnv 0xF165).2.reg_.V 0 = 0x11 ∧
    (ExecuteOpcode (((ExecuteOpcode edgeCPU sampleEnv 0xF155).2.setV 0 9).setV 1 9)
      sampleEnv 0xF165).2.reg_.V 1 = 0x22 ∧
    (ExecuteOpcode (((ExecuteOpcode edgeCPU sampleEnv 0xF155).2.setV 0 9).setV 1 9)
      sampleEnv 0xF165).2.reg_.V 2 = 0x33 := by
  have h := store_load_round_trip edgeCPU
    (((ExecuteOpcode edgeCPU sampleEnv 0xF155).2.setV 0 9).setV 1 9) sampleEnv sampleEnv 1
    (by decide) (by decide) (by decide) rfl rfl
  exact ⟨by decide, by decide, h.2.2.1, h.2.2.2.1 0 (by decide), h.2.2.2.1 1 (by decide),
    (h.2.2.2.2.1 2 (by decide)).trans (by decide)⟩

/-! ### Reset built with `NDEBUG` -/

/-- The two builds of `Reset` agree on everything but the memory and
`defaultSpritesAddr_`: when the reset with assertions returns `s0`, the
reset with `NDEBUG` returns `s0` with the memory and `defaultSpritesAddr_`
of the state before the reset. -/
theorem Reset_ResetNDEBUG (tpu : Nat) (s : Chip8CPU) (env : Chip8Env) (s0 : Chip8CPU)
    (h : Reset tpu s env = some s0) :
    ResetNDEBUG tpu s env
      = { s0 with ram_ := s.ram_, defaultSpritesAddr_ := s.defaultSpritesAddr_ } := by
  unfold Reset at h
  simp only at h
  split at h
  · injection h with h
    subst h
    unfold ResetNDEBUG SetBeeping
    cases hb : s.beeper_ <;>
      simp [InitializeDefaultSprites, ResetTimerDecrement, InitializeRegisters, hb]
  · exact absurd h (by simp)

/-- The reset built with `NDEBUG` writes nothing to the memory and leaves
`defaultSpritesAddr_` alone. -/
theorem ResetNDEBUG_memory (tpu : Nat) (s : Chip8CPU) (env : Chip8Env) :
    (ResetNDEBUG tpu s env).ram_ = s.ram_ ∧
    (ResetNDEBUG tpu s env).defaultSpritesAddr_ = s.defaultSpritesAddr_ := by
  unfold ResetNDEBUG SetBeeping
  cases hb : s.beeper_ <;> simp [ResetTimerDecrement, InitializeRegisters, hb]

/-- C12 (failing input): the standard machine over a zeroed memory (as the
constructor of `Chip8Memory` leaves it) with `V3 = 0xA`, reset by the
function as built with `NDEBUG`, then `F329`. The instruction succeeds and
sets `I = 5 * 0xA = 50`, but the five bytes `memory[50..54]` are all 0; the
glyph rows of the digit `A` in `fontSpriteData` are `F0 90 F0 90 90`. -/
theorem ResetNDEBUG_font_missing :
    (ExecuteOpcode (ResetNDEBUG 1000 (sampleCPU.setV 3 0xA) sampleEnv) sampleEnv 0xF329).1
      = true ∧
    (ExecuteOpcode (ResetNDEBUG 1000 (sampleCPU.setV 3 0xA) sampleEnv) sampleEnv
      0xF329).2.reg_.I = 5 * 0xA ∧
    (∀ k, k < 5 →
      (ExecuteOpcode (ResetNDEBUG 1000 (sampleCPU.setV 3 0xA) sampleEnv) sampleEnv
        0xF329).2.ram_.mem_ (5 * 0xA + k) = 0) ∧
    (List.range 5).map (fun k => fontSpriteData.getD (5 * 0xA + k) 0)
      = [0xF0, 0x90, 0xF0, 0x90, 0x90] ∧
    (ExecuteOpcode (ResetNDEBUG 1000 (sampleCPU.setV 3 0xA) sampleEnv) sampleEnv
      0xF329).2.ram_.mem_ (5 * 0xA) ≠ fontSpriteData.getD (5 * 0xA) 0 := by
  decide

end Chip8
